import Mathlib

/-!
Verification of the in-memory cluster state model of the VPA recommender
(`vertical-pod-autoscaler/pkg/recommender/model/cluster.go`).

The Go maps of the source are embedded as association lists
(`List (K × V)`), Go `time.Time`/`time.Duration` as `Int` (nanoseconds),
and the in-place mutations of the source as state-passing functions on a
`ClusterState` structure.  External collaborator types that live outside
the given source file (the `Vpa` policy object, the
`AggregateContainerState` accumulator, the `ContainerState` accumulator,
label-selector matching and the controller fetcher) are modelled from the
specification; each such definition carries a doc comment starting with
`Modelled from the spec:`.
-/

namespace VpaModel

/-! ## Association-list maps (shallow embedding of Go maps) -/

/-- Lookup in an association list; embeds Go map indexing `m[k]`. -/
def alookup {K V : Type} [DecidableEq K] : List (K × V) → K → Option V
  | [], _ => none
  | (k, v) :: rest, key => if k = key then some v else alookup rest key

/-- Remove every binding of a key; embeds Go `delete(m, k)`. -/
def aerase {K V : Type} [DecidableEq K] (l : List (K × V)) (key : K) : List (K × V) :=
  l.filter fun kv => kv.1 ≠ key

/-- Update the value bound to a key in place; embeds Go `m[k] = f(m[k])`
for a key that is already present. -/
def amap {K V : Type} [DecidableEq K] (l : List (K × V)) (key : K) (f : V → V) :
    List (K × V) :=
  l.map fun kv => if kv.1 = key then (kv.1, f kv.2) else kv

/-- Insert-or-replace; embeds Go `m[k] = v`. -/
def aset {K V : Type} [DecidableEq K] (l : List (K × V)) (key : K) (v : V) :
    List (K × V) :=
  if (alookup l key).isSome then amap l key (fun _ => v) else (key, v) :: l

/-- The keys of an association list are pairwise distinct (Go maps hold
each key at most once). -/
def nodupKeys {K V : Type} (l : List (K × V)) : Prop :=
  (l.map Prod.fst).Nodup

instance {K V : Type} [DecidableEq K] (l : List (K × V)) : Decidable (nodupKeys l) := by
  unfold nodupKeys; infer_instance

/-! ## Identifiers and basic data (`types.go` layer of the model package) -/

/-- Time instants, in nanoseconds (Go `time.Time`). -/
abbrev Time := Int

/-- Durations, in nanoseconds (Go `time.Duration`). -/
abbrev Duration := Int

/-- PodID identifies a pod: (namespace, name). -/
structure PodID where
  Namespace : String
  PodName : String
deriving DecidableEq

/-- ContainerID identifies a container inside a pod. -/
structure ContainerID where
  podID : PodID
  containerName : String
deriving DecidableEq

/-- VpaID identifies a VPA policy object: (namespace, name). -/
structure VpaID where
  Namespace : String
  VpaName : String
deriving DecidableEq

/-- A label set in canonical form.  Go's `labels.Set.String()` produces a
canonical string uniquely determined by the key/value content; we identify
a label set with that canonical form, so equality of `LabelSet` values is
equality of the Go canonical strings. -/
abbrev LabelSet := List (String × String)

/-- The interning key of a label set (`labelSetKey` in the source is the
canonical string form; under the identification above it is the label set
itself). -/
abbrev LabelSetKey := LabelSet

/-- The label-set interner `labelSetMap`: the set of label-set keys that
have been interned.  Looking up an interned key yields its label set;
looking up a missing key yields the Go zero value (the empty set). -/
abbrev LabelSetMap := List LabelSetKey

/-- Insert a key into the interner (`getLabelSetKey` stores
`labelSetMap[key] = labelSet`; re-inserting is idempotent). -/
def lsmInsert (m : LabelSetMap) (k : LabelSetKey) : LabelSetMap :=
  if k ∈ m then m else k :: m

/-- Read the label set stored under a key, with Go's zero-value default
for a missing key. -/
def lookupLabelSet (m : LabelSetMap) (k : LabelSetKey) : LabelSet :=
  if k ∈ m then k else []

/-- Pod lifecycle phase (Go `apiv1.PodPhase`). -/
inductive PodPhase where
  | pending | running | succeeded | failed | unknown
deriving DecidableEq

/-- Requested resources of a container (opaque to this file's logic). -/
abbrev Resources := List (String × Int)

/-- AggregateStateKey identifies one aggregation bucket:
(namespace, container name, interned label-set key).  The source struct
also stores a pointer to the cluster-wide `labelSetMap`; since every key
of one cluster state shares that pointer, equality reduces to the three
fields kept here. -/
structure AggregateStateKey where
  Namespace : String
  ContainerName : String
  labelSetKey : LabelSetKey
deriving DecidableEq

/-! ## Spec-modelled collaborators -/

/-- Modelled from the spec: `PodLabelsMatchVPA` (package `utils/vpa`, not
under src/): a pod's (namespace, label set) matches a policy's
(namespace, selector) iff the namespaces are equal and the selector
matches the label set.  A selector is modelled as a conjunctive list of
required label key/value pairs in canonical form; equality of `Selector`
values embeds equality of the Go canonical selector strings. -/
abbrev Selector := List (String × String)

/-- Modelled from the spec: selector matching — every requirement of the
selector is present in the label set. -/
def selMatches (sel : Selector) (ls : LabelSet) : Bool :=
  sel.all fun req => decide (req ∈ ls)

/-- Modelled from the spec: `PodLabelsMatchVPA` from `utils/vpa`. -/
def podLabelsMatchVPA (podNamespace : String) (ls : LabelSet)
    (vpaNamespace : String) (sel : Selector) : Bool :=
  podNamespace == vpaNamespace && selMatches sel ls

/-- Modelled from the spec: the target-controller reference carried by a
policy object (`vpa_types.CrossVersionObjectReference`). -/
structure TargetRef where
  Kind : String
  Name : String
  APIVersion : String
deriving DecidableEq

/-- Controller key with API version, as produced for the controller
fetcher (flattened embedded struct). -/
structure ControllerKeyWithAPIVersion where
  Namespace : String
  Kind : String
  Name : String
  ApiVersion : String
deriving DecidableEq

/-- Modelled from the spec: the external controller-fetcher collaborator.
`FindTopMostWellKnownOrScalable` is a function from a controller key to
the top-most controller, or `none` when no such controller exists. -/
abbrev ControllerFetcher :=
  ControllerKeyWithAPIVersion → Option ControllerKeyWithAPIVersion

/-- Modelled from the spec: one entry of a recommendation
(`vpa_types.RecommendedContainerResources`), opaque here. -/
abbrev ContainerRecommendation := String

/-- Modelled from the spec: a recommendation object
(`vpa_types.RecommendedPodResources`). -/
structure RecommendedPodResources where
  ContainerRecommendations : List ContainerRecommendation
deriving DecidableEq

/-- Modelled from the spec: a VPA status condition, reduced to the fields
read by the source (`Type` and `Status`). -/
structure VpaCondition where
  CondType : String
  Status : String
deriving DecidableEq

/-- Modelled from the spec: the statistical accumulator for one
aggregation key (`AggregateContainerState`, not under src/).  It exposes
emptiness (no samples), expiry by age, and a not-autoscaled marker. -/
structure AggregateContainerState where
  TotalSamplesCount : Nat
  CreationTime : Time
  LastSampleStart : Time
  IsUnderVPA : Bool
deriving DecidableEq

/-- Modelled from the spec: age threshold after which an aggregation is
expired (nominally 8 days, in nanoseconds). -/
def AggregateContainerStateLifespan : Duration := 8 * 24 * 60 * 60 * 1000000000

/-- Modelled from the spec: a fresh accumulator has no samples and records
its creation time. -/
def NewAggregateContainerState (now : Time) : AggregateContainerState :=
  { TotalSamplesCount := 0, CreationTime := now, LastSampleStart := 0, IsUnderVPA := false }

/-- Modelled from the spec: an aggregation is currently empty iff it holds
no samples. -/
def AggregateContainerState.isEmpty (a : AggregateContainerState) : Bool :=
  a.TotalSamplesCount == 0

/-- Modelled from the spec: an aggregation is expired when its last sample
is too old to matter (more than the lifespan ago), or — when it has no
samples — when it was created more than the lifespan ago. -/
def AggregateContainerState.isExpired (a : AggregateContainerState) (now : Time) : Bool :=
  if a.isEmpty then decide (AggregateContainerStateLifespan < now - a.CreationTime)
  else decide (AggregateContainerStateLifespan < now - a.LastSampleStart)

/-- Modelled from the spec: mark the accumulator as no longer governed by
any policy. -/
def AggregateContainerState.markNotAutoscaled (a : AggregateContainerState) :
    AggregateContainerState :=
  { a with IsUnderVPA := false }

/-- Modelled from the spec: accept one usage sample into the accumulator. -/
def AggregateContainerState.addSampleAt (a : AggregateContainerState) (measureStart : Time) :
    AggregateContainerState :=
  { a with TotalSamplesCount := a.TotalSamplesCount + 1, LastSampleStart := measureStart }

/-- Modelled from the spec: the policy object ("Vpa", `vpa.go`, not under
src/).  It holds the id, the pod selector, a private set of links into the
aggregation index (stored as the key set, dereferenced through the index),
a live pod count and the fields refreshed from the API object. -/
structure Vpa where
  ID : VpaID
  PodSelector : Selector
  aggregateContainerStates : List AggregateStateKey
  PodCount : Int
  TargetRef : Option TargetRef
  Annotations : List (String × String)
  Conditions : List (String × VpaCondition)
  Recommendation : Option RecommendedPodResources
  UpdateMode : Option String
  ResourcePolicy : Option String
  APIVersion : String
  Created : Time
deriving DecidableEq

/-- Modelled from the spec: a freshly created policy object with no links
and pod count zero. -/
def NewVpa (id : VpaID) (selector : Selector) (created : Time) : Vpa :=
  { ID := id, PodSelector := selector, aggregateContainerStates := [],
    PodCount := 0, TargetRef := none, Annotations := [], Conditions := [],
    Recommendation := none, UpdateMode := none, ResourcePolicy := none,
    APIVersion := "", Created := created }

/-- Modelled from the spec: whether the policy holds a link to the given
aggregation key (`has-link`). -/
def Vpa.hasAggregation (vpa : Vpa) (key : AggregateStateKey) : Bool :=
  decide (key ∈ vpa.aggregateContainerStates)

/-- Modelled from the spec: does an aggregation key's (namespace, label
set) match the policy's (namespace, selector)?  The key's label set is
read through the cluster-wide label-set interner. -/
def vpaMatchesAggregation (lsm : LabelSetMap) (vpa : Vpa) (key : AggregateStateKey) : Bool :=
  podLabelsMatchVPA key.Namespace (lookupLabelSet lsm key.labelSetKey)
    vpa.ID.Namespace vpa.PodSelector

/-- Modelled from the spec: `link-if-matching`: add a link to the key if it
matches the policy's namespace and selector and is not yet linked. -/
def Vpa.useAggregationIfMatching (vpa : Vpa) (lsm : LabelSetMap)
    (key : AggregateStateKey) : Vpa :=
  if vpaMatchesAggregation lsm vpa key && !(vpa.hasAggregation key) then
    { vpa with aggregateContainerStates := key :: vpa.aggregateContainerStates }
  else vpa

/-- Modelled from the spec: `unlink`: drop the link to the given key. -/
def Vpa.deleteAggregation (vpa : Vpa) (key : AggregateStateKey) : Vpa :=
  { vpa with aggregateContainerStates :=
      vpa.aggregateContainerStates.filter fun k => k ≠ key }

/-- How a container refers to its aggregation.  `proxy` embeds
`ContainerStateAggregatorProxy` (installed on container creation), which
resolves `findOrCreateAggregateContainerState` through the cluster on
every use; `direct k` embeds the plain `*AggregateContainerState` pointer
installed by `AddOrUpdatePod` after a label change, identified by the
index key it was resolved at. -/
inductive ContainerStateAggregator where
  | proxy
  | direct (key : AggregateStateKey)
deriving DecidableEq

/-- Modelled from the spec: the per-container accumulator (`ContainerState`
in `container.go`, not under src/), reduced to the fields this file's
logic reads: the requested resources, the aggregation reference, and the
ordering state used to reject out-of-order samples. -/
structure ContainerState where
  Request : Resources
  aggregator : ContainerStateAggregator
  lastSampleStart : Option Time
deriving DecidableEq

/-- Modelled from the spec: a new container state with the given request
and aggregation reference. -/
def NewContainerState (request : Resources) (aggregator : ContainerStateAggregator) :
    ContainerState :=
  { Request := request, aggregator := aggregator, lastSampleStart := none }

/-- PodState holds the runtime information about a single pod. -/
structure PodState where
  ID : PodID
  labelSetKey : LabelSetKey
  Containers : List (String × ContainerState)
  InitContainers : List String
  Phase : PodPhase
deriving DecidableEq

/-- A fresh pod state (`newPod`): no containers, zero-valued label-set key
and phase. -/
def newPod (id : PodID) : PodState :=
  { ID := id, labelSetKey := [], Containers := [], InitContainers := [],
    Phase := PodPhase.pending }

/-- A usage sample (`ContainerUsageSample`), reduced to the fields the
model's logic reads. -/
structure ContainerUsageSample where
  MeasureStart : Time
  Usage : Int
  Resource : String
deriving DecidableEq

/-- A usage sample together with the container it belongs to
(`ContainerUsageSampleWithKey`). -/
structure ContainerUsageSampleWithKey where
  MeasureStart : Time
  Usage : Int
  Resource : String
  Container : ContainerID
deriving DecidableEq

/-- The key carried by a `KeyError` (`NewKeyError` wraps an arbitrary
key value). -/
inductive KeyErrorKey where
  | pod (id : PodID)
  | container (id : ContainerID)
  | containerName (name : String)
  | vpa (id : VpaID)
deriving DecidableEq

/-- The error values returned by the cluster state operations. -/
inductive ClusterError where
  | keyError (key : KeyErrorKey)
  | sampleDiscarded
  | oomError
  | staleRecommendation (id : VpaID)
deriving DecidableEq

/-- The VPA API object snapshot consumed by `AddOrUpdateVpa`, reduced to
the fields the source reads. -/
structure VerticalPodAutoscaler where
  Namespace : String
  Name : String
  Annotations : List (String × String)
  StatusConditions : List VpaCondition
  StatusRecommendation : Option RecommendedPodResources
  SpecTargetRef : Option TargetRef
  SpecUpdatePolicy : Option String
  SpecResourcePolicy : Option String
  APIVersion : String
  CreationTimestamp : Time
deriving DecidableEq

/-- RecommendationMissingMaxDuration is the maximum time a recommendation
may be missing before `RecordRecommendation` reports it (30 minutes, in
nanoseconds). -/
def RecommendationMissingMaxDuration : Duration := 30 * 60 * 1000000000

/-! ## The cluster state -/

/-- ClusterState holds the runtime information about the cluster: the pod
and policy registries, the staleness tracking map, the aggregation index,
the label-set interner and the GC rate-limiting state. -/
structure ClusterState where
  pods : List (PodID × PodState)
  vpas : List (VpaID × Vpa)
  emptyVPAs : VpaID → Option Time
  aggregateStateMap : List (AggregateStateKey × AggregateContainerState)
  labelSetMap : LabelSetMap
  lastAggregateContainerStateGC : Time
  gcInterval : Duration

/-- NewClusterState returns a fresh cluster state with no pods. -/
def NewClusterState (gcInterval : Duration) : ClusterState :=
  { pods := [], vpas := [], emptyVPAs := fun _ => none, aggregateStateMap := [],
    labelSetMap := [], lastAggregateContainerStateGC := 0, gcInterval := gcInterval }

/-- Whether the pod's (namespace, label set) matches the policy's
(namespace, selector), through the cluster's label-set interner (the
comparison done by `addPodToItsVpa`, `removePodFromItsVpa`,
`GetMatchingPods` and `GetControllingVPA`). -/
def podMatchesVpa (s : ClusterState) (pod : PodState) (vpa : Vpa) : Bool :=
  podLabelsMatchVPA pod.ID.Namespace (lookupLabelSet s.labelSetMap pod.labelSetKey)
    vpa.ID.Namespace vpa.PodSelector

/-- addPodToItsVpa increases the pod count of every matching policy. -/
def addPodToItsVpa (s : ClusterState) (pod : PodState) : ClusterState :=
  { s with vpas := s.vpas.map fun iv =>
      if podMatchesVpa s pod iv.2 then (iv.1, { iv.2 with PodCount := iv.2.PodCount + 1 })
      else iv }

/-- removePodFromItsVpa decreases the pod count of every matching policy. -/
def removePodFromItsVpa (s : ClusterState) (pod : PodState) : ClusterState :=
  { s with vpas := s.vpas.map fun iv =>
      if podMatchesVpa s pod iv.2 then (iv.1, { iv.2 with PodCount := iv.2.PodCount - 1 })
      else iv }

/-- MakeAggregateStateKey returns the aggregation key for a container with
the given name in the given pod. -/
def MakeAggregateStateKey (pod : PodState) (containerName : String) : AggregateStateKey :=
  { Namespace := pod.ID.Namespace, ContainerName := containerName,
    labelSetKey := pod.labelSetKey }

/-- aggregateStateKeyForContainerID derives the aggregation key of a
container id; `none` embeds the source's panic when the pod is absent
(internal misuse, unreachable from the exported operations). -/
def aggregateStateKeyForContainerID (s : ClusterState) (containerID : ContainerID) :
    Option AggregateStateKey :=
  (alookup s.pods containerID.podID).map fun pod =>
    MakeAggregateStateKey pod containerID.containerName

/-- findOrCreateAggregateContainerState returns the (possibly newly
created) aggregation for a container id, creating the index entry and
linking it into every matching policy when absent.  The creation time of
a new accumulator is the ambient clock `now` (Go reads the wall clock).
Returns the index key standing for the returned pointer. -/
def findOrCreateAggregateContainerState (s : ClusterState) (now : Time)
    (containerID : ContainerID) : Option (ClusterState × AggregateStateKey) :=
  match aggregateStateKeyForContainerID s containerID with
  | none => none
  | some aggregateStateKey =>
    match alookup s.aggregateStateMap aggregateStateKey with
    | some _ => some (s, aggregateStateKey)
    | none =>
      let matched := s.vpas.any fun iv => vpaMatchesAggregation s.labelSetMap iv.2 aggregateStateKey
      let acs := { NewAggregateContainerState now with IsUnderVPA := matched }
      some ({ s with
        aggregateStateMap := (aggregateStateKey, acs) :: s.aggregateStateMap,
        vpas := s.vpas.map fun iv =>
          (iv.1, iv.2.useAggregationIfMatching s.labelSetMap aggregateStateKey) },
        aggregateStateKey)

/-- Overwrite a pod's phase in the registry. -/
def setPodPhase (pods : List (PodID × PodState)) (podID : PodID) (phase : PodPhase) :
    List (PodID × PodState) :=
  amap pods podID fun p => { p with Phase := phase }

/-- One iteration of `AddOrUpdatePod`'s re-pointing loop: resolve (or
create) the aggregation for one container of the pod and install the
resulting direct reference on that container. -/
def repointStep (now : Time) (podID : PodID) (t : ClusterState)
    (cv : String × ContainerState) : ClusterState :=
  match findOrCreateAggregateContainerState t now ⟨podID, cv.1⟩ with
  | none => t
  | some tk =>
    { tk.1 with pods := amap tk.1.pods podID fun p =>
        { p with Containers := amap p.Containers cv.1 fun c =>
            { c with aggregator := ContainerStateAggregator.direct tk.2 } } }

/-- The tail of `AddOrUpdatePod` shared by the new-pod and changed-key
cases: set the pod's label-set key, re-point every existing container's
aggregation reference to the entry for the new key (creating entries as
needed), link the pod into every matching policy's count, and overwrite
the phase. -/
def addOrUpdatePodChanged (t : ClusterState) (now : Time) (podID : PodID)
    (pod : PodState) (newLabels : LabelSet) (phase : PodPhase) : ClusterState :=
  let pod1 := { pod with labelSetKey := newLabels }
  let s4 := { t with pods := amap t.pods podID fun _ => pod1 }
  let s5 := pod1.Containers.foldl (repointStep now podID) s4
  let s6 := addPodToItsVpa s5 pod1
  { s6 with pods := setPodPhase s6.pods podID phase }

/-- AddOrUpdatePod creates or updates the pod with the given id.  When the
effective label-set key changes (including first creation) it unlinks the
pod from the policies it counted toward, re-points its containers and
re-links the pod (`addOrUpdatePodChanged`).  The phase is always
overwritten, and the new label set is always interned.  `now` is the
ambient clock used as creation time for newly created aggregations.  The
source's two conditionals (`podExists && labelSetKey changed` for the
unlink, `!podExists || labelSetKey changed` for the re-point and re-link)
are spelled out here as the three cases they produce: new pod, existing
pod with unchanged key, existing pod with changed key. -/
def AddOrUpdatePod (s : ClusterState) (now : Time) (podID : PodID)
    (newLabels : LabelSet) (phase : PodPhase) : ClusterState :=
  match alookup s.pods podID with
  | none =>
    let pod := newPod podID
    let s1 := { s with pods := (podID, pod) :: s.pods }
    let s2 := { s1 with labelSetMap := lsmInsert s1.labelSetMap newLabels }
    addOrUpdatePodChanged s2 now podID pod newLabels phase
  | some pod =>
    let s2 := { s with labelSetMap := lsmInsert s.labelSetMap newLabels }
    if pod.labelSetKey = newLabels then
      { s2 with pods := setPodPhase s2.pods podID phase }
    else
      addOrUpdatePodChanged (removePodFromItsVpa s2 pod) now podID pod newLabels phase

/-- DeletePod removes an existing pod from the cluster, unlinking it from
the policies it counted toward; no-op when absent. -/
def DeletePod (s : ClusterState) (podID : PodID) : ClusterState :=
  let s1 := match alookup s.pods podID with
    | some pod => removePodFromItsVpa s pod
    | none => s
  { s1 with pods := aerase s1.pods podID }

/-- AddOrUpdateContainer creates a container under its parent pod (failing
with a key error when the pod is absent), ensuring the aggregation index
has an entry for its key; for an existing container only the requested
resources are updated. -/
def AddOrUpdateContainer (s : ClusterState) (now : Time) (containerID : ContainerID)
    (request : Resources) : ClusterState × Option ClusterError :=
  match alookup s.pods containerID.podID with
  | none => (s, some (ClusterError.keyError (KeyErrorKey.pod containerID.podID)))
  | some pod =>
    match alookup pod.Containers containerID.containerName with
    | none =>
      match findOrCreateAggregateContainerState s now containerID with
      | none => (s, none)
      | some tk =>
        let fresh := NewContainerState request ContainerStateAggregator.proxy
        let addC := fun (p : PodState) =>
          { p with Containers := aset p.Containers containerID.containerName fresh }
        ({ tk.1 with pods := amap tk.1.pods containerID.podID addC }, none)
    | some _ =>
      let setReq := fun (c : ContainerState) => { c with Request := request }
      let updC := fun (p : PodState) =>
        { p with Containers := amap p.Containers containerID.containerName setReq }
      ({ s with pods := amap s.pods containerID.podID updC }, none)

/-- Route one accepted sample to the container's aggregation reference: a
`direct` reference updates the index entry it points at (a dangling
reference after GC mutates only the orphaned object, which is
unobservable); a `proxy` reference resolves
`findOrCreateAggregateContainerState` first, recreating the entry if it
was collected. -/
def aggregatorAddSampleAt (s : ClusterState) (containerID : ContainerID)
    (aggregator : ContainerStateAggregator) (measureStart : Time) : ClusterState :=
  match aggregator with
  | ContainerStateAggregator.direct key =>
    { s with aggregateStateMap := amap s.aggregateStateMap key fun a =>
        a.addSampleAt measureStart }
  | ContainerStateAggregator.proxy =>
    match findOrCreateAggregateContainerState s measureStart containerID with
    | none => s
    | some tk =>
      { tk.1 with aggregateStateMap := amap tk.1.aggregateStateMap tk.2 fun a =>
          a.addSampleAt measureStart }

/-- Modelled from the spec: validity test of `ContainerState.AddSample`
(`container.go`, not under src/): a sample is rejected when it is invalid
(negative usage) or out of order (measured no later than the previous
sample); a rejected sample does not corrupt state. -/
def containerAcceptsSample (c : ContainerState) (sample : ContainerUsageSample) : Bool :=
  decide (0 ≤ sample.Usage) &&
    (match c.lastSampleStart with
     | none => true
     | some t => decide (t < sample.MeasureStart))

/-- AddSample adds a usage sample to the proper container; fails with a
key error when the pod or container is not registered, and with a
sample-discarded error when the container's accumulator rejects it. -/
def AddSample (s : ClusterState) (sample : ContainerUsageSampleWithKey) :
    ClusterState × Option ClusterError :=
  match alookup s.pods sample.Container.podID with
  | none => (s, some (ClusterError.keyError (KeyErrorKey.pod sample.Container.podID)))
  | some pod =>
    match alookup pod.Containers sample.Container.containerName with
    | none => (s, some (ClusterError.keyError (KeyErrorKey.container sample.Container)))
    | some containerState =>
      let usageSample : ContainerUsageSample :=
        { MeasureStart := sample.MeasureStart, Usage := sample.Usage,
          Resource := sample.Resource }
      if containerAcceptsSample containerState usageSample then
        let s1 := aggregatorAddSampleAt s sample.Container containerState.aggregator
          sample.MeasureStart
        let setLast := fun (c : ContainerState) =>
          { c with lastSampleStart := some sample.MeasureStart }
        let updC := fun (p : PodState) =>
          { p with Containers := amap p.Containers sample.Container.containerName setLast }
        ({ s1 with pods := amap s1.pods sample.Container.podID updC }, none)
      else (s, some ClusterError.sampleDiscarded)

/-- RecordOOM records an OOM event as an artificial memory sample; fails
with a key error when the pod or container is not registered, and wraps a
failure of the container accumulator (modelled from the spec as a negative
requested memory) into an OOM error. -/
def RecordOOM (s : ClusterState) (containerID : ContainerID) (timestamp : Time)
    (requestedMemory : Int) : ClusterState × Option ClusterError :=
  match alookup s.pods containerID.podID with
  | none => (s, some (ClusterError.keyError (KeyErrorKey.pod containerID.podID)))
  | some pod =>
    match alookup pod.Containers containerID.containerName with
    | none =>
      (s, some (ClusterError.keyError (KeyErrorKey.containerName containerID.containerName)))
    | some containerState =>
      if requestedMemory < 0 then (s, some ClusterError.oomError)
      else (aggregatorAddSampleAt s containerID containerState.aggregator timestamp, none)

/-- GetMatchingPods returns the pods whose (namespace, label set) matches
the policy; a linear scan of all pods. -/
def GetMatchingPods (s : ClusterState) (vpa : Vpa) : List PodID :=
  s.pods.filterMap fun iv =>
    if podLabelsMatchVPA iv.1.Namespace (lookupLabelSet s.labelSetMap iv.2.labelSetKey)
        vpa.ID.Namespace vpa.PodSelector
    then some iv.1 else none

/-- GetControllingVPA returns the first policy (in registry order) whose
(namespace, selector) matches the pod. -/
def GetControllingVPA (s : ClusterState) (pod : PodState) : Option Vpa :=
  s.vpas.findSome? fun iv => if podMatchesVpa s pod iv.2 then some iv.2 else none

/-- GetControllerForPodUnderVPA resolves the top-most controller of the
policy controlling the pod through the controller fetcher; `none` when no
policy controls the pod.  A controlling policy without a target reference
is modelled as having no resolvable controller. -/
def GetControllerForPodUnderVPA (s : ClusterState) (cf : ControllerFetcher)
    (pod : PodState) : Option ControllerKeyWithAPIVersion :=
  match GetControllingVPA s pod with
  | none => none
  | some controllingVPA =>
    match controllingVPA.TargetRef with
    | none => none
    | some tr =>
      cf { Namespace := controllingVPA.ID.Namespace, Kind := tr.Kind,
           Name := tr.Name, ApiVersion := tr.APIVersion }

/-- Build the conditions map of an API object (`conditionsMap[c.Type] = c`
over the status conditions, later entries overwriting earlier ones). -/
def buildConditionsMap (conds : List VpaCondition) : List (String × VpaCondition) :=
  conds.foldl (fun m c => aset m c.CondType c) []

/-- The recommendation currently provided by the API object: the status
recommendation when the `RecommendationProvided` condition is `True`
(with Go's zero-valued condition for a missing entry), otherwise none. -/
def currentRecommendationOf (apiObject : VerticalPodAutoscaler) :
    Option RecommendedPodResources :=
  let conditionsMap := buildConditionsMap apiObject.StatusConditions
  let status := match alookup conditionsMap "RecommendationProvided" with
    | some c => c.Status
    | none => ""
  if status = "True" then apiObject.StatusRecommendation else none

/-- Refresh the fields of a policy object from the supplied API object
(the unconditional tail of `AddOrUpdateVpa`). -/
def refreshVpaFields (vpa : Vpa) (apiObject : VerticalPodAutoscaler) : Vpa :=
  { vpa with
    TargetRef := apiObject.SpecTargetRef,
    Annotations := apiObject.Annotations,
    Conditions := buildConditionsMap apiObject.StatusConditions,
    Recommendation := currentRecommendationOf apiObject,
    UpdateMode := apiObject.SpecUpdatePolicy,
    ResourcePolicy := apiObject.SpecResourcePolicy,
    APIVersion := apiObject.APIVersion }

/-- DeleteVpa removes the policy with the given id, first marking every
aggregation it links to as not-autoscaled and clearing its staleness
tracking entry; fails with a key error when absent. -/
def DeleteVpa (s : ClusterState) (vpaID : VpaID) : ClusterState × Option ClusterError :=
  match alookup s.vpas vpaID with
  | none => (s, some (ClusterError.keyError (KeyErrorKey.vpa vpaID)))
  | some vpa =>
    let marked := vpa.aggregateContainerStates.foldl
      (fun m key => amap m key AggregateContainerState.markNotAutoscaled)
      s.aggregateStateMap
    ({ s with
        aggregateStateMap := marked,
        vpas := aerase s.vpas vpaID,
        emptyVPAs := fun id => if id = vpaID then none else s.emptyVPAs id },
      none)

/-- Seed a newly created policy from the aggregation index: link every
matching entry (the `UseAggregationIfMatching` scan), and mark every
matched entry as under a VPA. -/
def seedVpaFromIndex (s : ClusterState) (vpa : Vpa) : Vpa :=
  s.aggregateStateMap.foldl (fun v kv => v.useAggregationIfMatching s.labelSetMap kv.1) vpa

/-- Mark every index entry matched by the policy as under a VPA (the
side effect of the seeding scan on the aggregations). -/
def markMatchedUnderVpa (s : ClusterState) (vpa : Vpa) :
    List (AggregateStateKey × AggregateContainerState) :=
  s.aggregateStateMap.map fun kv =>
    if vpaMatchesAggregation s.labelSetMap vpa kv.1
    then (kv.1, { kv.2 with IsUnderVPA := true }) else kv

/-- AddOrUpdateVpa adds a new policy object or updates an existing one.
An existing policy with a different selector (compared by canonical form)
is deleted and recreated; a newly created policy is seeded from a full
scan of the aggregation index and its pod count from a full pod scan.
The API-object-derived fields are always refreshed. -/
def AddOrUpdateVpa (s : ClusterState) (apiObject : VerticalPodAutoscaler)
    (selector : Selector) : ClusterState × Option ClusterError :=
  let vpaID : VpaID := { Namespace := apiObject.Namespace, VpaName := apiObject.Name }
  let create := fun (t : ClusterState) =>
    let vpa0 := NewVpa vpaID selector apiObject.CreationTimestamp
    let vpa1 := seedVpaFromIndex t vpa0
    let vpa2 := { vpa1 with PodCount := ((GetMatchingPods t vpa1).length : Int) }
    { t with
      aggregateStateMap := markMatchedUnderVpa t vpa0,
      vpas := (vpaID, refreshVpaFields vpa2 apiObject) :: t.vpas }
  match alookup s.vpas vpaID with
  | none => (create s, none)
  | some vpa =>
    if vpa.PodSelector = selector then
      ({ s with vpas := amap s.vpas vpaID fun v => refreshVpaFields v apiObject }, none)
    else
      match DeleteVpa s vpaID with
      | (_, some e) => (s, some e)
      | (s1, none) => (create s1, none)

/-- Whether a pod is in an active state (neither succeeded nor failed). -/
def podIsActive (pod : PodState) : Bool :=
  !(pod.Phase == PodPhase.succeeded) && !(pod.Phase == PodPhase.failed)

/-- getContributiveAggregateStateKeys collects the keys derivable from the
containers of every pod that is active or whose associated controller
still exists. -/
def getContributiveAggregateStateKeys (s : ClusterState) (cf : ControllerFetcher) :
    List AggregateStateKey :=
  s.pods.foldr
    (fun iv acc =>
      let podControllerExists := (GetControllerForPodUnderVPA s cf iv.2).isSome
      let podActive := podIsActive iv.2
      if podActive || podControllerExists then
        (iv.2.Containers.map fun cv => MakeAggregateStateKey iv.2 cv.1) ++ acc
      else acc)
    []

/-- The set of keys one GC sweep deletes: entries that are empty and not
contributive, or expired as of the sweep time. -/
def gcKeysToDelete (s : ClusterState) (now : Time) (cf : ControllerFetcher) :
    List AggregateStateKey :=
  let contributiveKeys := getContributiveAggregateStateKeys s cf
  s.aggregateStateMap.filterMap fun kv =>
    if !(decide (kv.1 ∈ contributiveKeys)) && kv.2.isEmpty then some kv.1
    else if kv.2.isExpired now then some kv.1
    else none

/-- The deletion loop of a GC sweep: drop each key from the aggregation
index and from every policy's link set. -/
def gcDeleteKeys (keysToDelete : List AggregateStateKey) (s : ClusterState) :
    ClusterState :=
  keysToDelete.foldl
    (fun t key =>
      { t with
        aggregateStateMap := aerase t.aggregateStateMap key,
        vpas := t.vpas.map fun iv => (iv.1, iv.2.deleteAggregation key) })
    s

/-- garbageCollectAggregateCollectionStates removes the aggregations that
are empty and not contributive, or expired by age; every deleted key is
also removed from every policy's link set. -/
def garbageCollectAggregateCollectionStates (s : ClusterState) (now : Time)
    (cf : ControllerFetcher) : ClusterState :=
  gcDeleteKeys (gcKeysToDelete s now cf) s

/-- RateLimitedGarbageCollectAggregateCollectionStates performs a sweep
only when at least `gcInterval` has passed since the last sweep, and then
records the sweep time `now` as the last-run timestamp. -/
def RateLimitedGarbageCollectAggregateCollectionStates (s : ClusterState) (now : Time)
    (cf : ControllerFetcher) : ClusterState :=
  if now - s.lastAggregateContainerStateGC < s.gcInterval then s
  else
    { garbageCollectAggregateCollectionStates s now cf with
      lastAggregateContainerStateGC := now }

/-- RecordRecommendation tracks, per policy, how long a recommendation has
been missing: a non-empty recommendation clears the tracking entry; a
missing recommendation starts tracking at `now`; once the elapsed time
since the first-missing time exceeds the threshold, it re-arms the
timestamp to `now` and fails with a stale-recommendation error. -/
def RecordRecommendation (s : ClusterState) (vpa : Vpa) (now : Time) :
    ClusterState × Option ClusterError :=
  let hasRec := match vpa.Recommendation with
    | some r => decide (0 < r.ContainerRecommendations.length)
    | none => false
  if hasRec then
    ({ s with emptyVPAs := fun id => if id = vpa.ID then none else s.emptyVPAs id }, none)
  else
    match s.emptyVPAs vpa.ID with
    | none =>
      ({ s with emptyVPAs := fun id => if id = vpa.ID then some now else s.emptyVPAs id },
        none)
    | some lastLogged =>
      if lastLogged + RecommendationMissingMaxDuration < now then
        ({ s with emptyVPAs := fun id => if id = vpa.ID then some now else s.emptyVPAs id },
          some (ClusterError.staleRecommendation vpa.ID))
      else (s, none)

/-! ## Mutation sequences -/

/-- One externally triggered mutation of the cluster state.  The `now`
arguments embed the ambient clock where the source reads it. -/
inductive ClusterOp where
  | addOrUpdatePod (now : Time) (podID : PodID) (newLabels : LabelSet) (phase : PodPhase)
  | deletePod (podID : PodID)
  | addOrUpdateContainer (now : Time) (containerID : ContainerID) (request : Resources)
  | addSample (sample : ContainerUsageSampleWithKey)
  | recordOOM (containerID : ContainerID) (timestamp : Time) (requestedMemory : Int)
  | addOrUpdateVpa (apiObject : VerticalPodAutoscaler) (selector : Selector)
  | deleteVpa (vpaID : VpaID)
  | gcSweep (now : Time) (cf : ControllerFetcher)
  | rateLimitedGC (now : Time) (cf : ControllerFetcher)
  | recordRecommendation (vpa : Vpa) (now : Time)

/-- Apply one mutation (discarding the returned error, which never affects
the resulting state beyond what the operation already applied). -/
def applyOp (s : ClusterState) (op : ClusterOp) : ClusterState :=
  match op with
  | ClusterOp.addOrUpdatePod now id ls ph => AddOrUpdatePod s now id ls ph
  | ClusterOp.deletePod id => DeletePod s id
  | ClusterOp.addOrUpdateContainer now cid req => (AddOrUpdateContainer s now cid req).1
  | ClusterOp.addSample sample => (AddSample s sample).1
  | ClusterOp.recordOOM cid t m => (RecordOOM s cid t m).1
  | ClusterOp.addOrUpdateVpa obj sel => (AddOrUpdateVpa s obj sel).1
  | ClusterOp.deleteVpa id => (DeleteVpa s id).1
  | ClusterOp.gcSweep now cf => garbageCollectAggregateCollectionStates s now cf
  | ClusterOp.rateLimitedGC now cf => RateLimitedGarbageCollectAggregateCollectionStates s now cf
  | ClusterOp.recordRecommendation vpa now => (RecordRecommendation s vpa now).1

/-- Run a finite sequence of mutations from a fresh cluster state. -/
def runOps (gcInterval : Duration) (ops : List ClusterOp) : ClusterState :=
  ops.foldl applyOp (NewClusterState gcInterval)

/-- Whether a mutation is a GC sweep (used to state which invariants
survive garbage collection). -/
def ClusterOp.isGC : ClusterOp → Bool
  | ClusterOp.gcSweep _ _ => true
  | ClusterOp.rateLimitedGC _ _ => true
  | _ => false

/-! ## Stated properties -/

/-- The aggregation a container's reference denotes: a proxy denotes the
index entry for the container's current key (it resolves through the
cluster on every use); a direct reference denotes the entry it was
resolved at. -/
def aggregatorTargetKey (pod : PodState) (containerName : String) :
    ContainerStateAggregator → AggregateStateKey
  | ContainerStateAggregator.proxy => MakeAggregateStateKey pod containerName
  | ContainerStateAggregator.direct key => key

/-- Invariant I2: every registered policy holds a link to an aggregation
key present in the index iff the key's (namespace, label set) matches the
policy's (namespace, selector). -/
def LinkInvariant (s : ClusterState) : Prop :=
  ∀ vid vpa, alookup s.vpas vid = some vpa →
  ∀ key acs, alookup s.aggregateStateMap key = some acs →
    (vpa.hasAggregation key = true ↔ vpaMatchesAggregation s.labelSetMap vpa key = true)

/-- Invariant I3: every registered policy's live pod count equals the
number of registered pods whose (namespace, label set) matches the
policy's (namespace, selector). -/
def PodCountInvariant (s : ClusterState) : Prop :=
  ∀ vid vpa, alookup s.vpas vid = some vpa →
    vpa.PodCount = ((GetMatchingPods s vpa).length : Int)

/-- The reference-target half of invariant I1: every container's
aggregation reference denotes the key derived from its pod's current
label-set key and the container's name. -/
def RefTargetInvariant (s : ClusterState) : Prop :=
  ∀ pid pod, alookup s.pods pid = some pod →
  ∀ cn c, alookup pod.Containers cn = some c →
    aggregatorTargetKey pod cn c.aggregator = MakeAggregateStateKey pod cn

/-- The entry-existence half of invariant I1: the aggregation-index entry
for every registered container's current key exists. -/
def RefPresentInvariant (s : ClusterState) : Prop :=
  ∀ pid pod, alookup s.pods pid = some pod →
  ∀ cn c, alookup pod.Containers cn = some c →
    (alookup s.aggregateStateMap (MakeAggregateStateKey pod cn)).isSome = true

/-- Invariant I1 as claimed: every container's aggregation reference
equals the aggregation-index entry for the key derived from its pod's
current label-set key, which in particular exists. -/
def ContainerRefInvariant (s : ClusterState) : Prop :=
  RefTargetInvariant s ∧ RefPresentInvariant s

/-- A key is contributive when it is derivable from the current containers
of some registered pod that is active or whose owning controller can
still be resolved. -/
def ContributiveKeyProp (s : ClusterState) (cf : ControllerFetcher)
    (key : AggregateStateKey) : Prop :=
  ∃ pid pod, (pid, pod) ∈ s.pods ∧
    (podIsActive pod = true ∨ (GetControllerForPodUnderVPA s cf pod).isSome = true) ∧
    ∃ cn c, (cn, c) ∈ pod.Containers ∧ MakeAggregateStateKey pod cn = key

/-- A key is backed by an active pod when some registered active pod
holds a container deriving it. -/
def ActiveBackedKey (s : ClusterState) (key : AggregateStateKey) : Prop :=
  ∃ pid pod, (pid, pod) ∈ s.pods ∧ podIsActive pod = true ∧
    ∃ cn c, (cn, c) ∈ pod.Containers ∧ MakeAggregateStateKey pod cn = key

/-- What one GC sweep does (claim C4): an index entry is deleted iff it is
(not contributive and currently empty) or expired as of the sweep time,
and every deleted key is removed from every policy's link set in the same
sweep. -/
def GCSweepSpec (s : ClusterState) (now : Time) (cf : ControllerFetcher) : Prop :=
  ∀ key acs, alookup s.aggregateStateMap key = some acs →
    ((alookup (garbageCollectAggregateCollectionStates s now cf).aggregateStateMap key
        = none) ↔
      (((¬ ContributiveKeyProp s cf key) ∧ acs.isEmpty = true) ∨ acs.isExpired now = true)) ∧
    (alookup (garbageCollectAggregateCollectionStates s now cf).aggregateStateMap key
        = none →
      ∀ vid vpa,
        alookup (garbageCollectAggregateCollectionStates s now cf).vpas vid = some vpa →
        vpa.hasAggregation key = false)

/-- GC safety (claim C5, amended): an aggregation backed by an active pod
and not expired as of the sweep time survives the sweep unchanged; an
empty aggregation with no contributive pod for its key is deleted by the
sweep. -/
def GCSafetySpec (s : ClusterState) (now : Time) (cf : ControllerFetcher) : Prop :=
  (∀ key acs, alookup s.aggregateStateMap key = some acs →
    ActiveBackedKey s key → acs.isExpired now = false →
    alookup (garbageCollectAggregateCollectionStates s now cf).aggregateStateMap key
      = some acs) ∧
  (∀ key acs, alookup s.aggregateStateMap key = some acs →
    acs.isEmpty = true → ¬ ContributiveKeyProp s cf key →
    alookup (garbageCollectAggregateCollectionStates s now cf).aggregateStateMap key
      = none)

/-- Whether a GC trigger at `now` would perform a sweep: at least the
configured interval has elapsed since the stored last-sweep time. -/
def gcWouldRun (s : ClusterState) (now : Time) : Prop :=
  s.gcInterval ≤ now - s.lastAggregateContainerStateGC

/-- Whether a policy object currently carries a non-empty recommendation. -/
def vpaHasRecommendation (vpa : Vpa) : Bool :=
  match vpa.Recommendation with
  | some r => decide (0 < r.ContainerRecommendations.length)
  | none => false

/-- Behaviour of `RecordRecommendation` (claim C7, amended): a non-empty
recommendation clears tracking and succeeds; first observed emptiness
starts tracking and succeeds; tracked emptiness succeeds unchanged while
the elapsed time is at most the threshold, and fails once (re-arming the
timestamp to `now`) as soon as it strictly exceeds the threshold. -/
def RecordRecommendationSpec (s : ClusterState) (vpa : Vpa) (now : Time) : Prop :=
  (vpaHasRecommendation vpa = true →
    (RecordRecommendation s vpa now).2 = none ∧
    (RecordRecommendation s vpa now).1.emptyVPAs vpa.ID = none) ∧
  (vpaHasRecommendation vpa = false → s.emptyVPAs vpa.ID = none →
    (RecordRecommendation s vpa now).2 = none ∧
    (RecordRecommendation s vpa now).1.emptyVPAs vpa.ID = some now) ∧
  (∀ t0, vpaHasRecommendation vpa = false → s.emptyVPAs vpa.ID = some t0 →
    (now ≤ t0 + RecommendationMissingMaxDuration →
      RecordRecommendation s vpa now = (s, none)) ∧
    (t0 + RecommendationMissingMaxDuration < now →
      (RecordRecommendation s vpa now).2
          = some (ClusterError.staleRecommendation vpa.ID) ∧
      (RecordRecommendation s vpa now).1.emptyVPAs vpa.ID = some now))

/-- Error behaviour of `AddSample` (claim C8): a key error iff the pod or
container is unregistered, a sample-discarded error iff the registered
container's accumulator rejects the sample, success otherwise, and no
state change in any error case. -/
def AddSampleErrorSpec (s : ClusterState) (sample : ContainerUsageSampleWithKey) : Prop :=
  ((∃ k, (AddSample s sample).2 = some (ClusterError.keyError k)) ↔
    (alookup s.pods sample.Container.podID = none ∨
      ∃ pod, alookup s.pods sample.Container.podID = some pod ∧
        alookup pod.Containers sample.Container.containerName = none)) ∧
  ((AddSample s sample).2 = some ClusterError.sampleDiscarded ↔
    ∃ pod c, alookup s.pods sample.Container.podID = some pod ∧
      alookup pod.Containers sample.Container.containerName = some c ∧
      containerAcceptsSample c
        { MeasureStart := sample.MeasureStart, Usage := sample.Usage,
          Resource := sample.Resource } = false) ∧
  (∀ pod c, alookup s.pods sample.Container.podID = some pod →
    alookup pod.Containers sample.Container.containerName = some c →
    containerAcceptsSample c
      { MeasureStart := sample.MeasureStart, Usage := sample.Usage,
        Resource := sample.Resource } = true →
    (AddSample s sample).2 = none) ∧
  ((AddSample s sample).2.isSome = true → (AddSample s sample).1 = s)

/-- Error behaviour of `RecordOOM` (claim C8): a key error iff the pod or
container is unregistered, and no state change in any error case. -/
def RecordOOMErrorSpec (s : ClusterState) (containerID : ContainerID) (timestamp : Time)
    (requestedMemory : Int) : Prop :=
  ((∃ k, (RecordOOM s containerID timestamp requestedMemory).2
      = some (ClusterError.keyError k)) ↔
    (alookup s.pods containerID.podID = none ∨
      ∃ pod, alookup s.pods containerID.podID = some pod ∧
        alookup pod.Containers containerID.containerName = none)) ∧
  ((RecordOOM s containerID timestamp requestedMemory).2.isSome = true →
    (RecordOOM s containerID timestamp requestedMemory).1 = s)

/-- The API-object-derived fields of a policy after `AddOrUpdateVpa`
(claim C9): always refreshed from the supplied object. -/
def vpaFieldsRefreshed (v : Vpa) (apiObject : VerticalPodAutoscaler) : Prop :=
  v.TargetRef = apiObject.SpecTargetRef ∧
  v.Annotations = apiObject.Annotations ∧
  v.Conditions = buildConditionsMap apiObject.StatusConditions ∧
  v.Recommendation = currentRecommendationOf apiObject ∧
  v.UpdateMode = apiObject.SpecUpdatePolicy ∧
  v.ResourcePolicy = apiObject.SpecResourcePolicy ∧
  v.APIVersion = apiObject.APIVersion

/-- A policy seeded from a full scan: it links exactly the matching index
entries and counts exactly the matching pods of the scanned state. -/
def vpaSeeded (s : ClusterState) (v : Vpa) : Prop :=
  (∀ key acs, alookup s.aggregateStateMap key = some acs →
    (v.hasAggregation key = true ↔ vpaMatchesAggregation s.labelSetMap v key = true)) ∧
  (∀ key, v.hasAggregation key = true → (alookup s.aggregateStateMap key).isSome = true) ∧
  v.PodCount = ((GetMatchingPods s v).length : Int)

/-- Behaviour of `AddOrUpdateVpa` (claim C9): never errors; the resulting
policy always has its API-object fields refreshed; a brand-new policy and
a policy recreated because its selector changed are seeded by a full index
scan and a full pod scan; a policy whose selector is unchanged keeps its
links, count and selector. -/
def AddOrUpdateVpaSpec (s : ClusterState) (apiObject : VerticalPodAutoscaler)
    (selector : Selector) : Prop :=
  (AddOrUpdateVpa s apiObject selector).2 = none ∧
  ∃ v', alookup (AddOrUpdateVpa s apiObject selector).1.vpas
      { Namespace := apiObject.Namespace, VpaName := apiObject.Name } = some v' ∧
    vpaFieldsRefreshed v' apiObject ∧
    (alookup s.vpas { Namespace := apiObject.Namespace, VpaName := apiObject.Name }
        = none →
      v'.PodSelector = selector ∧ vpaSeeded s v') ∧
    (∀ old, alookup s.vpas { Namespace := apiObject.Namespace, VpaName := apiObject.Name }
        = some old →
      (old.PodSelector = selector →
        v'.PodSelector = old.PodSelector ∧
        v'.aggregateContainerStates = old.aggregateContainerStates ∧
        v'.PodCount = old.PodCount) ∧
      (old.PodSelector ≠ selector →
        v'.PodSelector = selector ∧ vpaSeeded s v'))

/-- Behaviour of `DeleteVpa` (claim C10): a key error iff the policy is
absent (with no state change); otherwise every linked aggregation is
marked not-autoscaled, the policy is removed from the registry, and its
staleness tracking entry is cleared. -/
def DeleteVpaSpec (s : ClusterState) (vpaID : VpaID) : Prop :=
  ((DeleteVpa s vpaID).2 = some (ClusterError.keyError (KeyErrorKey.vpa vpaID)) ↔
    alookup s.vpas vpaID = none) ∧
  (alookup s.vpas vpaID = none → (DeleteVpa s vpaID).1 = s) ∧
  (∀ vpa, alookup s.vpas vpaID = some vpa →
    (DeleteVpa s vpaID).2 = none ∧
    alookup (DeleteVpa s vpaID).1.vpas vpaID = none ∧
    (DeleteVpa s vpaID).1.emptyVPAs vpaID = none ∧
    (∀ key, vpa.hasAggregation key = true →
      alookup (DeleteVpa s vpaID).1.aggregateStateMap key
        = (alookup s.aggregateStateMap key).map AggregateContainerState.markNotAutoscaled))

/-- The behaviour of `AddOrUpdatePod` claimed by I1's "in particular"
clause: the phase is always overwritten, and when the pod is new or its
label-set key changed, every container of the pod is re-pointed to the
(existing) index entry for the new key. -/
def AddOrUpdatePodRepointSpec (s : ClusterState) (now : Time) (podID : PodID)
    (newLabels : LabelSet) (phase : PodPhase) : Prop :=
  ∃ pod', alookup (AddOrUpdatePod s now podID newLabels phase).pods podID = some pod' ∧
    pod'.Phase = phase ∧
    ((match alookup s.pods podID with
      | none => True
      | some pod => pod.labelSetKey ≠ newLabels) →
      pod'.labelSetKey = newLabels ∧
      (∀ cn c, alookup pod'.Containers cn = some c →
        aggregatorTargetKey pod' cn c.aggregator = MakeAggregateStateKey pod' cn ∧
        (alookup (AddOrUpdatePod s now podID newLabels phase).aggregateStateMap
            (MakeAggregateStateKey pod' cn)).isSome = true))

/-- The well-formedness core maintained even by the intermediate states of
a mutation: distinct map keys, identifier coherence, closure of all stored
label-set keys under the interner, closure of policy links under the index
domain, and the link invariant I2. -/
structure CoreInv (s : ClusterState) : Prop where
  podsND : nodupKeys s.pods
  vpasND : nodupKeys s.vpas
  aggND : nodupKeys s.aggregateStateMap
  podIDF : ∀ pid pod, alookup s.pods pid = some pod → pod.ID = pid
  vpaIDF : ∀ vid vpa, alookup s.vpas vid = some vpa → vpa.ID = vid
  contND : ∀ pid pod, alookup s.pods pid = some pod → nodupKeys pod.Containers
  podLsk : ∀ pid pod, alookup s.pods pid = some pod →
    pod.labelSetKey ∈ s.labelSetMap ∨ pod.labelSetKey = []
  keyLsk : ∀ key acs, alookup s.aggregateStateMap key = some acs →
    key.labelSetKey ∈ s.labelSetMap ∨ key.labelSetKey = []
  linkDom : ∀ vid vpa, alookup s.vpas vid = some vpa →
    ∀ key, vpa.hasAggregation key = true →
      (alookup s.aggregateStateMap key).isSome = true
  link : LinkInvariant s

/-- The well-formedness and cross-reference invariants maintained by every
mutation (I2, I3, the reference-target half of I1, and the bookkeeping
facts they rest on). -/
structure Inv (s : ClusterState) extends CoreInv s : Prop where
  count : PodCountInvariant s
  ref : RefTargetInvariant s

/-! ## Proof-layer definitions -/

/-- Indicator of a pod-registry entry matching a (namespace, selector). -/
def podMatchInd (lsm : LabelSetMap) (ns : String) (sel : Selector)
    (iv : PodID × PodState) : Int :=
  if podLabelsMatchVPA iv.1.Namespace (lookupLabelSet lsm iv.2.labelSetKey) ns sel
  then 1 else 0

/-- The number of pod-registry entries matching a (namespace, selector),
as an integer. -/
def matchCount (lsm : LabelSetMap) (ns : String) (sel : Selector)
    (pods : List (PodID × PodState)) : Int :=
  (pods.map (podMatchInd lsm ns sel)).sum

/-- The fields of a (possibly looked-up) policy that determine its
matching behaviour and pod count. -/
def vpaCountProfile (o : Option Vpa) : Option (VpaID × Selector × Int) :=
  o.map fun v => (v.ID, v.PodSelector, v.PodCount)

/-- What the re-pointing loop of `AddOrUpdatePod` establishes, relating
the state `t` after folding `repointStep` over the container list `l` to
the state `t0` and the tracked pod value `p0` before the fold. -/
structure RepointFacts (podID : PodID) (l : List (String × ContainerState))
    (t0 : ClusterState) (p0 : PodState) (t : ClusterState) : Prop where
  core : CoreInv t
  lsm : t.labelSetMap = t0.labelSetMap
  emp : t.emptyVPAs = t0.emptyVPAs
  gcT : t.lastAggregateContainerStateGC = t0.lastAggregateContainerStateGC
  gcI : t.gcInterval = t0.gcInterval
  othPods : ∀ pid, pid ≠ podID → alookup t.pods pid = alookup t0.pods pid
  aggMono : ∀ k, (alookup t0.aggregateStateMap k).isSome = true →
    (alookup t.aggregateStateMap k).isSome = true
  aggNew : ∀ k acs, alookup t.aggregateStateMap k = some acs →
    (alookup t0.aggregateStateMap k).isSome = true ∨ k.labelSetKey = p0.labelSetKey
  vpaProf : ∀ vid, vpaCountProfile (alookup t.vpas vid)
    = vpaCountProfile (alookup t0.vpas vid)
  mc : ∀ (lsm : LabelSetMap) (ns : String) (sel : Selector),
    matchCount lsm ns sel t.pods = matchCount lsm ns sel t0.pods
  pod : ∃ pt, alookup t.pods podID = some pt ∧
    pt.ID = p0.ID ∧ pt.labelSetKey = p0.labelSetKey ∧ pt.Phase = p0.Phase ∧
    pt.InitContainers = p0.InitContainers ∧
    pt.Containers.map Prod.fst = p0.Containers.map Prod.fst ∧
    (∀ cn, cn ∉ l.map Prod.fst → alookup pt.Containers cn = alookup p0.Containers cn) ∧
    (∀ cn, cn ∈ l.map Prod.fst →
      alookup pt.Containers cn = (alookup p0.Containers cn).map
        (fun c => { c with aggregator :=
          ContainerStateAggregator.direct (MakeAggregateStateKey p0 cn) }) ∧
      (alookup t.aggregateStateMap (MakeAggregateStateKey p0 cn)).isSome = true)

/-- The policy object `AddOrUpdateVpa` installs on its creation path:
seeded from a full scan of the aggregation index of `t`, counted from a
full scan of the pods of `t`, and refreshed from the API object. -/
def createdVpa (t : ClusterState) (apiObject : VerticalPodAutoscaler)
    (selector : Selector) : Vpa :=
  refreshVpaFields
    { seedVpaFromIndex t (NewVpa { Namespace := apiObject.Namespace, VpaName := apiObject.Name } selector apiObject.CreationTimestamp) with
      PodCount := ((GetMatchingPods t (seedVpaFromIndex t (NewVpa { Namespace := apiObject.Namespace, VpaName := apiObject.Name } selector apiObject.CreationTimestamp))).length : Int) }
    apiObject

/-! ## Concrete scenarios -/

/-- The pod id used by the concrete scenarios below. -/
def scenarioPodID : PodID := { Namespace := "ns", PodName := "p" }

/-- A mutation sequence that registers a succeeded pod with one container
and then sweeps: the sweep removes the container's index entry while the
pod stays registered. -/
def c3ops : List ClusterOp :=
  [ClusterOp.addOrUpdatePod 0 scenarioPodID [("app", "x")] PodPhase.succeeded,
   ClusterOp.addOrUpdateContainer 0 { podID := scenarioPodID, containerName := "c" } [],
   ClusterOp.gcSweep 0 (fun _ => none)]

/-- A mutation sequence that registers a running pod with one container
and one sample: its aggregation is actively backed yet expires by age. -/
def c5ops : List ClusterOp :=
  [ClusterOp.addOrUpdatePod 0 scenarioPodID [("app", "x")] PodPhase.running,
   ClusterOp.addOrUpdateContainer 0 { podID := scenarioPodID, containerName := "c" } [],
   ClusterOp.addSample
     { MeasureStart := 1, Usage := 0, Resource := "cpu",
       Container := { podID := scenarioPodID, containerName := "c" } }]

/-- A policy object without a recommendation, for the staleness scenario. -/
def c7vpa : Vpa := NewVpa { Namespace := "ns", VpaName := "v" } [] 0

/-- A cluster state tracking the missing recommendation of `c7vpa` since
time 0. -/
def c7state : ClusterState :=
  { NewClusterState 1000 with
    emptyVPAs := fun id => if id = c7vpa.ID then some 0 else none }

/-! ## Theorems -/

theorem alookup_cons {K V : Type} [DecidableEq K] (k : K) (v : V) (l : List (K × V))
    (key : K) : alookup ((k, v) :: l) key = if k = key then some v else alookup l key :=
  rfl

theorem alookup_eq_none {K V : Type} [DecidableEq K] {l : List (K × V)} {key : K} :
    alookup l key = none ↔ key ∉ l.map Prod.fst := by
  induction l with
  | nil => simp [alookup]
  | cons hd tl ih =>
    by_cases h : hd.1 = key
    · simp [alookup, h]
    · simp [alookup, h, ih, Ne.symm h]

theorem alookup_isSome {K V : Type} [DecidableEq K] {l : List (K × V)} {key : K} :
    (alookup l key).isSome = true ↔ key ∈ l.map Prod.fst := by
  constructor
  · intro h
    by_contra hm
    rw [alookup_eq_none.mpr hm] at h
    simp at h
  · intro hm
    rcases hn : alookup l key with _ | v
    · exact absurd hm (alookup_eq_none.mp hn)
    · simp

theorem alookup_mem {K V : Type} [DecidableEq K] {l : List (K × V)} {key : K} {v : V}
    (h : alookup l key = some v) : (key, v) ∈ l := by
  induction l with
  | nil => simp [alookup] at h
  | cons hd tl ih =>
    rcases hd with ⟨k1, v1⟩
    by_cases hk : k1 = key
    · subst hk
      simp only [alookup, if_pos rfl] at h
      cases h
      exact List.mem_cons_self _ _
    · simp only [alookup, if_neg hk] at h
      exact List.mem_cons_of_mem _ (ih h)

theorem mem_alookup {K V : Type} [DecidableEq K] {l : List (K × V)} {key : K} {v : V}
    (hnd : nodupKeys l) (h : (key, v) ∈ l) : alookup l key = some v := by
  induction l with
  | nil => simp at h
  | cons hd tl ih =>
    unfold nodupKeys at hnd
    simp only [List.map_cons, List.nodup_cons] at hnd
    rcases List.mem_cons.mp h with h' | h'
    · subst h'
      simp [alookup]
    · have hne : hd.1 ≠ key := by
        intro he
        exact hnd.1 (he ▸ List.mem_map_of_mem Prod.fst h')
      simp [alookup, hne, ih hnd.2 h']

theorem amap_cons {K V : Type} [DecidableEq K] (k1 : K) (v1 : V) (tl : List (K × V))
    (key : K) (f : V → V) :
    amap ((k1, v1) :: tl) key f
      = (if k1 = key then (k1, f v1) else (k1, v1)) :: amap tl key f := by
  unfold amap
  rw [List.map_cons]

theorem alookup_amap {K V : Type} [DecidableEq K] (l : List (K × V)) (key : K)
    (f : V → V) (k' : K) :
    alookup (amap l key f) k'
      = if key = k' then (alookup l k').map f else alookup l k' := by
  induction l with
  | nil => by_cases h : key = k' <;> simp [amap, alookup, h]
  | cons hd tl ih =>
    rcases hd with ⟨k1, v1⟩
    rw [amap_cons]
    by_cases h1 : k1 = key
    · subst h1
      rw [if_pos rfl]
      by_cases h2 : k1 = k'
      · subst h2
        simp [alookup_cons]
      · simp [alookup_cons, h2, ih]
    · rw [if_neg h1]
      by_cases h2 : k1 = k'
      · subst h2
        have hkk : ¬ key = k1 := fun he => h1 he.symm
        simp [alookup_cons, hkk]
      · simp [alookup_cons, h2, ih]

theorem alookup_aerase {K V : Type} [DecidableEq K] (l : List (K × V)) (key : K)
    (k' : K) :
    alookup (aerase l key) k' = if key = k' then none else alookup l k' := by
  induction l with
  | nil => by_cases h : key = k' <;> simp [aerase, alookup, h]
  | cons hd tl ih =>
    rcases hd with ⟨k1, v1⟩
    by_cases h1 : k1 = key
    · subst h1
      have hstep : aerase ((k1, v1) :: tl) k1 = aerase tl k1 := by
        simp [aerase]
      rw [hstep, ih]
      by_cases h2 : k1 = k'
      · subst h2
        simp
      · simp [alookup, h2]
    · have hstep : aerase ((k1, v1) :: tl) key = (k1, v1) :: aerase tl key := by
        simp [aerase, h1]
      rw [hstep]
      by_cases h2 : k1 = k'
      · subst h2
        have hkk : ¬ key = k1 := fun he => h1 he.symm
        simp [alookup, hkk]
      · simp [alookup, h2, ih]

theorem alookup_aset {K V : Type} [DecidableEq K] (l : List (K × V)) (key : K) (v : V)
    (k' : K) :
    alookup (aset l key v) k' = if key = k' then some v else alookup l k' := by
  unfold aset
  by_cases hs : (alookup l key).isSome = true
  · rw [if_pos hs, alookup_amap]
    by_cases h : key = k'
    · subst h
      rcases Option.isSome_iff_exists.mp hs with ⟨w, hw⟩
      simp [hw]
    · simp [h]
  · simp only [hs, if_false]
    by_cases h : key = k'
    · simp [alookup, h]
    · simp [alookup, h]

theorem amap_of_none {K V : Type} [DecidableEq K] {l : List (K × V)} {key : K}
    (f : V → V) (h : alookup l key = none) : amap l key f = l := by
  have hmem := alookup_eq_none.mp h
  unfold amap
  conv_rhs => rw [← List.map_id l]
  apply List.map_congr_left
  intro kv hkv
  have hne : kv.1 ≠ key := by
    intro he
    exact hmem (he ▸ List.mem_map_of_mem Prod.fst hkv)
  simp [hne]

theorem amap_map_fst {K V : Type} [DecidableEq K] (l : List (K × V)) (key : K)
    (f : V → V) : (amap l key f).map Prod.fst = l.map Prod.fst := by
  unfold amap
  rw [List.map_map]
  apply List.map_congr_left
  intro kv _
  by_cases h : kv.1 = key <;> simp [h]

theorem nodupKeys_amap {K V : Type} [DecidableEq K] {l : List (K × V)} {key : K}
    {f : V → V} (h : nodupKeys l) : nodupKeys (amap l key f) := by
  unfold nodupKeys
  rw [amap_map_fst]
  exact h

theorem nodupKeys_aerase {K V : Type} [DecidableEq K] {l : List (K × V)} {key : K}
    (h : nodupKeys l) : nodupKeys (aerase l key) := by
  unfold nodupKeys aerase at *
  exact List.Nodup.sublist ((List.filter_sublist l).map Prod.fst) h

theorem nodupKeys_cons {K V : Type} [DecidableEq K] {l : List (K × V)} {key : K} {v : V}
    (hl : alookup l key = none) (h : nodupKeys l) : nodupKeys ((key, v) :: l) := by
  unfold nodupKeys
  simp only [List.map_cons, List.nodup_cons]
  exact ⟨alookup_eq_none.mp hl, h⟩

theorem nodupKeys_aset {K V : Type} [DecidableEq K] {l : List (K × V)} {key : K} {v : V}
    (h : nodupKeys l) : nodupKeys (aset l key v) := by
  unfold aset
  by_cases hs : (alookup l key).isSome = true
  · rw [if_pos hs]
    exact nodupKeys_amap h
  · rw [if_neg hs]
    refine nodupKeys_cons ?_ h
    rcases hl : alookup l key with _ | w
    · rfl
    · simp [hl] at hs

theorem alookup_map_value {K V : Type} [DecidableEq K] (l : List (K × V))
    (g : K → V → V) (k : K) :
    alookup (l.map fun kv => (kv.1, g kv.1 kv.2)) k = (alookup l k).map (g k) := by
  induction l with
  | nil => simp [alookup]
  | cons hd tl ih =>
    by_cases h : hd.1 = k
    · subst h
      simp [alookup, ih]
    · simp [alookup, h, ih]

theorem map_value_map_fst {K V : Type} (l : List (K × V)) (g : K → V → V) :
    (l.map fun kv => (kv.1, g kv.1 kv.2)).map Prod.fst = l.map Prod.fst := by
  rw [List.map_map]
  apply List.map_congr_left
  intro kv _
  rfl

theorem nodupKeys_map_value {K V : Type} (l : List (K × V)) (g : K → V → V)
    (h : nodupKeys l) : nodupKeys (l.map fun kv => (kv.1, g kv.1 kv.2)) := by
  unfold nodupKeys at *
  rw [map_value_map_fst]
  exact h

theorem aerase_of_none {K V : Type} [DecidableEq K] {l : List (K × V)} {key : K}
    (h : alookup l key = none) : aerase l key = l := by
  have hmem := alookup_eq_none.mp h
  unfold aerase
  conv_rhs => rw [← List.filter_true l]
  apply List.filter_congr
  intro kv hkv
  have hne : kv.1 ≠ key := by
    intro he
    exact hmem (he ▸ List.mem_map_of_mem Prod.fst hkv)
  simp [hne]

/-! ### Label-set interner lemmas -/

theorem mem_lsmInsert_self (m : LabelSetMap) (k : LabelSetKey) : k ∈ lsmInsert m k := by
  unfold lsmInsert
  by_cases h : k ∈ m <;> simp [h]

theorem mem_lsmInsert_of_mem {m : LabelSetMap} {k' : LabelSetKey} (k : LabelSetKey)
    (h : k' ∈ m) : k' ∈ lsmInsert m k := by
  unfold lsmInsert
  by_cases hk : k ∈ m <;> simp [hk, h]

theorem lookupLabelSet_of_mem {m : LabelSetMap} {k : LabelSetKey} (h : k ∈ m) :
    lookupLabelSet m k = k := by
  simp [lookupLabelSet, h]

theorem lookupLabelSet_lsmInsert_of_mem {m : LabelSetMap} {k' : LabelSetKey}
    (k : LabelSetKey) (h : k' ∈ m) :
    lookupLabelSet (lsmInsert m k) k' = lookupLabelSet m k' := by
  rw [lookupLabelSet_of_mem h, lookupLabelSet_of_mem (mem_lsmInsert_of_mem k h)]

theorem lookupLabelSet_nil (m : LabelSetMap) : lookupLabelSet m [] = [] := by
  unfold lookupLabelSet
  split <;> rfl

theorem lookupLabelSet_stable {m : LabelSetMap} {k' : LabelSetKey} (k : LabelSetKey)
    (h : k' ∈ m ∨ k' = []) :
    lookupLabelSet (lsmInsert m k) k' = lookupLabelSet m k' := by
  rcases h with h | h
  · exact lookupLabelSet_lsmInsert_of_mem k h
  · subst h
    rw [lookupLabelSet_nil, lookupLabelSet_nil]

/-! ### Policy-object operation lemmas -/

theorem useAggregationIfMatching_ID (vpa : Vpa) (lsm : LabelSetMap)
    (key : AggregateStateKey) : (vpa.useAggregationIfMatching lsm key).ID = vpa.ID := by
  unfold Vpa.useAggregationIfMatching
  split <;> rfl

theorem useAggregationIfMatching_PodSelector (vpa : Vpa) (lsm : LabelSetMap)
    (key : AggregateStateKey) :
    (vpa.useAggregationIfMatching lsm key).PodSelector = vpa.PodSelector := by
  unfold Vpa.useAggregationIfMatching
  split <;> rfl

theorem useAggregationIfMatching_PodCount (vpa : Vpa) (lsm : LabelSetMap)
    (key : AggregateStateKey) :
    (vpa.useAggregationIfMatching lsm key).PodCount = vpa.PodCount := by
  unfold Vpa.useAggregationIfMatching
  split <;> rfl

theorem vpaMatchesAggregation_congr {lsm lsm' : LabelSetMap} {vpa vpa' : Vpa}
    (key : AggregateStateKey)
    (hns : vpa'.ID.Namespace = vpa.ID.Namespace)
    (hsel : vpa'.PodSelector = vpa.PodSelector)
    (hls : lookupLabelSet lsm' key.labelSetKey = lookupLabelSet lsm key.labelSetKey) :
    vpaMatchesAggregation lsm' vpa' key = vpaMatchesAggregation lsm vpa key := by
  unfold vpaMatchesAggregation
  rw [hns, hsel, hls]

theorem hasAggregation_useAggregationIfMatching (vpa : Vpa) (lsm : LabelSetMap)
    (key k : AggregateStateKey) :
    (vpa.useAggregationIfMatching lsm key).hasAggregation k = true ↔
      (vpa.hasAggregation k = true ∨
        (k = key ∧ vpaMatchesAggregation lsm vpa key = true)) := by
  unfold Vpa.useAggregationIfMatching
  by_cases hm : (vpaMatchesAggregation lsm vpa key && !vpa.hasAggregation key) = true
  · rw [if_pos hm]
    simp only [Bool.and_eq_true, Bool.not_eq_true'] at hm
    unfold Vpa.hasAggregation at *
    simp only [decide_eq_true_eq, List.mem_cons] at *
    constructor
    · rintro (h | h)
      · exact Or.inr ⟨h, hm.1⟩
      · exact Or.inl h
    · rintro (h | h)
      · exact Or.inr h
      · exact Or.inl h.1
  · rw [if_neg hm]
    simp only [Bool.and_eq_true, Bool.not_eq_true'] at hm
    unfold Vpa.hasAggregation at *
    simp only [decide_eq_true_eq] at *
    constructor
    · exact Or.inl
    · rintro (h | ⟨rfl, hmt⟩)
      · exact h
      · by_cases hh : k ∈ vpa.aggregateContainerStates
        · exact hh
        · exact absurd ⟨hmt, by simpa using hh⟩ hm

theorem deleteAggregation_ID (vpa : Vpa) (key : AggregateStateKey) :
    (vpa.deleteAggregation key).ID = vpa.ID := rfl

theorem deleteAggregation_PodSelector (vpa : Vpa) (key : AggregateStateKey) :
    (vpa.deleteAggregation key).PodSelector = vpa.PodSelector := rfl

theorem deleteAggregation_PodCount (vpa : Vpa) (key : AggregateStateKey) :
    (vpa.deleteAggregation key).PodCount = vpa.PodCount := rfl

theorem hasAggregation_deleteAggregation (vpa : Vpa) (key k : AggregateStateKey) :
    (vpa.deleteAggregation key).hasAggregation k = true ↔
      (vpa.hasAggregation k = true ∧ k ≠ key) := by
  unfold Vpa.deleteAggregation Vpa.hasAggregation
  simp only [decide_eq_true_eq, List.mem_filter, decide_not]
  constructor
  · rintro ⟨hmem, hne⟩
    refine ⟨hmem, ?_⟩
    simpa using hne
  · rintro ⟨hmem, hne⟩
    refine ⟨hmem, ?_⟩
    simpa using hne

theorem refreshVpaFields_ID (vpa : Vpa) (apiObject : VerticalPodAutoscaler) :
    (refreshVpaFields vpa apiObject).ID = vpa.ID := rfl

theorem refreshVpaFields_PodSelector (vpa : Vpa) (apiObject : VerticalPodAutoscaler) :
    (refreshVpaFields vpa apiObject).PodSelector = vpa.PodSelector := rfl

theorem refreshVpaFields_PodCount (vpa : Vpa) (apiObject : VerticalPodAutoscaler) :
    (refreshVpaFields vpa apiObject).PodCount = vpa.PodCount := rfl

theorem refreshVpaFields_links (vpa : Vpa) (apiObject : VerticalPodAutoscaler) :
    (refreshVpaFields vpa apiObject).aggregateContainerStates
      = vpa.aggregateContainerStates := rfl

theorem hasAggregation_refreshVpaFields (vpa : Vpa) (apiObject : VerticalPodAutoscaler)
    (k : AggregateStateKey) :
    (refreshVpaFields vpa apiObject).hasAggregation k = vpa.hasAggregation k := rfl

/-! ### Matching-count lemmas -/

theorem matchCount_nil (lsm : LabelSetMap) (ns : String) (sel : Selector) :
    matchCount lsm ns sel [] = 0 := rfl

theorem matchCount_cons (lsm : LabelSetMap) (ns : String) (sel : Selector)
    (iv : PodID × PodState) (pods : List (PodID × PodState)) :
    matchCount lsm ns sel (iv :: pods)
      = podMatchInd lsm ns sel iv + matchCount lsm ns sel pods := by
  unfold matchCount
  rw [List.map_cons, List.sum_cons]

theorem getMatchingPods_length (s : ClusterState) (vpa : Vpa) :
    ((GetMatchingPods s vpa).length : Int)
      = matchCount s.labelSetMap vpa.ID.Namespace vpa.PodSelector s.pods := by
  unfold GetMatchingPods
  induction s.pods with
  | nil => rfl
  | cons hd tl ih =>
    rw [List.filterMap_cons, matchCount_cons]
    unfold podMatchInd
    by_cases h : podLabelsMatchVPA hd.1.Namespace
        (lookupLabelSet s.labelSetMap hd.2.labelSetKey) vpa.ID.Namespace
        vpa.PodSelector = true
    · rw [if_pos h, if_pos h, List.length_cons, ← ih]
      push_cast
      ring
    · rw [if_neg h, if_neg h, ← ih]
      ring

theorem matchCount_amap (lsm : LabelSetMap) (ns : String) (sel : Selector)
    {pods : List (PodID × PodState)} {pid : PodID} {pod : PodState}
    (f : PodState → PodState) (hnd : nodupKeys pods)
    (h : alookup pods pid = some pod) :
    matchCount lsm ns sel (amap pods pid f)
      = matchCount lsm ns sel pods - podMatchInd lsm ns sel (pid, pod)
          + podMatchInd lsm ns sel (pid, f pod) := by
  induction pods with
  | nil => simp [alookup] at h
  | cons hd tl ih =>
    rcases hd with ⟨k1, v1⟩
    unfold nodupKeys at hnd
    simp only [List.map_cons, List.nodup_cons] at hnd
    rw [amap_cons]
    by_cases h1 : k1 = pid
    · subst h1
      rw [if_pos rfl]
      rw [alookup_cons, if_pos rfl] at h
      cases h
      have htl : alookup tl k1 = none := alookup_eq_none.mpr hnd.1
      rw [amap_of_none f htl, matchCount_cons, matchCount_cons]
      ring
    · rw [if_neg h1]
      rw [alookup_cons, if_neg h1] at h
      rw [matchCount_cons, matchCount_cons, ih hnd.2 h]
      ring

theorem matchCount_aerase (lsm : LabelSetMap) (ns : String) (sel : Selector)
    {pods : List (PodID × PodState)} {pid : PodID} {pod : PodState}
    (hnd : nodupKeys pods) (h : alookup pods pid = some pod) :
    matchCount lsm ns sel (aerase pods pid)
      = matchCount lsm ns sel pods - podMatchInd lsm ns sel (pid, pod) := by
  induction pods with
  | nil => simp [alookup] at h
  | cons hd tl ih =>
    rcases hd with ⟨k1, v1⟩
    unfold nodupKeys at hnd
    simp only [List.map_cons, List.nodup_cons] at hnd
    by_cases h1 : k1 = pid
    · subst h1
      rw [alookup_cons, if_pos rfl] at h
      cases h
      have hstep : aerase ((k1, pod) :: tl) k1 = aerase tl k1 := by
        simp [aerase]
      have htl : alookup tl k1 = none := alookup_eq_none.mpr hnd.1
      rw [hstep, aerase_of_none htl, matchCount_cons]
      ring
    · rw [alookup_cons, if_neg h1] at h
      have hstep : aerase ((k1, v1) :: tl) pid = (k1, v1) :: aerase tl pid := by
        simp [aerase, h1]
      rw [hstep, matchCount_cons, matchCount_cons, ih hnd.2 h]
      ring

theorem matchCount_map_keyfix (lsm : LabelSetMap) (ns : String) (sel : Selector)
    {pods : List (PodID × PodState)} {g : PodID × PodState → PodID × PodState}
    (hg : ∀ kv ∈ pods, (g kv).1.Namespace = kv.1.Namespace ∧
      (g kv).2.labelSetKey = kv.2.labelSetKey) :
    matchCount lsm ns sel (pods.map g) = matchCount lsm ns sel pods := by
  unfold matchCount
  rw [List.map_map]
  congr 1
  apply List.map_congr_left
  intro kv hkv
  unfold podMatchInd
  simp only [Function.comp_apply]
  rw [(hg kv hkv).1, (hg kv hkv).2]

theorem matchCount_lsm_stable {m : LabelSetMap} (k : LabelSetKey) (ns : String)
    (sel : Selector) {pods : List (PodID × PodState)}
    (hmem : ∀ kv ∈ pods, kv.2.labelSetKey ∈ m ∨ kv.2.labelSetKey = []) :
    matchCount (lsmInsert m k) ns sel pods = matchCount m ns sel pods := by
  unfold matchCount
  congr 1
  apply List.map_congr_left
  intro kv hkv
  unfold podMatchInd
  rw [lookupLabelSet_stable k (hmem kv hkv)]

/-! ### Fold lemmas for link-set and index maintenance -/

theorem foldl_deleteAggregation_ID (ks : List AggregateStateKey) (v : Vpa) :
    (ks.foldl Vpa.deleteAggregation v).ID = v.ID := by
  induction ks generalizing v with
  | nil => rfl
  | cons hd tl ih => rw [List.foldl_cons, ih, deleteAggregation_ID]

theorem foldl_deleteAggregation_PodSelector (ks : List AggregateStateKey) (v : Vpa) :
    (ks.foldl Vpa.deleteAggregation v).PodSelector = v.PodSelector := by
  induction ks generalizing v with
  | nil => rfl
  | cons hd tl ih => rw [List.foldl_cons, ih, deleteAggregation_PodSelector]

theorem foldl_deleteAggregation_PodCount (ks : List AggregateStateKey) (v : Vpa) :
    (ks.foldl Vpa.deleteAggregation v).PodCount = v.PodCount := by
  induction ks generalizing v with
  | nil => rfl
  | cons hd tl ih => rw [List.foldl_cons, ih, deleteAggregation_PodCount]

theorem hasAggregation_foldl_deleteAggregation (ks : List AggregateStateKey) (v : Vpa)
    (k : AggregateStateKey) :
    (ks.foldl Vpa.deleteAggregation v).hasAggregation k = true ↔
      (v.hasAggregation k = true ∧ k ∉ ks) := by
  induction ks generalizing v with
  | nil => simp
  | cons hd tl ih =>
    rw [List.foldl_cons, ih, hasAggregation_deleteAggregation]
    constructor
    · rintro ⟨⟨hv, hne⟩, hnt⟩
      exact ⟨hv, by simp [hne, hnt]⟩
    · rintro ⟨hv, hn⟩
      simp only [List.mem_cons, not_or] at hn
      exact ⟨⟨hv, hn.1⟩, hn.2⟩

theorem alookup_foldl_amap_idem {K V : Type} [DecidableEq K] {f : V → V}
    (hf : ∀ a, f (f a) = f a) (ks : List K) (m : List (K × V)) (k : K) :
    alookup (ks.foldl (fun m key => amap m key f) m) k
      = if k ∈ ks then (alookup m k).map f else alookup m k := by
  induction ks generalizing m with
  | nil => simp
  | cons hd tl ih =>
    rw [List.foldl_cons, ih, alookup_amap]
    by_cases ht : k ∈ tl
    · rw [if_pos ht, if_pos (List.mem_cons_of_mem hd ht)]
      by_cases hh : hd = k
      · rw [if_pos hh]
        rcases alookup m k with _ | w
        · simp
        · simp [hf]
      · rw [if_neg hh]
    · rw [if_neg ht]
      by_cases hh : hd = k
      · rw [if_pos hh, if_pos (by rw [← hh]; exact List.mem_cons_self _ _)]
      · rw [if_neg hh, if_neg (by
          simp only [List.mem_cons, not_or]
          exact ⟨fun he => hh he.symm, ht⟩)]

theorem gcDeleteKeys_pods (ks : List AggregateStateKey) (s : ClusterState) :
    (gcDeleteKeys ks s).pods = s.pods := by
  unfold gcDeleteKeys
  induction ks generalizing s with
  | nil => rfl
  | cons hd tl ih => rw [List.foldl_cons, ih]

theorem gcDeleteKeys_labelSetMap (ks : List AggregateStateKey) (s : ClusterState) :
    (gcDeleteKeys ks s).labelSetMap = s.labelSetMap := by
  unfold gcDeleteKeys
  induction ks generalizing s with
  | nil => rfl
  | cons hd tl ih => rw [List.foldl_cons, ih]

theorem gcDeleteKeys_emptyVPAs (ks : List AggregateStateKey) (s : ClusterState) :
    (gcDeleteKeys ks s).emptyVPAs = s.emptyVPAs := by
  unfold gcDeleteKeys
  induction ks generalizing s with
  | nil => rfl
  | cons hd tl ih => rw [List.foldl_cons, ih]

theorem gcDeleteKeys_gcInterval (ks : List AggregateStateKey) (s : ClusterState) :
    (gcDeleteKeys ks s).gcInterval = s.gcInterval := by
  unfold gcDeleteKeys
  induction ks generalizing s with
  | nil => rfl
  | cons hd tl ih => rw [List.foldl_cons, ih]

theorem gcDeleteKeys_agg (ks : List AggregateStateKey) (s : ClusterState)
    (k : AggregateStateKey) :
    alookup (gcDeleteKeys ks s).aggregateStateMap k
      = if k ∈ ks then none else alookup s.aggregateStateMap k := by
  unfold gcDeleteKeys
  induction ks generalizing s with
  | nil => simp
  | cons hd tl ih =>
    rw [List.foldl_cons, ih]
    simp only [alookup_aerase]
    by_cases ht : k ∈ tl
    · simp [ht]
    · by_cases hh : hd = k
      · subst hh
        simp [ht]
      · have : ¬ k = hd := fun he => hh he.symm
        simp [ht, hh, this]

theorem gcDeleteKeys_vpas (ks : List AggregateStateKey) (s : ClusterState)
    (vid : VpaID) :
    alookup (gcDeleteKeys ks s).vpas vid
      = (alookup s.vpas vid).map fun v => ks.foldl Vpa.deleteAggregation v := by
  unfold gcDeleteKeys
  induction ks generalizing s with
  | nil => simp
  | cons hd tl ih =>
    rw [List.foldl_cons, ih]
    have hmap : alookup
        ((s.vpas.map fun iv => (iv.1, iv.2.deleteAggregation hd)) : List (VpaID × Vpa))
        vid = (alookup s.vpas vid).map fun v => v.deleteAggregation hd :=
      alookup_map_value s.vpas (fun _ v => v.deleteAggregation hd) vid
    simp only [hmap]
    rcases alookup s.vpas vid with _ | w <;> simp

theorem foldl_useAggregationIfMatching_ID (l : List (AggregateStateKey × AggregateContainerState))
    (lsm : LabelSetMap) (v : Vpa) :
    (l.foldl (fun v kv => v.useAggregationIfMatching lsm kv.1) v).ID = v.ID := by
  induction l generalizing v with
  | nil => rfl
  | cons hd tl ih => rw [List.foldl_cons, ih, useAggregationIfMatching_ID]

theorem foldl_useAggregationIfMatching_PodSelector
    (l : List (AggregateStateKey × AggregateContainerState)) (lsm : LabelSetMap) (v : Vpa) :
    (l.foldl (fun v kv => v.useAggregationIfMatching lsm kv.1) v).PodSelector
      = v.PodSelector := by
  induction l generalizing v with
  | nil => rfl
  | cons hd tl ih => rw [List.foldl_cons, ih, useAggregationIfMatching_PodSelector]

theorem foldl_useAggregationIfMatching_PodCount
    (l : List (AggregateStateKey × AggregateContainerState)) (lsm : LabelSetMap) (v : Vpa) :
    (l.foldl (fun v kv => v.useAggregationIfMatching lsm kv.1) v).PodCount
      = v.PodCount := by
  induction l generalizing v with
  | nil => rfl
  | cons hd tl ih => rw [List.foldl_cons, ih, useAggregationIfMatching_PodCount]

theorem hasAggregation_foldl_useAggregationIfMatching
    (l : List (AggregateStateKey × AggregateContainerState)) (lsm : LabelSetMap)
    (v : Vpa) (k : AggregateStateKey) :
    (l.foldl (fun v kv => v.useAggregationIfMatching lsm kv.1) v).hasAggregation k = true ↔
      (v.hasAggregation k = true ∨
        (k ∈ l.map Prod.fst ∧ vpaMatchesAggregation lsm v k = true)) := by
  induction l generalizing v with
  | nil => simp
  | cons hd tl ih =>
    rw [List.foldl_cons, ih]
    have hmc : vpaMatchesAggregation lsm (v.useAggregationIfMatching lsm hd.1) k
        = vpaMatchesAggregation lsm v k :=
      vpaMatchesAggregation_congr k
        (by rw [useAggregationIfMatching_ID])
        (useAggregationIfMatching_PodSelector v lsm hd.1) rfl
    rw [hmc, hasAggregation_useAggregationIfMatching]
    constructor
    · rintro ((hv | ⟨rfl, hm⟩) | ⟨hmem, hm⟩)
      · exact Or.inl hv
      · exact Or.inr ⟨by rw [List.map_cons]; exact List.mem_cons_self _ _, hm⟩
      · exact Or.inr ⟨by rw [List.map_cons]; exact List.mem_cons_of_mem _ hmem, hm⟩
    · rintro (hv | ⟨hmem, hm⟩)
      · exact Or.inl (Or.inl hv)
      · rw [List.map_cons] at hmem
        rcases List.mem_cons.mp hmem with he | ht
        · exact Or.inl (Or.inr ⟨he, by rw [← he]; exact hm⟩)
        · exact Or.inr ⟨ht, hm⟩

/-! ### Characterization of findOrCreateAggregateContainerState -/

theorem findOrCreate_spec {s : ClusterState} {now : Time} {cid : ContainerID}
    {t : ClusterState} {key : AggregateStateKey} {pod : PodState}
    (hp : alookup s.pods cid.podID = some pod)
    (h : findOrCreateAggregateContainerState s now cid = some (t, key)) :
    key = MakeAggregateStateKey pod cid.containerName ∧
    t.pods = s.pods ∧
    t.labelSetMap = s.labelSetMap ∧
    t.emptyVPAs = s.emptyVPAs ∧
    t.lastAggregateContainerStateGC = s.lastAggregateContainerStateGC ∧
    t.gcInterval = s.gcInterval ∧
    (alookup t.aggregateStateMap key).isSome = true ∧
    (∀ k, k ≠ key → alookup t.aggregateStateMap k = alookup s.aggregateStateMap k) ∧
    ((alookup s.aggregateStateMap key).isSome = true → t = s) ∧
    (alookup s.aggregateStateMap key = none →
      (∀ vid, alookup t.vpas vid
        = (alookup s.vpas vid).map fun v => v.useAggregationIfMatching s.labelSetMap key) ∧
      t.vpas = s.vpas.map
        (fun iv => (iv.1, iv.2.useAggregationIfMatching s.labelSetMap key)) ∧
      t.aggregateStateMap
        = (key, { NewAggregateContainerState now with
            IsUnderVPA := s.vpas.any fun iv =>
              vpaMatchesAggregation s.labelSetMap iv.2 key })
          :: s.aggregateStateMap) := by
  unfold findOrCreateAggregateContainerState aggregateStateKeyForContainerID at h
  rw [hp] at h
  simp only [Option.map_some'] at h
  rcases hagg : alookup s.aggregateStateMap (MakeAggregateStateKey pod cid.containerName)
    with _ | acs0
  · rw [hagg] at h
    simp only [Option.some.injEq, Prod.mk.injEq] at h
    obtain ⟨rfl, rfl⟩ := h
    refine ⟨rfl, rfl, rfl, rfl, rfl, rfl, ?_, ?_, ?_, ?_⟩
    · rw [alookup_cons, if_pos rfl]
      rfl
    · intro k hk
      rw [alookup_cons, if_neg (fun he => hk he.symm)]
    · intro hcontra
      rw [hagg] at hcontra
      simp at hcontra
    · intro _
      refine ⟨?_, rfl, rfl⟩
      intro vid
      exact alookup_map_value s.vpas
        (fun _ v => v.useAggregationIfMatching s.labelSetMap
          (MakeAggregateStateKey pod cid.containerName)) vid
  · rw [hagg] at h
    simp only [Option.some.injEq, Prod.mk.injEq] at h
    obtain ⟨rfl, rfl⟩ := h
    refine ⟨rfl, rfl, rfl, rfl, rfl, rfl, ?_, ?_, ?_, ?_⟩
    · rw [hagg]
      rfl
    · intro k _
      rfl
    · intro _
      rfl
    · intro hcontra
      rw [hagg] at hcontra
      cases hcontra

theorem findOrCreate_isSome {s : ClusterState} {cid : ContainerID} {pod : PodState}
    (now : Time) (hp : alookup s.pods cid.podID = some pod) :
    ∃ t key, findOrCreateAggregateContainerState s now cid = some (t, key) := by
  unfold findOrCreateAggregateContainerState aggregateStateKeyForContainerID
  rw [hp]
  simp only [Option.map_some']
  rcases hagg : alookup s.aggregateStateMap (MakeAggregateStateKey pod cid.containerName)
    with _ | acs0
  · exact ⟨_, _, rfl⟩
  · exact ⟨_, _, rfl⟩

theorem core_findOrCreate {s : ClusterState} {now : Time} {cid : ContainerID}
    {t : ClusterState} {key : AggregateStateKey} {pod : PodState}
    (hC : CoreInv s) (hp : alookup s.pods cid.podID = some pod)
    (h : findOrCreateAggregateContainerState s now cid = some (t, key)) : CoreInv t := by
  obtain ⟨hkey, hpods, hlsm, hemp, hgc, hgi, hksome, hother, hpres, habs⟩ :=
    findOrCreate_spec hp h
  rcases hs : alookup s.aggregateStateMap key with _ | acs0
  case some => exact (hpres (by rw [hs]; rfl)) ▸ hC
  obtain ⟨hvpas, hvstruct, hagg⟩ := habs hs
  have hkeylsk : key.labelSetKey ∈ s.labelSetMap ∨ key.labelSetKey = [] := by
    rw [hkey]
    exact hC.podLsk _ _ hp
  constructor
  · rw [hpods]; exact hC.podsND
  · rw [hvstruct]
    exact nodupKeys_map_value s.vpas
      (fun _ v => v.useAggregationIfMatching s.labelSetMap key) hC.vpasND
  · rw [hagg]
    exact nodupKeys_cons hs hC.aggND
  · intro pid p hl
    rw [hpods] at hl
    exact hC.podIDF pid p hl
  · intro vid vpa hl
    rw [hvpas vid] at hl
    rcases hv : alookup s.vpas vid with _ | v
    · rw [hv] at hl; cases hl
    · rw [hv] at hl
      simp only [Option.map_some', Option.some.injEq] at hl
      rw [← hl, useAggregationIfMatching_ID]
      exact hC.vpaIDF vid v hv
  · intro pid p hl
    rw [hpods] at hl
    exact hC.contND pid p hl
  · intro pid p hl
    rw [hpods] at hl
    rw [hlsm]
    exact hC.podLsk pid p hl
  · intro k acs hl
    rw [hlsm]
    rw [hagg, alookup_cons] at hl
    by_cases hk : key = k
    · rw [← hk]
      exact hkeylsk
    · rw [if_neg hk] at hl
      exact hC.keyLsk k acs hl
  · intro vid vpa hl k hhas
    rw [hvpas vid] at hl
    rcases hv : alookup s.vpas vid with _ | v
    · rw [hv] at hl; cases hl
    · rw [hv] at hl
      simp only [Option.map_some', Option.some.injEq] at hl
      rw [← hl] at hhas
      rcases (hasAggregation_useAggregationIfMatching v s.labelSetMap key k).mp hhas
        with hold | ⟨rfl, _⟩
      · have := hC.linkDom vid v hv k hold
        by_cases hk : k = key
        · rw [hk]
          exact hksome
        · rw [hother k hk]
          exact this
      · exact hksome
  · intro vid vpa hl k acs hlk
    rw [hvpas vid] at hl
    rcases hv : alookup s.vpas vid with _ | v
    · rw [hv] at hl; cases hl
    · rw [hv] at hl
      simp only [Option.map_some', Option.some.injEq] at hl
      subst hl
      have hmc : vpaMatchesAggregation t.labelSetMap
          (v.useAggregationIfMatching s.labelSetMap key) k
            = vpaMatchesAggregation s.labelSetMap v k := by
        apply vpaMatchesAggregation_congr
        · rw [useAggregationIfMatching_ID]
        · exact useAggregationIfMatching_PodSelector v s.labelSetMap key
        · rw [hlsm]
      rw [hmc, hasAggregation_useAggregationIfMatching]
      by_cases hk : k = key
      · subst hk
        constructor
        · rintro (hold | ⟨_, hm⟩)
          · have := hC.linkDom vid v hv k hold
            rw [hs] at this
            cases this
          · exact hm
        · intro hm
          exact Or.inr ⟨rfl, hm⟩
      · have hlk' : alookup s.aggregateStateMap k = some acs := by
          rw [← hother k hk]
          exact hlk
        constructor
        · rintro (hold | ⟨he, _⟩)
          · exact (hC.link vid v hv k acs hlk').mp hold
          · exact absurd he hk
        · intro hm
          exact Or.inl ((hC.link vid v hv k acs hlk').mpr hm)

theorem count_findOrCreate {s : ClusterState} {now : Time} {cid : ContainerID}
    {t : ClusterState} {key : AggregateStateKey} {pod : PodState}
    (hp : alookup s.pods cid.podID = some pod)
    (h : findOrCreateAggregateContainerState s now cid = some (t, key))
    (hcount : PodCountInvariant s) : PodCountInvariant t := by
  obtain ⟨hkey, hpods, hlsm, hemp, hgc, hgi, hksome, hother, hpres, habs⟩ :=
    findOrCreate_spec hp h
  rcases hs : alookup s.aggregateStateMap key with _ | acs0
  case some => exact (hpres (by rw [hs]; rfl)) ▸ hcount
  obtain ⟨hvpas, hvstruct, hagg⟩ := habs hs
  intro vid vpa hl
  rw [hvpas vid] at hl
  rcases hv : alookup s.vpas vid with _ | v
  · rw [hv] at hl; cases hl
  · rw [hv] at hl
    simp only [Option.map_some', Option.some.injEq] at hl
    subst hl
    rw [getMatchingPods_length, hpods, hlsm, useAggregationIfMatching_PodCount,
      useAggregationIfMatching_ID, useAggregationIfMatching_PodSelector]
    rw [hcount vid v hv, getMatchingPods_length]

/-! ### Pod-count bump lemmas -/

theorem addPodToItsVpa_pods (s : ClusterState) (pod : PodState) :
    (addPodToItsVpa s pod).pods = s.pods := rfl

theorem addPodToItsVpa_labelSetMap (s : ClusterState) (pod : PodState) :
    (addPodToItsVpa s pod).labelSetMap = s.labelSetMap := rfl

theorem addPodToItsVpa_agg (s : ClusterState) (pod : PodState) :
    (addPodToItsVpa s pod).aggregateStateMap = s.aggregateStateMap := rfl

theorem alookup_addPodToItsVpa (s : ClusterState) (pod : PodState) (vid : VpaID) :
    alookup (addPodToItsVpa s pod).vpas vid
      = (alookup s.vpas vid).map fun v =>
          if podMatchesVpa s pod v then { v with PodCount := v.PodCount + 1 } else v := by
  unfold addPodToItsVpa
  have hfun : (s.vpas.map fun iv =>
      if podMatchesVpa s pod iv.2 then (iv.1, { iv.2 with PodCount := iv.2.PodCount + 1 })
      else iv)
      = s.vpas.map fun iv =>
          (iv.1, if podMatchesVpa s pod iv.2
            then { iv.2 with PodCount := iv.2.PodCount + 1 } else iv.2) := by
    apply List.map_congr_left
    intro iv _
    by_cases h : podMatchesVpa s pod iv.2 = true
    · rw [if_pos h, if_pos h]
    · rw [if_neg h, if_neg h]
  simp only [hfun]
  exact alookup_map_value s.vpas
    (fun _ v => if podMatchesVpa s pod v
      then { v with PodCount := v.PodCount + 1 } else v) vid

theorem removePodFromItsVpa_pods (s : ClusterState) (pod : PodState) :
    (removePodFromItsVpa s pod).pods = s.pods := rfl

theorem removePodFromItsVpa_labelSetMap (s : ClusterState) (pod : PodState) :
    (removePodFromItsVpa s pod).labelSetMap = s.labelSetMap := rfl

theorem removePodFromItsVpa_agg (s : ClusterState) (pod : PodState) :
    (removePodFromItsVpa s pod).aggregateStateMap = s.aggregateStateMap := rfl

theorem alookup_removePodFromItsVpa (s : ClusterState) (pod : PodState) (vid : VpaID) :
    alookup (removePodFromItsVpa s pod).vpas vid
      = (alookup s.vpas vid).map fun v =>
          if podMatchesVpa s pod v then { v with PodCount := v.PodCount - 1 } else v := by
  unfold removePodFromItsVpa
  have hfun : (s.vpas.map fun iv =>
      if podMatchesVpa s pod iv.2 then (iv.1, { iv.2 with PodCount := iv.2.PodCount - 1 })
      else iv)
      = s.vpas.map fun iv =>
          (iv.1, if podMatchesVpa s pod iv.2
            then { iv.2 with PodCount := iv.2.PodCount - 1 } else iv.2) := by
    apply List.map_congr_left
    intro iv _
    by_cases h : podMatchesVpa s pod iv.2 = true
    · rw [if_pos h, if_pos h]
    · rw [if_neg h, if_neg h]
  simp only [hfun]
  exact alookup_map_value s.vpas
    (fun _ v => if podMatchesVpa s pod v
      then { v with PodCount := v.PodCount - 1 } else v) vid

theorem core_addPodToItsVpa {s : ClusterState} (pod : PodState) (hC : CoreInv s) :
    CoreInv (addPodToItsVpa s pod) := by
  have hb : ∀ (v : Vpa), (if podMatchesVpa s pod v
      then { v with PodCount := v.PodCount + 1 } else v).ID = v.ID ∧
      (if podMatchesVpa s pod v
      then { v with PodCount := v.PodCount + 1 } else v).PodSelector = v.PodSelector ∧
      (∀ k, (if podMatchesVpa s pod v
        then { v with PodCount := v.PodCount + 1 } else v).hasAggregation k
          = v.hasAggregation k) := by
    intro v
    by_cases h : podMatchesVpa s pod v = true
    · rw [if_pos h]
      exact ⟨rfl, rfl, fun k => rfl⟩
    · rw [if_neg h]
      exact ⟨rfl, rfl, fun k => rfl⟩
  constructor
  · exact hC.podsND
  · unfold addPodToItsVpa nodupKeys
    have hfst : ((s.vpas.map fun iv =>
        if podMatchesVpa s pod iv.2
        then (iv.1, { iv.2 with PodCount := iv.2.PodCount + 1 }) else iv)).map Prod.fst
        = s.vpas.map Prod.fst := by
      rw [List.map_map]
      apply List.map_congr_left
      intro iv _
      simp only [Function.comp_apply]
      by_cases h : podMatchesVpa s pod iv.2 = true
      · rw [if_pos h]
      · rw [if_neg h]
    rw [hfst]
    exact hC.vpasND
  · exact hC.aggND
  · exact hC.podIDF
  · intro vid vpa hl
    rw [alookup_addPodToItsVpa] at hl
    rcases hv : alookup s.vpas vid with _ | v
    · rw [hv] at hl; cases hl
    · rw [hv] at hl
      simp only [Option.map_some', Option.some.injEq] at hl
      rw [← hl, (hb v).1]
      exact hC.vpaIDF vid v hv
  · exact hC.contND
  · exact hC.podLsk
  · exact hC.keyLsk
  · intro vid vpa hl k hhas
    rw [alookup_addPodToItsVpa] at hl
    rcases hv : alookup s.vpas vid with _ | v
    · rw [hv] at hl; cases hl
    · rw [hv] at hl
      simp only [Option.map_some', Option.some.injEq] at hl
      rw [← hl, (hb v).2.2 k] at hhas
      exact hC.linkDom vid v hv k hhas
  · intro vid vpa hl k acs hlk
    rw [alookup_addPodToItsVpa] at hl
    rcases hv : alookup s.vpas vid with _ | v
    · rw [hv] at hl; cases hl
    · rw [hv] at hl
      simp only [Option.map_some', Option.some.injEq] at hl
      subst hl
      rw [(hb v).2.2 k]
      have hmc : vpaMatchesAggregation (addPodToItsVpa s pod).labelSetMap
          (if podMatchesVpa s pod v then { v with PodCount := v.PodCount + 1 } else v) k
          = vpaMatchesAggregation s.labelSetMap v k :=
        vpaMatchesAggregation_congr k (by rw [(hb v).1]) (hb v).2.1 rfl
      rw [hmc]
      exact hC.link vid v hv k acs hlk

theorem core_removePodFromItsVpa {s : ClusterState} (pod : PodState) (hC : CoreInv s) :
    CoreInv (removePodFromItsVpa s pod) := by
  have hb : ∀ (v : Vpa), (if podMatchesVpa s pod v
      then { v with PodCount := v.PodCount - 1 } else v).ID = v.ID ∧
      (if podMatchesVpa s pod v
      then { v with PodCount := v.PodCount - 1 } else v).PodSelector = v.PodSelector ∧
      (∀ k, (if podMatchesVpa s pod v
        then { v with PodCount := v.PodCount - 1 } else v).hasAggregation k
          = v.hasAggregation k) := by
    intro v
    by_cases h : podMatchesVpa s pod v = true
    · rw [if_pos h]
      exact ⟨rfl, rfl, fun k => rfl⟩
    · rw [if_neg h]
      exact ⟨rfl, rfl, fun k => rfl⟩
  constructor
  · exact hC.podsND
  · unfold removePodFromItsVpa nodupKeys
    have hfst : ((s.vpas.map fun iv =>
        if podMatchesVpa s pod iv.2
        then (iv.1, { iv.2 with PodCount := iv.2.PodCount - 1 }) else iv)).map Prod.fst
        = s.vpas.map Prod.fst := by
      rw [List.map_map]
      apply List.map_congr_left
      intro iv _
      simp only [Function.comp_apply]
      by_cases h : podMatchesVpa s pod iv.2 = true
      · rw [if_pos h]
      · rw [if_neg h]
    rw [hfst]
    exact hC.vpasND
  · exact hC.aggND
  · exact hC.podIDF
  · intro vid vpa hl
    rw [alookup_removePodFromItsVpa] at hl
    rcases hv : alookup s.vpas vid with _ | v
    · rw [hv] at hl; cases hl
    · rw [hv] at hl
      simp only [Option.map_some', Option.some.injEq] at hl
      rw [← hl, (hb v).1]
      exact hC.vpaIDF vid v hv
  · exact hC.contND
  · exact hC.podLsk
  · exact hC.keyLsk
  · intro vid vpa hl k hhas
    rw [alookup_removePodFromItsVpa] at hl
    rcases hv : alookup s.vpas vid with _ | v
    · rw [hv] at hl; cases hl
    · rw [hv] at hl
      simp only [Option.map_some', Option.some.injEq] at hl
      rw [← hl, (hb v).2.2 k] at hhas
      exact hC.linkDom vid v hv k hhas
  · intro vid vpa hl k acs hlk
    rw [alookup_removePodFromItsVpa] at hl
    rcases hv : alookup s.vpas vid with _ | v
    · rw [hv] at hl; cases hl
    · rw [hv] at hl
      simp only [Option.map_some', Option.some.injEq] at hl
      subst hl
      rw [(hb v).2.2 k]
      have hmc : vpaMatchesAggregation (removePodFromItsVpa s pod).labelSetMap
          (if podMatchesVpa s pod v then { v with PodCount := v.PodCount - 1 } else v) k
          = vpaMatchesAggregation s.labelSetMap v k :=
        vpaMatchesAggregation_congr k (by rw [(hb v).1]) (hb v).2.1 rfl
      rw [hmc]
      exact hC.link vid v hv k acs hlk

/-! ### The re-pointing loop of AddOrUpdatePod -/

theorem makeKey_congr {p q : PodState} (cn : String) (hID : p.ID = q.ID)
    (hlsk : p.labelSetKey = q.labelSetKey) :
    MakeAggregateStateKey p cn = MakeAggregateStateKey q cn := by
  unfold MakeAggregateStateKey
  rw [hID, hlsk]

theorem matchCount_amap_keyfix (lsm : LabelSetMap) (ns : String) (sel : Selector)
    (pods : List (PodID × PodState)) (pid : PodID) (f : PodState → PodState)
    (hf : ∀ p, (f p).labelSetKey = p.labelSetKey) :
    matchCount lsm ns sel (amap pods pid f) = matchCount lsm ns sel pods := by
  unfold amap
  apply matchCount_map_keyfix
  intro kv _
  by_cases h : kv.1 = pid
  · rw [if_pos h]
    exact ⟨rfl, hf kv.2⟩
  · rw [if_neg h]
    exact ⟨rfl, rfl⟩

theorem core_pods_amap {s : ClusterState} (podID : PodID) (g : PodState → PodState)
    (hID : ∀ p, (g p).ID = p.ID) (hlsk : ∀ p, (g p).labelSetKey = p.labelSetKey)
    (hcnd : ∀ p, nodupKeys p.Containers → nodupKeys (g p).Containers)
    (hC : CoreInv s) : CoreInv { s with pods := amap s.pods podID g } := by
  constructor
  · exact nodupKeys_amap hC.podsND
  · exact hC.vpasND
  · exact hC.aggND
  · intro pid p hl
    simp only [alookup_amap] at hl
    by_cases hk : podID = pid
    · rw [if_pos hk] at hl
      rcases hv : alookup s.pods pid with _ | q
      · rw [hv] at hl; cases hl
      · rw [hv] at hl
        simp only [Option.map_some', Option.some.injEq] at hl
        rw [← hl, hID]
        exact hC.podIDF pid q hv
    · rw [if_neg hk] at hl
      exact hC.podIDF pid p hl
  · exact hC.vpaIDF
  · intro pid p hl
    simp only [alookup_amap] at hl
    by_cases hk : podID = pid
    · rw [if_pos hk] at hl
      rcases hv : alookup s.pods pid with _ | q
      · rw [hv] at hl; cases hl
      · rw [hv] at hl
        simp only [Option.map_some', Option.some.injEq] at hl
        rw [← hl]
        exact hcnd q (hC.contND pid q hv)
    · rw [if_neg hk] at hl
      exact hC.contND pid p hl
  · intro pid p hl
    simp only [alookup_amap] at hl
    by_cases hk : podID = pid
    · rw [if_pos hk] at hl
      rcases hv : alookup s.pods pid with _ | q
      · rw [hv] at hl; cases hl
      · rw [hv] at hl
        simp only [Option.map_some', Option.some.injEq] at hl
        rw [← hl, hlsk]
        exact hC.podLsk pid q hv
    · rw [if_neg hk] at hl
      exact hC.podLsk pid p hl
  · exact hC.keyLsk
  · exact hC.linkDom
  · exact hC.link

theorem core_pods_amap' {s : ClusterState} {podID : PodID} {pod : PodState}
    (g : PodState → PodState) (hp : alookup s.pods podID = some pod)
    (hID : (g pod).ID = pod.ID)
    (hglsk : (g pod).labelSetKey ∈ s.labelSetMap ∨ (g pod).labelSetKey = [])
    (hcnd : nodupKeys pod.Containers → nodupKeys (g pod).Containers)
    (hC : CoreInv s) : CoreInv { s with pods := amap s.pods podID g } := by
  constructor
  · exact nodupKeys_amap hC.podsND
  · exact hC.vpasND
  · exact hC.aggND
  · intro pid p hl
    simp only [alookup_amap] at hl
    by_cases hk : podID = pid
    · rw [if_pos hk] at hl
      rw [← hk, hp] at hl
      simp only [Option.map_some', Option.some.injEq] at hl
      rw [← hl, hID]
      rw [← hk]
      exact hC.podIDF podID pod hp
    · rw [if_neg hk] at hl
      exact hC.podIDF pid p hl
  · exact hC.vpaIDF
  · intro pid p hl
    simp only [alookup_amap] at hl
    by_cases hk : podID = pid
    · rw [if_pos hk] at hl
      rw [← hk, hp] at hl
      simp only [Option.map_some', Option.some.injEq] at hl
      rw [← hl]
      exact hcnd (hC.contND podID pod hp)
    · rw [if_neg hk] at hl
      exact hC.contND pid p hl
  · intro pid p hl
    simp only [alookup_amap] at hl
    by_cases hk : podID = pid
    · rw [if_pos hk] at hl
      rw [← hk, hp] at hl
      simp only [Option.map_some', Option.some.injEq] at hl
      rw [← hl]
      exact hglsk
    · rw [if_neg hk] at hl
      exact hC.podLsk pid p hl
  · exact hC.keyLsk
  · exact hC.linkDom
  · exact hC.link

theorem core_lsmInsert {s : ClusterState} (k : LabelSetKey) (hC : CoreInv s) :
    CoreInv { s with labelSetMap := lsmInsert s.labelSetMap k } := by
  constructor
  · exact hC.podsND
  · exact hC.vpasND
  · exact hC.aggND
  · exact hC.podIDF
  · exact hC.vpaIDF
  · exact hC.contND
  · intro pid p hl
    rcases hC.podLsk pid p hl with h | h
    · exact Or.inl (mem_lsmInsert_of_mem k h)
    · exact Or.inr h
  · intro key acs hl
    rcases hC.keyLsk key acs hl with h | h
    · exact Or.inl (mem_lsmInsert_of_mem k h)
    · exact Or.inr h
  · exact hC.linkDom
  · intro vid vpa hl key acs hlk
    have hmc : vpaMatchesAggregation (lsmInsert s.labelSetMap k) vpa key
        = vpaMatchesAggregation s.labelSetMap vpa key :=
      vpaMatchesAggregation_congr key rfl rfl
        (lookupLabelSet_stable k (hC.keyLsk key acs hlk))
    rw [hmc]
    exact hC.link vid vpa hl key acs hlk

theorem podsLsk_mem {s : ClusterState} (hC : CoreInv s) :
    ∀ kv ∈ s.pods, kv.2.labelSetKey ∈ s.labelSetMap ∨ kv.2.labelSetKey = [] := by
  intro kv hkv
  have : (kv.1, kv.2) ∈ s.pods := by rw [Prod.mk.eta]; exact hkv
  exact hC.podLsk kv.1 kv.2 (mem_alookup hC.podsND this)

theorem count_lsmInsert {s : ClusterState} (k : LabelSetKey) (hC : CoreInv s)
    (hcount : PodCountInvariant s) :
    PodCountInvariant { s with labelSetMap := lsmInsert s.labelSetMap k } := by
  intro vid vpa hl
  rw [getMatchingPods_length]
  have hl' : alookup s.vpas vid = some vpa := hl
  rw [hcount vid vpa hl', getMatchingPods_length]
  exact (matchCount_lsm_stable k vpa.ID.Namespace vpa.PodSelector (podsLsk_mem hC)).symm

theorem repointStep_facts {t0 : ClusterState} {p0 : PodState} (now : Time)
    (podID : PodID) (cn0 : String) (c0 : ContainerState)
    (hC : CoreInv t0) (hp : alookup t0.pods podID = some p0) :
    CoreInv (repointStep now podID t0 (cn0, c0)) ∧
    (repointStep now podID t0 (cn0, c0)).labelSetMap = t0.labelSetMap ∧
    (repointStep now podID t0 (cn0, c0)).emptyVPAs = t0.emptyVPAs ∧
    (repointStep now podID t0 (cn0, c0)).lastAggregateContainerStateGC
      = t0.lastAggregateContainerStateGC ∧
    (repointStep now podID t0 (cn0, c0)).gcInterval = t0.gcInterval ∧
    (∀ pid, pid ≠ podID →
      alookup (repointStep now podID t0 (cn0, c0)).pods pid = alookup t0.pods pid) ∧
    (∀ k, (alookup t0.aggregateStateMap k).isSome = true →
      (alookup (repointStep now podID t0 (cn0, c0)).aggregateStateMap k).isSome = true) ∧
    (∀ k acs, alookup (repointStep now podID t0 (cn0, c0)).aggregateStateMap k = some acs →
      (alookup t0.aggregateStateMap k).isSome = true ∨ k.labelSetKey = p0.labelSetKey) ∧
    (∀ vid, vpaCountProfile (alookup (repointStep now podID t0 (cn0, c0)).vpas vid)
      = vpaCountProfile (alookup t0.vpas vid)) ∧
    (∀ (lsm : LabelSetMap) (ns : String) (sel : Selector),
      matchCount lsm ns sel (repointStep now podID t0 (cn0, c0)).pods
        = matchCount lsm ns sel t0.pods) ∧
    (alookup (repointStep now podID t0 (cn0, c0)).aggregateStateMap
      (MakeAggregateStateKey p0 cn0)).isSome = true ∧
    ∃ p1, alookup (repointStep now podID t0 (cn0, c0)).pods podID = some p1 ∧
      p1.ID = p0.ID ∧ p1.labelSetKey = p0.labelSetKey ∧ p1.Phase = p0.Phase ∧
      p1.InitContainers = p0.InitContainers ∧
      p1.Containers = amap p0.Containers cn0 (fun c =>
        { c with aggregator :=
            ContainerStateAggregator.direct (MakeAggregateStateKey p0 cn0) }) := by
  obtain ⟨tA, key, hfc⟩ := @findOrCreate_isSome _ ⟨podID, cn0⟩ _ now hp
  obtain ⟨hkey0, hpods, hlsm, hemp, hgcT, hgcI, hksome, hother, hpres, habs⟩ :=
    findOrCreate_spec hp hfc
  have hkey : key = MakeAggregateStateKey p0 cn0 := hkey0
  clear hkey0
  subst hkey
  have hcoreA : CoreInv tA := core_findOrCreate hC hp hfc
  have hstepEq : repointStep now podID t0 (cn0, c0)
      = { tA with pods := amap tA.pods podID fun p =>
          { p with Containers := amap p.Containers cn0 fun c =>
              { c with aggregator := ContainerStateAggregator.direct (MakeAggregateStateKey p0 cn0) } } } := by
    unfold repointStep
    rw [hfc]
  rw [hstepEq]
  dsimp only
  refine ⟨?_, hlsm, hemp, hgcT, hgcI, ?_, ?_, ?_, ?_, ?_, hksome, ?_⟩
  · exact core_pods_amap podID _ (fun p => rfl) (fun p => rfl)
      (fun p h => by dsimp only; exact nodupKeys_amap h) hcoreA
  · intro pid hpid
    rw [alookup_amap, if_neg (fun he => hpid he.symm), hpods]
  · intro k hk
    by_cases he : k = MakeAggregateStateKey p0 cn0
    · rw [he]
      exact hksome
    · rw [hother k he]
      exact hk
  · intro k acs hk
    by_cases he : k = MakeAggregateStateKey p0 cn0
    · right
      rw [he]
      rfl
    · left
      rw [← hother k he, hk]
      rfl
  · intro vid
    rcases hs : alookup t0.aggregateStateMap (MakeAggregateStateKey p0 cn0) with _ | w
    · obtain ⟨hvpas, _, _⟩ := habs hs
      rw [hvpas vid]
      unfold vpaCountProfile
      rcases alookup t0.vpas vid with _ | v
      · rfl
      · simp only [Option.map_some', Option.some.injEq]
        rw [useAggregationIfMatching_ID, useAggregationIfMatching_PodSelector,
          useAggregationIfMatching_PodCount]
    · have h1 : tA = t0 := hpres (by rw [hs]; rfl)
      rw [h1]
  · intro lsm' ns sel
    rw [← hpods]
    exact matchCount_amap_keyfix lsm' ns sel tA.pods podID _ (fun p => rfl)
  · refine ⟨{ p0 with Containers := amap p0.Containers cn0 fun c =>
        { c with aggregator := ContainerStateAggregator.direct (MakeAggregateStateKey p0 cn0) } },
      ?_, rfl, rfl, rfl, rfl, rfl⟩
    rw [alookup_amap, if_pos rfl, hpods, hp]
    rfl

theorem repoint_fold_facts (now : Time) (podID : PodID) :
    ∀ (l : List (String × ContainerState)) (t0 : ClusterState) (p0 : PodState),
    CoreInv t0 → alookup t0.pods podID = some p0 →
    RepointFacts podID l t0 p0 (l.foldl (repointStep now podID) t0) := by
  intro l
  induction l with
  | nil =>
    intro t0 p0 hC hp
    exact ⟨hC, rfl, rfl, rfl, rfl, fun _ _ => rfl, fun _ h => h,
      fun k acs h => Or.inl (by simp only [List.foldl_nil] at h; rw [h]; rfl), fun _ => rfl,
      fun _ _ _ => rfl,
      p0, hp, rfl, rfl, rfl, rfl, rfl, fun _ _ => rfl, fun cn hcn => absurd hcn (by simp)⟩
  | cons hd tl ih =>
    intro t0 p0 hC hp
    rcases hd with ⟨cn0, c0⟩
    obtain ⟨hC1, hlsm1, hemp1, hgcT1, hgcI1, hoth1, hmono1, hnew1, hprof1, hmc1, hksome1,
      p1, hp1, hID1, hlsk1, hPh1, hInit1, hCont1⟩ :=
      repointStep_facts now podID cn0 c0 hC hp
    rw [List.foldl_cons]
    obtain ⟨coreF, lsmF, empF, gcTF, gcIF, othF, monoF, newF, profF, mcF,
      pt, hpt, hptID, hptlsk, hptPh, hptInit, hptfst, hptold, hptnew⟩ :=
      ih (repointStep now podID t0 (cn0, c0)) p1 hC1 hp1
    have hmk : ∀ cn, MakeAggregateStateKey p1 cn = MakeAggregateStateKey p0 cn :=
      fun cn => makeKey_congr cn hID1 hlsk1
    refine ⟨coreF, lsmF.trans hlsm1, empF.trans hemp1, gcTF.trans hgcT1, gcIF.trans hgcI1,
      ?_, ?_, ?_, ?_, ?_, pt, hpt, hptID.trans hID1, hptlsk.trans hlsk1, hptPh.trans hPh1,
      hptInit.trans hInit1, ?_, ?_, ?_⟩
    · intro pid hpid
      rw [othF pid hpid, hoth1 pid hpid]
    · intro k hk
      exact monoF k (hmono1 k hk)
    · intro k acs hk
      rcases newF k acs hk with hs1 | hlskk
      · rcases Option.isSome_iff_exists.mp hs1 with ⟨acs1, hacs1⟩
        exact hnew1 k acs1 hacs1
      · rw [hlsk1] at hlskk
        exact Or.inr hlskk
    · intro vid
      rw [profF vid, hprof1 vid]
    · intro lsm' ns sel
      rw [mcF lsm' ns sel, hmc1 lsm' ns sel]
    · rw [hptfst, hCont1]
      exact amap_map_fst p0.Containers cn0 _
    · intro cn hcn
      simp only [List.map_cons, List.mem_cons, not_or] at hcn
      rw [hptold cn hcn.2, hCont1, alookup_amap, if_neg (fun he => hcn.1 he.symm)]
    · intro cn hcn
      rw [List.map_cons] at hcn
      by_cases hmem : cn ∈ tl.map Prod.fst
      · obtain ⟨hlook, hsome⟩ := hptnew cn hmem
        rw [hmk cn] at hlook hsome
        refine ⟨?_, hsome⟩
        rw [hlook, hCont1, alookup_amap]
        by_cases he : cn0 = cn
        · subst he
          rw [if_pos rfl]
          rcases alookup p0.Containers cn0 with _ | c <;> rfl
        · rw [if_neg he]
      · have he : cn = cn0 := by
          rcases List.mem_cons.mp hcn with h | h
          · exact h
          · exact absurd h hmem
        subst he
        refine ⟨?_, monoF _ hksome1⟩
        rw [hptold cn hmem, hCont1, alookup_amap, if_pos rfl]

theorem addOrUpdatePodChanged_facts {t : ClusterState} {pod : PodState} (now : Time)
    (podID : PodID) (newLabels : LabelSet) (phase : PodPhase)
    (hC : CoreInv t) (hp : alookup t.pods podID = some pod)
    (hmem : (newLabels : LabelSetKey) ∈ t.labelSetMap) :
    CoreInv (addOrUpdatePodChanged t now podID pod newLabels phase) ∧
    (addOrUpdatePodChanged t now podID pod newLabels phase).labelSetMap
      = t.labelSetMap ∧
    (addOrUpdatePodChanged t now podID pod newLabels phase).emptyVPAs = t.emptyVPAs ∧
    (addOrUpdatePodChanged t now podID pod newLabels phase).lastAggregateContainerStateGC
      = t.lastAggregateContainerStateGC ∧
    (addOrUpdatePodChanged t now podID pod newLabels phase).gcInterval = t.gcInterval ∧
    (∀ pid, pid ≠ podID →
      alookup (addOrUpdatePodChanged t now podID pod newLabels phase).pods pid
        = alookup t.pods pid) ∧
    (∀ k, (alookup t.aggregateStateMap k).isSome = true →
      (alookup (addOrUpdatePodChanged t now podID pod newLabels phase).aggregateStateMap
        k).isSome = true) ∧
    (∀ (lsm : LabelSetMap) (ns : String) (sel : Selector),
      matchCount lsm ns sel (addOrUpdatePodChanged t now podID pod newLabels phase).pods
        = matchCount lsm ns sel t.pods - podMatchInd lsm ns sel (podID, pod)
          + podMatchInd lsm ns sel (podID, { pod with labelSetKey := newLabels })) ∧
    (∀ vid vpa', alookup (addOrUpdatePodChanged t now podID pod newLabels phase).vpas vid
        = some vpa' →
      ∃ vpa, alookup t.vpas vid = some vpa ∧ vpa'.ID = vpa.ID ∧
        vpa'.PodSelector = vpa.PodSelector ∧
        vpa'.PodCount = vpa.PodCount +
          (if podLabelsMatchVPA podID.Namespace (lookupLabelSet t.labelSetMap newLabels)
              vpa.ID.Namespace vpa.PodSelector then 1 else 0)) ∧
    (∃ pod', alookup (addOrUpdatePodChanged t now podID pod newLabels phase).pods podID
        = some pod' ∧
      pod'.ID = pod.ID ∧ pod'.labelSetKey = newLabels ∧ pod'.Phase = phase ∧
      (∀ cn c, alookup pod'.Containers cn = some c →
        c.aggregator = ContainerStateAggregator.direct (MakeAggregateStateKey pod' cn) ∧
        (alookup (addOrUpdatePodChanged t now podID pod newLabels phase).aggregateStateMap
          (MakeAggregateStateKey pod' cn)).isSome = true)) := by
  have hpid : pod.ID = podID := hC.podIDF _ _ hp
  have hC4 : CoreInv { t with pods := amap t.pods podID fun _ =>
      { pod with labelSetKey := newLabels } } :=
    core_pods_amap' (fun _ => { pod with labelSetKey := newLabels }) hp rfl
      (Or.inl hmem) (fun h => h) hC
  have hp4 : alookup ({ t with pods := amap t.pods podID fun _ =>
      { pod with labelSetKey := newLabels } } : ClusterState).pods podID
      = some { pod with labelSetKey := newLabels } := by
    dsimp only
    rw [alookup_amap, if_pos rfl, hp]
    rfl
  obtain ⟨coreF, lsmF, empF, gcTF, gcIF, othF, monoF, newF, profF, mcF,
    pt, hpt, hptID, hptlsk, hptPh, hptInit, hptfst, hptold, hptnew⟩ :=
    repoint_fold_facts now podID
      ({ pod with labelSetKey := newLabels } : PodState).Containers
      { t with pods := amap t.pods podID fun _ => { pod with labelSetKey := newLabels } }
      { pod with labelSetKey := newLabels } hC4 hp4
  have hC6 : CoreInv (addPodToItsVpa
      ((({ pod with labelSetKey := newLabels } : PodState).Containers).foldl
        (repointStep now podID)
        { t with pods := amap t.pods podID fun _ =>
            { pod with labelSetKey := newLabels } })
      { pod with labelSetKey := newLabels }) :=
    core_addPodToItsVpa _ coreF
  refine ⟨?_, lsmF, empF, gcTF, gcIF, ?_, ?_, ?_, ?_, ?_⟩
  · -- core invariant of the final state
    unfold addOrUpdatePodChanged
    dsimp only
    exact core_pods_amap podID _ (fun p => rfl) (fun p => rfl) (fun p h => h) hC6
  · -- other pods unchanged
    intro pid hpid'
    unfold addOrUpdatePodChanged
    dsimp only
    unfold setPodPhase
    rw [alookup_amap, if_neg (fun he => hpid' he.symm)]
    have h2 : alookup ({ t with pods := amap t.pods podID fun _ =>
        { pod with labelSetKey := newLabels } } : ClusterState).pods pid
        = alookup t.pods pid := by
      dsimp only
      rw [alookup_amap, if_neg (fun he => hpid' he.symm)]
    exact (othF pid hpid').trans h2
  · -- aggregation index only grows
    intro k hk
    exact monoF k hk
  · -- match count change
    intro lsm ns sel
    have h1 : matchCount lsm ns sel
        (addOrUpdatePodChanged t now podID pod newLabels phase).pods
        = matchCount lsm ns sel
          ((({ pod with labelSetKey := newLabels } : PodState).Containers).foldl
            (repointStep now podID)
            { t with pods := amap t.pods podID fun _ =>
                { pod with labelSetKey := newLabels } }).pods := by
      show matchCount lsm ns sel (setPodPhase
          ((({ pod with labelSetKey := newLabels } : PodState).Containers).foldl
            (repointStep now podID)
            { t with pods := amap t.pods podID fun _ =>
                { pod with labelSetKey := newLabels } }).pods podID phase) = _
      unfold setPodPhase
      exact matchCount_amap_keyfix lsm ns sel _ podID _ (fun p => rfl)
    rw [h1, mcF lsm ns sel]
    exact matchCount_amap lsm ns sel (fun _ => { pod with labelSetKey := newLabels })
      hC.podsND hp
  · -- per-policy pod count change
    intro vid vpa' hl
    have hl' : alookup (addPodToItsVpa
        ((({ pod with labelSetKey := newLabels } : PodState).Containers).foldl
          (repointStep now podID)
          { t with pods := amap t.pods podID fun _ =>
              { pod with labelSetKey := newLabels } })
        { pod with labelSetKey := newLabels }).vpas vid = some vpa' := hl
    rw [alookup_addPodToItsVpa] at hl'
    rcases hF : alookup ((({ pod with labelSetKey := newLabels } : PodState).Containers).foldl
        (repointStep now podID)
        { t with pods := amap t.pods podID fun _ =>
            { pod with labelSetKey := newLabels } }).vpas vid with _ | vF
    · rw [hF] at hl'
      cases hl'
    · rw [hF] at hl'
      simp only [Option.map_some', Option.some.injEq] at hl'
      have hprofile := profF vid
      rw [hF] at hprofile
      rcases ht : alookup t.vpas vid with _ | vT
      · rw [show alookup ({ t with pods := amap t.pods podID fun _ =>
            { pod with labelSetKey := newLabels } } : ClusterState).vpas vid = none
            from ht] at hprofile
        unfold vpaCountProfile at hprofile
        simp at hprofile
      · rw [show alookup ({ t with pods := amap t.pods podID fun _ =>
            { pod with labelSetKey := newLabels } } : ClusterState).vpas vid = some vT
            from ht] at hprofile
        unfold vpaCountProfile at hprofile
        simp only [Option.map_some', Option.some.injEq, Prod.mk.injEq] at hprofile
        obtain ⟨hid, hsel, hcnt⟩ := hprofile
        have hcond : podMatchesVpa
            ((({ pod with labelSetKey := newLabels } : PodState).Containers).foldl
              (repointStep now podID)
              { t with pods := amap t.pods podID fun _ =>
                  { pod with labelSetKey := newLabels } })
            { pod with labelSetKey := newLabels } vF
            = podLabelsMatchVPA podID.Namespace
                (lookupLabelSet t.labelSetMap newLabels) vT.ID.Namespace
                vT.PodSelector := by
          unfold podMatchesVpa
          rw [show ({ pod with labelSetKey := newLabels } : PodState).ID.Namespace
              = podID.Namespace from by rw [show ({ pod with labelSetKey := newLabels } :
                PodState).ID = pod.ID from rfl, hpid]]
          rw [show ((({ pod with labelSetKey := newLabels } : PodState).Containers).foldl
              (repointStep now podID)
              { t with pods := amap t.pods podID fun _ =>
                  { pod with labelSetKey := newLabels } }).labelSetMap
              = t.labelSetMap from lsmF]
          rw [hid, hsel]
        rw [← hl']
        by_cases hm : podMatchesVpa
            ((({ pod with labelSetKey := newLabels } : PodState).Containers).foldl
              (repointStep now podID)
              { t with pods := amap t.pods podID fun _ =>
                  { pod with labelSetKey := newLabels } })
            { pod with labelSetKey := newLabels } vF = true
        · refine ⟨vT, rfl, ?_, ?_, ?_⟩
          · rw [if_pos hm]
            exact hid
          · rw [if_pos hm]
            exact hsel
          · rw [if_pos hm]
            have : podLabelsMatchVPA podID.Namespace
                (lookupLabelSet t.labelSetMap newLabels) vT.ID.Namespace
                vT.PodSelector = true := by
              rw [← hcond]
              exact hm
            rw [if_pos this, hcnt]
        · refine ⟨vT, rfl, ?_, ?_, ?_⟩
          · rw [if_neg hm]
            exact hid
          · rw [if_neg hm]
            exact hsel
          · rw [if_neg hm]
            have : ¬ podLabelsMatchVPA podID.Namespace
                (lookupLabelSet t.labelSetMap newLabels) vT.ID.Namespace
                vT.PodSelector = true := by
              rw [← hcond]
              exact hm
            rw [if_neg this, hcnt]
            ring
  · -- the updated pod
    refine ⟨{ pt with Phase := phase }, ?_, hptID, hptlsk, rfl, ?_⟩
    · unfold addOrUpdatePodChanged
      dsimp only
      unfold setPodPhase
      rw [alookup_amap, if_pos rfl]
      rw [show alookup (addPodToItsVpa
          ((({ pod with labelSetKey := newLabels } : PodState).Containers).foldl
            (repointStep now podID)
            { t with pods := amap t.pods podID fun _ =>
                { pod with labelSetKey := newLabels } })
          { pod with labelSetKey := newLabels }).pods podID = some pt from hpt]
      rfl
    · intro cn c hcc
      have hcc' : alookup pt.Containers cn = some c := hcc
      have hmemc : cn ∈ (({ pod with labelSetKey := newLabels } : PodState).Containers).map
          Prod.fst := by
        rw [← hptfst]
        exact alookup_isSome.mp (by rw [hcc']; rfl)
      obtain ⟨hlook, hsome⟩ := hptnew cn hmemc
      rw [hlook] at hcc'
      have hmkeq : MakeAggregateStateKey ({ pt with Phase := phase } : PodState) cn
          = MakeAggregateStateKey ({ pod with labelSetKey := newLabels } : PodState) cn :=
        makeKey_congr cn hptID hptlsk
      constructor
      · rcases hc0 : alookup ({ pod with labelSetKey := newLabels } :
            PodState).Containers cn with _ | c0
        · rw [hc0] at hcc'
          cases hcc'
        · rw [hc0] at hcc'
          simp only [Option.map_some', Option.some.injEq] at hcc'
          rw [← hcc', hmkeq]
      · rw [hmkeq]
        exact hsome

theorem aggregatorTargetKey_congr {p q : PodState} (cn : String) (hID : p.ID = q.ID)
    (hlsk : p.labelSetKey = q.labelSetKey) (a : ContainerStateAggregator) :
    aggregatorTargetKey p cn a = aggregatorTargetKey q cn a := by
  cases a with
  | proxy => exact makeKey_congr cn hID hlsk
  | direct k => rfl

theorem core_pods_cons_new {s : ClusterState} {podID : PodID}
    (habs : alookup s.pods podID = none) (hC : CoreInv s) :
    CoreInv { s with pods := (podID, newPod podID) :: s.pods } := by
  constructor
  · exact nodupKeys_cons habs hC.podsND
  · exact hC.vpasND
  · exact hC.aggND
  · intro pid p hl
    rw [show alookup ({ s with pods := (podID, newPod podID) :: s.pods } :
        ClusterState).pods pid = alookup ((podID, newPod podID) :: s.pods) pid from rfl,
      alookup_cons] at hl
    by_cases hk : podID = pid
    · rw [if_pos hk] at hl
      cases hl
      rw [← hk]
      rfl
    · rw [if_neg hk] at hl
      exact hC.podIDF pid p hl
  · exact hC.vpaIDF
  · intro pid p hl
    rw [show alookup ({ s with pods := (podID, newPod podID) :: s.pods } :
        ClusterState).pods pid = alookup ((podID, newPod podID) :: s.pods) pid from rfl,
      alookup_cons] at hl
    by_cases hk : podID = pid
    · rw [if_pos hk] at hl
      cases hl
      exact List.nodup_nil
    · rw [if_neg hk] at hl
      exact hC.contND pid p hl
  · intro pid p hl
    rw [show alookup ({ s with pods := (podID, newPod podID) :: s.pods } :
        ClusterState).pods pid = alookup ((podID, newPod podID) :: s.pods) pid from rfl,
      alookup_cons] at hl
    by_cases hk : podID = pid
    · rw [if_pos hk] at hl
      cases hl
      exact Or.inr rfl
    · rw [if_neg hk] at hl
      exact hC.podLsk pid p hl
  · exact hC.keyLsk
  · exact hC.linkDom
  · exact hC.link

/-- `AddOrUpdatePod`'s new-pod path preserves the mutation invariants. -/
theorem inv_addOrUpdatePod_new {s : ClusterState} (now : Time) (podID : PodID)
    (newLabels : LabelSet) (phase : PodPhase)
    (habs : alookup s.pods podID = none) (hI : Inv s) :
    Inv (AddOrUpdatePod s now podID newLabels phase) := by
  have hr : AddOrUpdatePod s now podID newLabels phase
      = addOrUpdatePodChanged
        { s with
            pods := (podID, newPod podID) :: s.pods,
            labelSetMap := lsmInsert s.labelSetMap newLabels }
        now podID (newPod podID) newLabels phase := by
    unfold AddOrUpdatePod
    rw [habs]
  rw [hr]
  have hC2 : CoreInv ({ s with
      pods := (podID, newPod podID) :: s.pods,
      labelSetMap := lsmInsert s.labelSetMap newLabels } : ClusterState) :=
    core_lsmInsert newLabels (core_pods_cons_new habs hI.toCoreInv)
  have hp2 : alookup ({ s with
      pods := (podID, newPod podID) :: s.pods,
      labelSetMap := lsmInsert s.labelSetMap newLabels } : ClusterState).pods podID
      = some (newPod podID) := by
    dsimp only
    rw [alookup_cons, if_pos rfl]
  have hmem2 : (newLabels : LabelSetKey) ∈ ({ s with
      pods := (podID, newPod podID) :: s.pods,
      labelSetMap := lsmInsert s.labelSetMap newLabels } : ClusterState).labelSetMap :=
    mem_lsmInsert_self s.labelSetMap newLabels
  obtain ⟨hCr, hlsmr, hempr, hgcTr, hgcIr, hothr, hmonor, hmcr, hvpar,
    pod', hpod', hpID', hplsk', hpPh', hpcont'⟩ :=
    addOrUpdatePodChanged_facts now podID newLabels phase hC2 hp2 hmem2
  refine ⟨hCr, ?_, ?_⟩
  · -- pod-count invariant
    intro vid vpa' hv
    obtain ⟨vpa, hvv, hid, hsel, hcnt⟩ := hvpar vid vpa' hv
    have hvs : alookup s.vpas vid = some vpa := hvv
    rw [getMatchingPods_length, hlsmr, hid, hsel, hmcr]
    dsimp only
    rw [matchCount_cons]
    rw [matchCount_lsm_stable newLabels vpa.ID.Namespace vpa.PodSelector
      (podsLsk_mem hI.toCoreInv)]
    have hcount0 : vpa.PodCount
        = matchCount s.labelSetMap vpa.ID.Namespace vpa.PodSelector s.pods := by
      rw [hI.count vid vpa hvs, getMatchingPods_length]
    rw [hcnt, hcount0]
    unfold podMatchInd
    dsimp only
    ring
  · -- reference-target invariant
    intro pid pod2 hp2' cn c hcc
    by_cases hpe : pid = podID
    · subst hpe
      rw [hpod'] at hp2'
      simp only [Option.some.injEq] at hp2'
      subst hp2'
      obtain ⟨hagg, _⟩ := hpcont' cn c hcc
      rw [hagg]
      rfl
    · have hlp : alookup s.pods pid = some pod2 := by
        have h1 := hothr pid hpe
        rw [hp2'] at h1
        have h2 : alookup ((podID, newPod podID) :: s.pods) pid = some pod2 := h1.symm
        rw [alookup_cons, if_neg (fun he => hpe he.symm)] at h2
        exact h2
      exact hI.ref pid pod2 hlp cn c hcc

/-- `AddOrUpdatePod`'s unchanged-key path preserves the mutation
invariants. -/
theorem inv_addOrUpdatePod_same {s : ClusterState} {pod : PodState} (now : Time)
    (podID : PodID) (newLabels : LabelSet) (phase : PodPhase)
    (hlook : alookup s.pods podID = some pod) (heq : pod.labelSetKey = newLabels)
    (hI : Inv s) :
    Inv (AddOrUpdatePod s now podID newLabels phase) := by
  have hr : AddOrUpdatePod s now podID newLabels phase
      = { s with
          pods := setPodPhase s.pods podID phase,
          labelSetMap := lsmInsert s.labelSetMap newLabels } := by
    unfold AddOrUpdatePod
    rw [hlook]
    dsimp only
    rw [if_pos heq]
  rw [hr]
  have hC2 : CoreInv ({ s with
      labelSetMap := lsmInsert s.labelSetMap newLabels } : ClusterState) :=
    core_lsmInsert newLabels hI.toCoreInv
  have hp2 : alookup ({ s with
      labelSetMap := lsmInsert s.labelSetMap newLabels } : ClusterState).pods podID
      = some pod := hlook
  have hCr : CoreInv ({ s with
      pods := setPodPhase s.pods podID phase,
      labelSetMap := lsmInsert s.labelSetMap newLabels } : ClusterState) :=
    core_pods_amap' (fun p => { p with Phase := phase }) hp2 rfl
      (hC2.podLsk podID pod hp2) (fun h => h) hC2
  refine ⟨hCr, ?_, ?_⟩
  · -- pod-count invariant
    intro vid vpa' hv
    have hvs : alookup s.vpas vid = some vpa' := hv
    rw [getMatchingPods_length]
    dsimp only
    have h1 : matchCount (lsmInsert s.labelSetMap newLabels) vpa'.ID.Namespace
        vpa'.PodSelector (setPodPhase s.pods podID phase)
        = matchCount (lsmInsert s.labelSetMap newLabels) vpa'.ID.Namespace
          vpa'.PodSelector s.pods := by
      unfold setPodPhase
      exact matchCount_amap_keyfix _ _ _ _ podID _ (fun p => rfl)
    rw [h1, matchCount_lsm_stable newLabels vpa'.ID.Namespace vpa'.PodSelector
      (podsLsk_mem hI.toCoreInv)]
    rw [hI.count vid vpa' hvs, getMatchingPods_length]
  · -- reference-target invariant
    intro pid pod2 hp2' cn c hcc
    by_cases hpe : pid = podID
    · subst hpe
      have hp2'' : alookup (setPodPhase s.pods pid phase) pid = some pod2 := hp2'
      unfold setPodPhase at hp2''
      rw [alookup_amap, if_pos rfl, hlook] at hp2''
      simp only [Option.map_some', Option.some.injEq] at hp2''
      subst hp2''
      have hcc' : alookup pod.Containers cn = some c := hcc
      have h2 := hI.ref pid pod hlook cn c hcc'
      calc aggregatorTargetKey { pod with Phase := phase } cn c.aggregator
          = aggregatorTargetKey pod cn c.aggregator :=
            aggregatorTargetKey_congr cn rfl rfl c.aggregator
        _ = MakeAggregateStateKey pod cn := h2
        _ = MakeAggregateStateKey { pod with Phase := phase } cn :=
            makeKey_congr cn rfl rfl
    · have hp2'' : alookup (setPodPhase s.pods podID phase) pid = some pod2 := hp2'
      unfold setPodPhase at hp2''
      rw [alookup_amap, if_neg (fun he => hpe he.symm)] at hp2''
      exact hI.ref pid pod2 hp2'' cn c hcc

/-- `AddOrUpdatePod`'s changed-key path preserves the mutation
invariants. -/
theorem inv_addOrUpdatePod_changed {s : ClusterState} {pod : PodState} (now : Time)
    (podID : PodID) (newLabels : LabelSet) (phase : PodPhase)
    (hlook : alookup s.pods podID = some pod) (hne : ¬ pod.labelSetKey = newLabels)
    (hI : Inv s) :
    Inv (AddOrUpdatePod s now podID newLabels phase) := by
  have hr : AddOrUpdatePod s now podID newLabels phase
      = addOrUpdatePodChanged
        (removePodFromItsVpa
          { s with labelSetMap := lsmInsert s.labelSetMap newLabels } pod)
        now podID pod newLabels phase := by
    unfold AddOrUpdatePod
    rw [hlook]
    dsimp only
    rw [if_neg hne]
  rw [hr]
  have hpid : pod.ID = podID := hI.podIDF podID pod hlook
  have hC2 : CoreInv ({ s with
      labelSetMap := lsmInsert s.labelSetMap newLabels } : ClusterState) :=
    core_lsmInsert newLabels hI.toCoreInv
  have hC3 : CoreInv (removePodFromItsVpa
      { s with labelSetMap := lsmInsert s.labelSetMap newLabels } pod) :=
    core_removePodFromItsVpa pod hC2
  have hp3 : alookup (removePodFromItsVpa
      { s with labelSetMap := lsmInsert s.labelSetMap newLabels } pod).pods podID
      = some pod := hlook
  have hmem3 : (newLabels : LabelSetKey) ∈ (removePodFromItsVpa
      { s with labelSetMap := lsmInsert s.labelSetMap newLabels } pod).labelSetMap :=
    mem_lsmInsert_self s.labelSetMap newLabels
  obtain ⟨hCr, hlsmr, hempr, hgcTr, hgcIr, hothr, hmonor, hmcr, hvpar,
    pod', hpod', hpID', hplsk', hpPh', hpcont'⟩ :=
    addOrUpdatePodChanged_facts now podID newLabels phase hC3 hp3 hmem3
  refine ⟨hCr, ?_, ?_⟩
  · -- pod-count invariant
    intro vid vpa' hv
    obtain ⟨vpa3, hvv3, hid3, hsel3, hcnt3⟩ := hvpar vid vpa' hv
    rw [alookup_removePodFromItsVpa] at hvv3
    have hvv3' : (alookup s.vpas vid).map (fun v =>
        if podMatchesVpa { s with labelSetMap := lsmInsert s.labelSetMap newLabels }
          pod v then { v with PodCount := v.PodCount - 1 } else v) = some vpa3 := hvv3
    rcases hvs : alookup s.vpas vid with _ | vpa
    case none =>
      rw [hvs] at hvv3'
      cases hvv3'
    case some =>
      rw [hvs] at hvv3'
      simp only [Option.map_some', Option.some.injEq] at hvv3'
      have hcount0 : vpa.PodCount
          = matchCount s.labelSetMap vpa.ID.Namespace vpa.PodSelector s.pods := by
        rw [hI.count vid vpa hvs, getMatchingPods_length]
      have hmeq : podMatchesVpa
          ({ s with labelSetMap := lsmInsert s.labelSetMap newLabels } : ClusterState)
          pod vpa
          = podLabelsMatchVPA podID.Namespace
              (lookupLabelSet (lsmInsert s.labelSetMap newLabels) pod.labelSetKey)
              vpa.ID.Namespace vpa.PodSelector := by
        unfold podMatchesVpa
        rw [hpid]
      have hbump : podMatchInd (lsmInsert s.labelSetMap newLabels) vpa.ID.Namespace
          vpa.PodSelector (podID, { pod with labelSetKey := newLabels })
          = (if podLabelsMatchVPA podID.Namespace
              (lookupLabelSet (lsmInsert s.labelSetMap newLabels) newLabels)
              vpa.ID.Namespace vpa.PodSelector then 1 else 0) := by
        unfold podMatchInd
        rfl
      rw [show (removePodFromItsVpa
          { s with labelSetMap := lsmInsert s.labelSetMap newLabels } pod).labelSetMap
          = lsmInsert s.labelSetMap newLabels from rfl] at hcnt3
      by_cases hm : podMatchesVpa
          ({ s with labelSetMap := lsmInsert s.labelSetMap newLabels } : ClusterState)
          pod vpa = true
      · rw [if_pos hm] at hvv3'
        subst hvv3'
        dsimp only at hid3 hsel3 hcnt3
        have hindold : podMatchInd (lsmInsert s.labelSetMap newLabels) vpa.ID.Namespace
            vpa.PodSelector (podID, pod) = 1 := by
          unfold podMatchInd
          dsimp only
          rw [if_pos (by rw [← hmeq]; exact hm)]
        rw [getMatchingPods_length, hlsmr]
        rw [show (removePodFromItsVpa
            { s with labelSetMap := lsmInsert s.labelSetMap newLabels } pod).labelSetMap
            = lsmInsert s.labelSetMap newLabels from rfl]
        rw [hid3, hsel3, hmcr]
        rw [show (removePodFromItsVpa
            { s with labelSetMap := lsmInsert s.labelSetMap newLabels } pod).pods
            = s.pods from rfl]
        rw [matchCount_lsm_stable newLabels vpa.ID.Namespace vpa.PodSelector
          (podsLsk_mem hI.toCoreInv)]
        rw [hcnt3, hcount0, hindold, hbump]
      · rw [if_neg hm] at hvv3'
        subst hvv3'
        have hindold : podMatchInd (lsmInsert s.labelSetMap newLabels) vpa.ID.Namespace
            vpa.PodSelector (podID, pod) = 0 := by
          unfold podMatchInd
          dsimp only
          rw [if_neg (by rw [← hmeq]; exact hm)]
        rw [getMatchingPods_length, hlsmr]
        rw [show (removePodFromItsVpa
            { s with labelSetMap := lsmInsert s.labelSetMap newLabels } pod).labelSetMap
            = lsmInsert s.labelSetMap newLabels from rfl]
        rw [hid3, hsel3, hmcr]
        rw [show (removePodFromItsVpa
            { s with labelSetMap := lsmInsert s.labelSetMap newLabels } pod).pods
            = s.pods from rfl]
        rw [matchCount_lsm_stable newLabels vpa.ID.Namespace vpa.PodSelector
          (podsLsk_mem hI.toCoreInv)]
        rw [hcnt3, hcount0, hindold, hbump]
        ring
  · -- reference-target invariant
    intro pid pod2 hp2' cn c hcc
    by_cases hpe : pid = podID
    · subst hpe
      rw [hpod'] at hp2'
      simp only [Option.some.injEq] at hp2'
      subst hp2'
      obtain ⟨hagg, _⟩ := hpcont' cn c hcc
      rw [hagg]
      rfl
    · have h1 := hothr pid hpe
      rw [hp2'] at h1
      have h2 : alookup s.pods pid = some pod2 := h1.symm
      exact hI.ref pid pod2 h2 cn c hcc

/-- `AddOrUpdatePod` preserves the mutation invariants. -/
theorem inv_AddOrUpdatePod {s : ClusterState} (now : Time) (podID : PodID)
    (newLabels : LabelSet) (phase : PodPhase) (hI : Inv s) :
    Inv (AddOrUpdatePod s now podID newLabels phase) := by
  rcases hlook : alookup s.pods podID with _ | pod
  · exact inv_addOrUpdatePod_new now podID newLabels phase hlook hI
  · by_cases heq : pod.labelSetKey = newLabels
    · exact inv_addOrUpdatePod_same now podID newLabels phase hlook heq hI
    · exact inv_addOrUpdatePod_changed now podID newLabels phase hlook heq hI

theorem coreInv_of_fields {s t : ClusterState} (hpods : t.pods = s.pods)
    (hvpas : t.vpas = s.vpas) (hagg : t.aggregateStateMap = s.aggregateStateMap)
    (hlsm : t.labelSetMap = s.labelSetMap) (hC : CoreInv s) : CoreInv t := by
  constructor
  · rw [hpods]; exact hC.podsND
  · rw [hvpas]; exact hC.vpasND
  · rw [hagg]; exact hC.aggND
  · rw [hpods]; exact hC.podIDF
  · rw [hvpas]; exact hC.vpaIDF
  · rw [hpods]; exact hC.contND
  · rw [hpods, hlsm]; exact hC.podLsk
  · rw [hagg, hlsm]; exact hC.keyLsk
  · rw [hvpas, hagg]; exact hC.linkDom
  · unfold LinkInvariant
    rw [hvpas, hagg, hlsm]
    exact hC.link

theorem inv_of_fields {s t : ClusterState} (hpods : t.pods = s.pods)
    (hvpas : t.vpas = s.vpas) (hagg : t.aggregateStateMap = s.aggregateStateMap)
    (hlsm : t.labelSetMap = s.labelSetMap) (hI : Inv s) : Inv t := by
  refine ⟨coreInv_of_fields hpods hvpas hagg hlsm hI.toCoreInv, ?_, ?_⟩
  · intro vid vpa hl
    rw [hvpas] at hl
    rw [hI.count vid vpa hl]
    unfold GetMatchingPods
    rw [hpods, hlsm]
  · unfold RefTargetInvariant
    rw [hpods]
    exact hI.ref

theorem alookup_amap_isSome {K V : Type} [DecidableEq K] (l : List (K × V)) (key : K)
    (f : V → V) (k : K) :
    (alookup (amap l key f) k).isSome = (alookup l k).isSome := by
  rw [alookup_amap]
  by_cases hk : key = k
  · subst hk
    rw [if_pos rfl]
    rcases alookup l key with _ | v <;> rfl
  · rw [if_neg hk]

theorem alookup_amap_some {K V : Type} [DecidableEq K] {l : List (K × V)} {key : K}
    {f : V → V} {k : K} {v : V} (h : alookup (amap l key f) k = some v) :
    ∃ v0, alookup l k = some v0 := by
  have hs : (alookup l k).isSome = true := by
    rw [← alookup_amap_isSome l key f k, h]
    rfl
  rcases ho : alookup l k with _ | v0
  · rw [ho] at hs
    cases hs
  · exact ⟨v0, rfl⟩

theorem core_pods_aerase {s : ClusterState} (podID : PodID) (hC : CoreInv s) :
    CoreInv { s with pods := aerase s.pods podID } := by
  constructor
  · exact nodupKeys_aerase hC.podsND
  · exact hC.vpasND
  · exact hC.aggND
  · intro pid p hl
    have hl' : alookup (aerase s.pods podID) pid = some p := hl
    rw [alookup_aerase] at hl'
    by_cases hk : podID = pid
    · rw [if_pos hk] at hl'
      cases hl'
    · rw [if_neg hk] at hl'
      exact hC.podIDF pid p hl'
  · exact hC.vpaIDF
  · intro pid p hl
    have hl' : alookup (aerase s.pods podID) pid = some p := hl
    rw [alookup_aerase] at hl'
    by_cases hk : podID = pid
    · rw [if_pos hk] at hl'
      cases hl'
    · rw [if_neg hk] at hl'
      exact hC.contND pid p hl'
  · intro pid p hl
    have hl' : alookup (aerase s.pods podID) pid = some p := hl
    rw [alookup_aerase] at hl'
    by_cases hk : podID = pid
    · rw [if_pos hk] at hl'
      cases hl'
    · rw [if_neg hk] at hl'
      exact hC.podLsk pid p hl'
  · exact hC.keyLsk
  · exact hC.linkDom
  · exact hC.link

/-- `DeletePod` preserves the mutation invariants. -/
theorem inv_DeletePod {s : ClusterState} (podID : PodID) (hI : Inv s) :
    Inv (DeletePod s podID) := by
  rcases hlook : alookup s.pods podID with _ | pod
  · have hr : DeletePod s podID = { s with pods := aerase s.pods podID } := by
      unfold DeletePod
      rw [hlook]
    rw [hr, aerase_of_none hlook]
    exact hI
  · have hr : DeletePod s podID
        = { removePodFromItsVpa s pod with pods := aerase s.pods podID } := by
      unfold DeletePod
      rw [hlook]
      rfl
    rw [hr]
    have hpid : pod.ID = podID := hI.toCoreInv.podIDF podID pod hlook
    have hC3 : CoreInv (removePodFromItsVpa s pod) :=
      core_removePodFromItsVpa pod hI.toCoreInv
    refine ⟨core_pods_aerase podID hC3, ?_, ?_⟩
    · -- pod-count invariant
      intro vid vpa' hv
      have hv' : alookup (removePodFromItsVpa s pod).vpas vid = some vpa' := hv
      rw [alookup_removePodFromItsVpa] at hv'
      rcases hvs : alookup s.vpas vid with _ | vpa
      case none =>
        rw [hvs] at hv'
        cases hv'
      case some =>
        rw [hvs] at hv'
        simp only [Option.map_some', Option.some.injEq] at hv'
        have hcount0 : vpa.PodCount
            = matchCount s.labelSetMap vpa.ID.Namespace vpa.PodSelector s.pods := by
          rw [hI.count vid vpa hvs, getMatchingPods_length]
        have hmeq : podMatchesVpa s pod vpa
            = podLabelsMatchVPA podID.Namespace
                (lookupLabelSet s.labelSetMap pod.labelSetKey)
                vpa.ID.Namespace vpa.PodSelector := by
          unfold podMatchesVpa
          rw [hpid]
        by_cases hm : podMatchesVpa s pod vpa = true
        · rw [if_pos hm] at hv'
          subst hv'
          dsimp only
          have hindold : podMatchInd s.labelSetMap vpa.ID.Namespace
              vpa.PodSelector (podID, pod) = 1 := by
            unfold podMatchInd
            dsimp only
            rw [if_pos (by rw [← hmeq]; exact hm)]
          rw [getMatchingPods_length]
          dsimp only
          rw [show (removePodFromItsVpa s pod).labelSetMap = s.labelSetMap from rfl]
          rw [matchCount_aerase _ _ _ hI.toCoreInv.podsND hlook]
          rw [hcount0, hindold]
        · rw [if_neg hm] at hv'
          subst hv'
          have hindold : podMatchInd s.labelSetMap vpa.ID.Namespace
              vpa.PodSelector (podID, pod) = 0 := by
            unfold podMatchInd
            dsimp only
            rw [if_neg (by rw [← hmeq]; exact hm)]
          rw [getMatchingPods_length]
          dsimp only
          rw [show (removePodFromItsVpa s pod).labelSetMap = s.labelSetMap from rfl]
          rw [matchCount_aerase _ _ _ hI.toCoreInv.podsND hlook]
          rw [hcount0, hindold]
          ring
    · -- reference-target invariant
      intro pid pod2 hp2 cn c hcc
      have hp2' : alookup (aerase s.pods podID) pid = some pod2 := hp2
      rw [alookup_aerase] at hp2'
      by_cases hk : podID = pid
      · rw [if_pos hk] at hp2'
        cases hp2'
      · rw [if_neg hk] at hp2'
        exact hI.ref pid pod2 hp2' cn c hcc

/-- Updating one pod in place with a transform that keeps its identity,
label-set key and well-aimed aggregation references preserves the mutation
invariants. -/
theorem inv_pods_amap_keyfix {s : ClusterState} {podID : PodID} {pod : PodState}
    (g : PodState → PodState) (hp : alookup s.pods podID = some pod)
    (hID : (g pod).ID = pod.ID) (hlsk : (g pod).labelSetKey = pod.labelSetKey)
    (hcnd : nodupKeys pod.Containers → nodupKeys (g pod).Containers)
    (href : ∀ cn c, alookup (g pod).Containers cn = some c →
      aggregatorTargetKey (g pod) cn c.aggregator = MakeAggregateStateKey (g pod) cn)
    (hI : Inv s) : Inv { s with pods := amap s.pods podID g } := by
  refine ⟨core_pods_amap' g hp hID
    (by rw [hlsk]; exact hI.toCoreInv.podLsk podID pod hp) hcnd hI.toCoreInv, ?_, ?_⟩
  · -- pod-count invariant
    intro vid vpa' hv
    have hvs : alookup s.vpas vid = some vpa' := hv
    rw [getMatchingPods_length]
    dsimp only
    rw [matchCount_amap _ _ _ g hI.toCoreInv.podsND hp]
    have hind : podMatchInd s.labelSetMap vpa'.ID.Namespace vpa'.PodSelector
        (podID, g pod)
        = podMatchInd s.labelSetMap vpa'.ID.Namespace vpa'.PodSelector (podID, pod) := by
      unfold podMatchInd
      dsimp only
      rw [hlsk]
    rw [hind, hI.count vid vpa' hvs, getMatchingPods_length]
    ring
  · -- reference-target invariant
    intro pid pod2 hp2 cn c hcc
    have hp2' : alookup (amap s.pods podID g) pid = some pod2 := hp2
    rw [alookup_amap] at hp2'
    by_cases hk : podID = pid
    · subst hk
      rw [if_pos rfl, hp] at hp2'
      simp only [Option.map_some', Option.some.injEq] at hp2'
      subst hp2'
      exact href cn c hcc
    · rw [if_neg hk] at hp2'
      exact hI.ref pid pod2 hp2' cn c hcc

theorem core_agg_amap {s : ClusterState} (key : AggregateStateKey)
    (f : AggregateContainerState → AggregateContainerState) (hC : CoreInv s) :
    CoreInv { s with aggregateStateMap := amap s.aggregateStateMap key f } := by
  constructor
  · exact hC.podsND
  · exact hC.vpasND
  · exact nodupKeys_amap hC.aggND
  · exact hC.podIDF
  · exact hC.vpaIDF
  · exact hC.contND
  · exact hC.podLsk
  · intro k acs hl
    have hl' : alookup (amap s.aggregateStateMap key f) k = some acs := hl
    obtain ⟨a0, ha0⟩ := alookup_amap_some hl'
    exact hC.keyLsk k a0 ha0
  · intro vid vpa hl k hagg
    have h1 := hC.linkDom vid vpa hl k hagg
    show (alookup (amap s.aggregateStateMap key f) k).isSome = true
    rw [alookup_amap_isSome]
    exact h1
  · intro vid vpa hl k acs hlk
    have hlk' : alookup (amap s.aggregateStateMap key f) k = some acs := hlk
    obtain ⟨a0, ha0⟩ := alookup_amap_some hlk'
    exact hC.link vid vpa hl k a0 ha0

theorem inv_with_agg_amap {s : ClusterState} (key : AggregateStateKey)
    (f : AggregateContainerState → AggregateContainerState) (hI : Inv s) :
    Inv { s with aggregateStateMap := amap s.aggregateStateMap key f } :=
  ⟨core_agg_amap key f hI.toCoreInv, hI.count, hI.ref⟩

/-- Routing a sample to a container's aggregation reference preserves the
mutation invariants and leaves the pod registry and interner unchanged. -/
theorem aggregatorAddSampleAt_facts {s : ClusterState} {cid : ContainerID}
    {pod : PodState} (agg : ContainerStateAggregator) (ms : Time)
    (hp : alookup s.pods cid.podID = some pod) (hI : Inv s) :
    Inv (aggregatorAddSampleAt s cid agg ms) ∧
    (aggregatorAddSampleAt s cid agg ms).pods = s.pods ∧
    (aggregatorAddSampleAt s cid agg ms).labelSetMap = s.labelSetMap := by
  cases agg with
  | direct key =>
    exact ⟨inv_with_agg_amap key _ hI, rfl, rfl⟩
  | proxy =>
    unfold aggregatorAddSampleAt
    rcases hfc : findOrCreateAggregateContainerState s ms cid with _ | tk
    · exact ⟨hI, rfl, rfl⟩
    · rcases tk with ⟨t1, key⟩
      obtain ⟨hkey, hpods, hlsm, hemp, hgc, hgi, hksome, hother, hpres, habs⟩ :=
        findOrCreate_spec hp hfc
      have hI1 : Inv t1 := by
        refine ⟨core_findOrCreate hI.toCoreInv hp hfc,
          count_findOrCreate hp hfc hI.count, ?_⟩
        intro pid pod2 hp2 cn c hcc
        rw [hpods] at hp2
        exact hI.ref pid pod2 hp2 cn c hcc
      exact ⟨inv_with_agg_amap key _ hI1, hpods, hlsm⟩

/-- Transforming one container in place without touching its aggregation
reference keeps every reference of the updated pod well-aimed. -/
theorem refTarget_container_amap {s : ClusterState} {podID : PodID} {pod : PodState}
    (cname : String) (h : ContainerState → ContainerState)
    (hagg : ∀ c, (h c).aggregator = c.aggregator)
    (hp : alookup s.pods podID = some pod) (href0 : RefTargetInvariant s) :
    ∀ cn c, alookup ({ pod with Containers := amap pod.Containers cname h } :
        PodState).Containers cn = some c →
      aggregatorTargetKey { pod with Containers := amap pod.Containers cname h } cn
          c.aggregator
        = MakeAggregateStateKey { pod with Containers := amap pod.Containers cname h }
            cn := by
  intro cn c hcc
  have hcc' : alookup (amap pod.Containers cname h) cn = some c := hcc
  rw [alookup_amap] at hcc'
  by_cases hk : cname = cn
  · subst hk
    rw [if_pos rfl] at hcc'
    rcases ho : alookup pod.Containers cname with _ | c0
    · rw [ho] at hcc'
      cases hcc'
    · rw [ho] at hcc'
      simp only [Option.map_some', Option.some.injEq] at hcc'
      subst hcc'
      rw [hagg c0]
      have h2 := href0 podID pod hp cname c0 ho
      calc aggregatorTargetKey { pod with Containers := amap pod.Containers cname h }
            cname c0.aggregator
          = aggregatorTargetKey pod cname c0.aggregator :=
            aggregatorTargetKey_congr cname rfl rfl c0.aggregator
        _ = MakeAggregateStateKey pod cname := h2
        _ = MakeAggregateStateKey
              { pod with Containers := amap pod.Containers cname h } cname :=
            makeKey_congr cname rfl rfl
  · rw [if_neg hk] at hcc'
    have h2 := href0 podID pod hp cn c hcc'
    calc aggregatorTargetKey { pod with Containers := amap pod.Containers cname h }
          cn c.aggregator
        = aggregatorTargetKey pod cn c.aggregator :=
          aggregatorTargetKey_congr cn rfl rfl c.aggregator
      _ = MakeAggregateStateKey pod cn := h2
      _ = MakeAggregateStateKey
            { pod with Containers := amap pod.Containers cname h } cn :=
          makeKey_congr cn rfl rfl

/-- `AddSample` preserves the mutation invariants. -/
theorem inv_AddSample {s : ClusterState} (sample : ContainerUsageSampleWithKey)
    (hI : Inv s) : Inv (AddSample s sample).1 := by
  rcases hp : alookup s.pods sample.Container.podID with _ | pod
  · have hr : (AddSample s sample).1 = s := by
      unfold AddSample
      rw [hp]
    rw [hr]
    exact hI
  rcases hcl : alookup pod.Containers sample.Container.containerName with _ | cs
  · have hr : (AddSample s sample).1 = s := by
      unfold AddSample
      rw [hp]
      dsimp only
      rw [hcl]
    rw [hr]
    exact hI
  by_cases hacc : containerAcceptsSample cs
      { MeasureStart := sample.MeasureStart, Usage := sample.Usage,
        Resource := sample.Resource } = true
  · have hr : (AddSample s sample).1
        = { aggregatorAddSampleAt s sample.Container cs.aggregator
              sample.MeasureStart with
            pods := amap (aggregatorAddSampleAt s sample.Container cs.aggregator
                sample.MeasureStart).pods sample.Container.podID
              (fun p => { p with
                Containers := amap p.Containers sample.Container.containerName
                  (fun c => { c with lastSampleStart := some sample.MeasureStart }) }) }
        := by
      unfold AddSample
      rw [hp]
      dsimp only
      rw [hcl]
      dsimp only
      rw [if_pos hacc]
    rw [hr]
    obtain ⟨hI1, hpods1, hlsm1⟩ :=
      aggregatorAddSampleAt_facts cs.aggregator sample.MeasureStart hp hI
    have hp1 : alookup (aggregatorAddSampleAt s sample.Container cs.aggregator
        sample.MeasureStart).pods sample.Container.podID = some pod := by
      rw [hpods1]
      exact hp
    have href := refTarget_container_amap sample.Container.containerName
      (fun c => { c with lastSampleStart := some sample.MeasureStart })
      (fun c => rfl) hp1 hI1.ref
    exact inv_pods_amap_keyfix
      (fun p => { p with
        Containers := amap p.Containers sample.Container.containerName
          (fun c => { c with lastSampleStart := some sample.MeasureStart }) })
      hp1 rfl rfl (fun hnd => by dsimp only; exact nodupKeys_amap hnd) href hI1
  · have hr : (AddSample s sample).1 = s := by
      unfold AddSample
      rw [hp]
      dsimp only
      rw [hcl]
      dsimp only
      rw [if_neg hacc]
    rw [hr]
    exact hI

/-- `RecordOOM` preserves the mutation invariants. -/
theorem inv_RecordOOM {s : ClusterState} (cid : ContainerID) (ts : Time) (mem : Int)
    (hI : Inv s) : Inv (RecordOOM s cid ts mem).1 := by
  rcases hp : alookup s.pods cid.podID with _ | pod
  · have hr : (RecordOOM s cid ts mem).1 = s := by
      unfold RecordOOM
      rw [hp]
    rw [hr]
    exact hI
  rcases hcl : alookup pod.Containers cid.containerName with _ | cs
  · have hr : (RecordOOM s cid ts mem).1 = s := by
      unfold RecordOOM
      rw [hp]
      dsimp only
      rw [hcl]
    rw [hr]
    exact hI
  by_cases hneg : mem < 0
  · have hr : (RecordOOM s cid ts mem).1 = s := by
      unfold RecordOOM
      rw [hp]
      dsimp only
      rw [hcl]
      dsimp only
      rw [if_pos hneg]
    rw [hr]
    exact hI
  · have hr : (RecordOOM s cid ts mem).1
        = aggregatorAddSampleAt s cid cs.aggregator ts := by
      unfold RecordOOM
      rw [hp]
      dsimp only
      rw [hcl]
      dsimp only
      rw [if_neg hneg]
    rw [hr]
    exact (aggregatorAddSampleAt_facts cs.aggregator ts hp hI).1

/-- `AddOrUpdateContainer` preserves the mutation invariants. -/
theorem inv_AddOrUpdateContainer {s : ClusterState} (now : Time) (cid : ContainerID)
    (req : Resources) (hI : Inv s) : Inv (AddOrUpdateContainer s now cid req).1 := by
  rcases hp : alookup s.pods cid.podID with _ | pod
  · have hr : (AddOrUpdateContainer s now cid req).1 = s := by
      unfold AddOrUpdateContainer
      rw [hp]
    rw [hr]
    exact hI
  rcases hcl : alookup pod.Containers cid.containerName with _ | c0
  · rcases hfc : findOrCreateAggregateContainerState s now cid with _ | tk
    · have hr : (AddOrUpdateContainer s now cid req).1 = s := by
        unfold AddOrUpdateContainer
        rw [hp]
        dsimp only
        rw [hcl]
        dsimp only
        rw [hfc]
      rw [hr]
      exact hI
    rcases tk with ⟨t1, key⟩
    have hr : (AddOrUpdateContainer s now cid req).1
        = { t1 with
            pods := amap t1.pods cid.podID
              (fun p => { p with
                Containers := aset p.Containers cid.containerName
                  (NewContainerState req ContainerStateAggregator.proxy) }) } := by
      unfold AddOrUpdateContainer
      rw [hp]
      dsimp only
      rw [hcl]
      dsimp only
      rw [hfc]
    rw [hr]
    obtain ⟨hkey, hpods, hlsm, hemp, hgc, hgi, hksome, hother, hpres, habs⟩ :=
      findOrCreate_spec hp hfc
    have hI1 : Inv t1 := by
      refine ⟨core_findOrCreate hI.toCoreInv hp hfc,
        count_findOrCreate hp hfc hI.count, ?_⟩
      intro pid pod2 hp2 cn c hcc
      rw [hpods] at hp2
      exact hI.ref pid pod2 hp2 cn c hcc
    have hp1 : alookup t1.pods cid.podID = some pod := by
      rw [hpods]
      exact hp
    have href : ∀ cn c, alookup (({ pod with
          Containers := aset pod.Containers cid.containerName
            (NewContainerState req ContainerStateAggregator.proxy) } :
          PodState)).Containers cn = some c →
        aggregatorTargetKey { pod with
            Containers := aset pod.Containers cid.containerName
              (NewContainerState req ContainerStateAggregator.proxy) } cn c.aggregator
          = MakeAggregateStateKey { pod with
              Containers := aset pod.Containers cid.containerName
                (NewContainerState req ContainerStateAggregator.proxy) } cn := by
      intro cn c hcc
      have hcc' : alookup (aset pod.Containers cid.containerName
          (NewContainerState req ContainerStateAggregator.proxy)) cn = some c := hcc
      rw [alookup_aset] at hcc'
      by_cases hk : cid.containerName = cn
      · rw [if_pos hk] at hcc'
        simp only [Option.some.injEq] at hcc'
        subst hcc'
        rfl
      · rw [if_neg hk] at hcc'
        have h2 := hI1.ref cid.podID pod hp1 cn c hcc'
        calc aggregatorTargetKey { pod with
              Containers := aset pod.Containers cid.containerName
                (NewContainerState req ContainerStateAggregator.proxy) } cn c.aggregator
            = aggregatorTargetKey pod cn c.aggregator :=
              aggregatorTargetKey_congr cn rfl rfl c.aggregator
          _ = MakeAggregateStateKey pod cn := h2
          _ = MakeAggregateStateKey { pod with
                Containers := aset pod.Containers cid.containerName
                  (NewContainerState req ContainerStateAggregator.proxy) } cn :=
              makeKey_congr cn rfl rfl
    exact inv_pods_amap_keyfix
      (fun p => { p with
        Containers := aset p.Containers cid.containerName
          (NewContainerState req ContainerStateAggregator.proxy) })
      hp1 rfl rfl (fun hnd => by dsimp only; exact nodupKeys_aset hnd) href hI1
  · have hr : (AddOrUpdateContainer s now cid req).1
        = { s with
            pods := amap s.pods cid.podID
              (fun p => { p with
                Containers := amap p.Containers cid.containerName
                  (fun c => { c with Request := req }) }) } := by
      unfold AddOrUpdateContainer
      rw [hp]
      dsimp only
      rw [hcl]
    rw [hr]
    have href := refTarget_container_amap cid.containerName
      (fun c => { c with Request := req }) (fun c => rfl) hp hI.ref
    exact inv_pods_amap_keyfix
      (fun p => { p with
        Containers := amap p.Containers cid.containerName
          (fun c => { c with Request := req }) })
      hp rfl rfl (fun hnd => by dsimp only; exact nodupKeys_amap hnd) href hI

theorem nodupKeys_foldl_amap {K V : Type} [DecidableEq K] (f : V → V) (ks : List K)
    {m : List (K × V)} (h : nodupKeys m) :
    nodupKeys (ks.foldl (fun m key => amap m key f) m) := by
  induction ks generalizing m with
  | nil => exact h
  | cons hd tl ih =>
    rw [List.foldl_cons]
    exact ih (nodupKeys_amap h)

/-- `DeleteVpa` preserves the mutation invariants. -/
theorem inv_DeleteVpa {s : ClusterState} (vpaID : VpaID) (hI : Inv s) :
    Inv (DeleteVpa s vpaID).1 := by
  rcases hv : alookup s.vpas vpaID with _ | vpa
  · have hr : (DeleteVpa s vpaID).1 = s := by
      unfold DeleteVpa
      rw [hv]
    rw [hr]
    exact hI
  · have hr : (DeleteVpa s vpaID).1
        = { s with
            aggregateStateMap := vpa.aggregateContainerStates.foldl
              (fun m key => amap m key AggregateContainerState.markNotAutoscaled)
              s.aggregateStateMap,
            vpas := aerase s.vpas vpaID,
            emptyVPAs := fun id => if id = vpaID then none else s.emptyVPAs id } := by
      unfold DeleteVpa
      rw [hv]
    rw [hr]
    have hidem : ∀ a : AggregateContainerState,
        AggregateContainerState.markNotAutoscaled
            (AggregateContainerState.markNotAutoscaled a)
          = AggregateContainerState.markNotAutoscaled a := fun a => rfl
    have hmk : ∀ k, alookup (vpa.aggregateContainerStates.foldl
        (fun m key => amap m key AggregateContainerState.markNotAutoscaled)
        s.aggregateStateMap) k
        = if k ∈ vpa.aggregateContainerStates
          then (alookup s.aggregateStateMap k).map
            AggregateContainerState.markNotAutoscaled
          else alookup s.aggregateStateMap k :=
      fun k => alookup_foldl_amap_idem hidem vpa.aggregateContainerStates
        s.aggregateStateMap k
    have hsomeOf : ∀ k acs, alookup (vpa.aggregateContainerStates.foldl
        (fun m key => amap m key AggregateContainerState.markNotAutoscaled)
        s.aggregateStateMap) k = some acs →
        ∃ a0, alookup s.aggregateStateMap k = some a0 := by
      intro k acs hl
      rw [hmk k] at hl
      by_cases hmem : k ∈ vpa.aggregateContainerStates
      · rw [if_pos hmem] at hl
        rcases ho : alookup s.aggregateStateMap k with _ | a0
        · rw [ho] at hl
          cases hl
        · exact ⟨a0, rfl⟩
      · rw [if_neg hmem] at hl
        exact ⟨acs, hl⟩
    have hiso : ∀ k, (alookup (vpa.aggregateContainerStates.foldl
        (fun m key => amap m key AggregateContainerState.markNotAutoscaled)
        s.aggregateStateMap) k).isSome
        = (alookup s.aggregateStateMap k).isSome := by
      intro k
      rw [hmk k]
      by_cases hmem : k ∈ vpa.aggregateContainerStates
      · rw [if_pos hmem]
        rcases alookup s.aggregateStateMap k with _ | a <;> rfl
      · rw [if_neg hmem]
    refine ⟨⟨hI.toCoreInv.podsND, nodupKeys_aerase hI.toCoreInv.vpasND,
      nodupKeys_foldl_amap _ _ hI.toCoreInv.aggND, hI.toCoreInv.podIDF, ?_,
      hI.toCoreInv.contND, hI.toCoreInv.podLsk, ?_, ?_, ?_⟩, ?_, ?_⟩
    · -- vpaIDF
      intro vid v hl
      have hl' : alookup (aerase s.vpas vpaID) vid = some v := hl
      rw [alookup_aerase] at hl'
      by_cases hk : vpaID = vid
      · rw [if_pos hk] at hl'
        cases hl'
      · rw [if_neg hk] at hl'
        exact hI.toCoreInv.vpaIDF vid v hl'
    · -- keyLsk
      intro k acs hl
      obtain ⟨a0, ha0⟩ := hsomeOf k acs hl
      exact hI.toCoreInv.keyLsk k a0 ha0
    · -- linkDom
      intro vid v hl k hagg
      have hl' : alookup (aerase s.vpas vpaID) vid = some v := hl
      rw [alookup_aerase] at hl'
      by_cases hk : vpaID = vid
      · rw [if_pos hk] at hl'
        cases hl'
      · rw [if_neg hk] at hl'
        have h1 := hI.toCoreInv.linkDom vid v hl' k hagg
        show (alookup (vpa.aggregateContainerStates.foldl
            (fun m key => amap m key AggregateContainerState.markNotAutoscaled)
            s.aggregateStateMap) k).isSome = true
        rw [hiso k]
        exact h1
    · -- link invariant
      intro vid v hl k acs hlk
      have hl' : alookup (aerase s.vpas vpaID) vid = some v := hl
      rw [alookup_aerase] at hl'
      by_cases hk : vpaID = vid
      · rw [if_pos hk] at hl'
        cases hl'
      · rw [if_neg hk] at hl'
        obtain ⟨a0, ha0⟩ := hsomeOf k acs hlk
        exact hI.toCoreInv.link vid v hl' k a0 ha0
    · -- pod-count invariant
      intro vid v hl
      have hl' : alookup (aerase s.vpas vpaID) vid = some v := hl
      rw [alookup_aerase] at hl'
      by_cases hk : vpaID = vid
      · rw [if_pos hk] at hl'
        cases hl'
      · rw [if_neg hk] at hl'
        exact hI.count vid v hl'
    · -- reference-target invariant
      exact hI.ref

theorem getMatchingPods_congr {s : ClusterState} {v w : Vpa} (hID : v.ID = w.ID)
    (hsel : v.PodSelector = w.PodSelector) :
    GetMatchingPods s v = GetMatchingPods s w := by
  unfold GetMatchingPods
  rw [hID, hsel]

theorem alookup_markMatchedUnderVpa (s : ClusterState) (vpa : Vpa)
    (k : AggregateStateKey) :
    alookup (markMatchedUnderVpa s vpa) k
      = (alookup s.aggregateStateMap k).map fun a =>
          if vpaMatchesAggregation s.labelSetMap vpa k = true
          then { a with IsUnderVPA := true } else a := by
  unfold markMatchedUnderVpa
  have hfun : (s.aggregateStateMap.map fun kv =>
      if vpaMatchesAggregation s.labelSetMap vpa kv.1
      then (kv.1, { kv.2 with IsUnderVPA := true }) else kv)
      = s.aggregateStateMap.map fun kv =>
          (kv.1, if vpaMatchesAggregation s.labelSetMap vpa kv.1 = true
            then { kv.2 with IsUnderVPA := true } else kv.2) := by
    apply List.map_congr_left
    intro kv _
    by_cases h : vpaMatchesAggregation s.labelSetMap vpa kv.1 = true
    · rw [if_pos h, if_pos h]
    · rw [if_neg h, if_neg h]
  rw [hfun]
  exact alookup_map_value s.aggregateStateMap
    (fun key a => if vpaMatchesAggregation s.labelSetMap vpa key = true
      then { a with IsUnderVPA := true } else a) k

theorem nodupKeys_markMatchedUnderVpa (s : ClusterState) (vpa : Vpa)
    (h : nodupKeys s.aggregateStateMap) : nodupKeys (markMatchedUnderVpa s vpa) := by
  unfold markMatchedUnderVpa
  have hfun : (s.aggregateStateMap.map fun kv =>
      if vpaMatchesAggregation s.labelSetMap vpa kv.1
      then (kv.1, { kv.2 with IsUnderVPA := true }) else kv)
      = s.aggregateStateMap.map fun kv =>
          (kv.1, if vpaMatchesAggregation s.labelSetMap vpa kv.1 = true
            then { kv.2 with IsUnderVPA := true } else kv.2) := by
    apply List.map_congr_left
    intro kv _
    by_cases h : vpaMatchesAggregation s.labelSetMap vpa kv.1 = true
    · rw [if_pos h, if_pos h]
    · rw [if_neg h, if_neg h]
  rw [hfun]
  exact nodupKeys_map_value s.aggregateStateMap
    (fun key a => if vpaMatchesAggregation s.labelSetMap vpa key = true
      then { a with IsUnderVPA := true } else a) h

/-- Registering a fresh, correctly seeded policy object together with the
index-marking scan preserves the mutation invariants. -/
theorem inv_vpas_cons_marked {t : ClusterState} (vpa0 v' : Vpa) (vpaID : VpaID)
    (habs : alookup t.vpas vpaID = none)
    (hvid : v'.ID = vpaID)
    (hcnt : v'.PodCount = ((GetMatchingPods t v').length : Int))
    (hlink : ∀ k, v'.hasAggregation k = true ↔
      (k ∈ t.aggregateStateMap.map Prod.fst ∧
        vpaMatchesAggregation t.labelSetMap v' k = true))
    (hI : Inv t) :
    Inv { t with
      aggregateStateMap := markMatchedUnderVpa t vpa0,
      vpas := (vpaID, v') :: t.vpas } := by
  have hiso : ∀ k, (alookup (markMatchedUnderVpa t vpa0) k).isSome
      = (alookup t.aggregateStateMap k).isSome := by
    intro k
    rw [alookup_markMatchedUnderVpa]
    rcases alookup t.aggregateStateMap k with _ | a <;> rfl
  have hsomeOf : ∀ k acs, alookup (markMatchedUnderVpa t vpa0) k = some acs →
      ∃ a0, alookup t.aggregateStateMap k = some a0 := by
    intro k acs hl
    rw [alookup_markMatchedUnderVpa] at hl
    rcases ho : alookup t.aggregateStateMap k with _ | a0
    · rw [ho] at hl
      cases hl
    · exact ⟨a0, rfl⟩
  refine ⟨⟨hI.toCoreInv.podsND, nodupKeys_cons habs hI.toCoreInv.vpasND,
    nodupKeys_markMatchedUnderVpa t vpa0 hI.toCoreInv.aggND, hI.toCoreInv.podIDF, ?_,
    hI.toCoreInv.contND, hI.toCoreInv.podLsk, ?_, ?_, ?_⟩, ?_, ?_⟩
  · -- vpaIDF
    intro vid v hl
    have hl' : alookup ((vpaID, v') :: t.vpas) vid = some v := hl
    rw [alookup_cons] at hl'
    by_cases hk : vpaID = vid
    · rw [if_pos hk] at hl'
      simp only [Option.some.injEq] at hl'
      subst hl'
      rw [hvid]
      exact hk
    · rw [if_neg hk] at hl'
      exact hI.toCoreInv.vpaIDF vid v hl'
  · -- keyLsk
    intro k acs hl
    obtain ⟨a0, ha0⟩ := hsomeOf k acs hl
    exact hI.toCoreInv.keyLsk k a0 ha0
  · -- linkDom
    intro vid v hl k hagg
    show (alookup (markMatchedUnderVpa t vpa0) k).isSome = true
    rw [hiso k]
    have hl' : alookup ((vpaID, v') :: t.vpas) vid = some v := hl
    rw [alookup_cons] at hl'
    by_cases hk : vpaID = vid
    · rw [if_pos hk] at hl'
      simp only [Option.some.injEq] at hl'
      subst hl'
      exact alookup_isSome.mpr ((hlink k).mp hagg).1
    · rw [if_neg hk] at hl'
      exact hI.toCoreInv.linkDom vid v hl' k hagg
  · -- link invariant
    intro vid v hl k acs hlk
    obtain ⟨a0, ha0⟩ := hsomeOf k acs hlk
    have hl' : alookup ((vpaID, v') :: t.vpas) vid = some v := hl
    rw [alookup_cons] at hl'
    by_cases hk : vpaID = vid
    · rw [if_pos hk] at hl'
      simp only [Option.some.injEq] at hl'
      subst hl'
      constructor
      · intro h
        exact ((hlink k).mp h).2
      · intro h
        refine (hlink k).mpr ⟨?_, h⟩
        exact alookup_isSome.mp (by rw [ha0]; rfl)
    · rw [if_neg hk] at hl'
      exact hI.toCoreInv.link vid v hl' k a0 ha0
  · -- pod-count invariant
    intro vid v hl
    have hl' : alookup ((vpaID, v') :: t.vpas) vid = some v := hl
    rw [alookup_cons] at hl'
    by_cases hk : vpaID = vid
    · rw [if_pos hk] at hl'
      simp only [Option.some.injEq] at hl'
      subst hl'
      exact hcnt
    · rw [if_neg hk] at hl'
      exact hI.count vid v hl'
  · -- reference-target invariant
    exact hI.ref

/-- The policy-creation tail of `AddOrUpdateVpa` (seeding scan, pod count
from a full pod scan, field refresh, index marking) preserves the mutation
invariants, given the id is free. -/
theorem inv_vpaCreate {t : ClusterState} (apiObject : VerticalPodAutoscaler)
    (selector : Selector)
    (habs : alookup t.vpas ({ Namespace := apiObject.Namespace, VpaName := apiObject.Name } : VpaID) = none)
    (hI : Inv t) :
    Inv { t with
      aggregateStateMap := markMatchedUnderVpa t
        (NewVpa { Namespace := apiObject.Namespace, VpaName := apiObject.Name }
          selector apiObject.CreationTimestamp),
      vpas := (({ Namespace := apiObject.Namespace, VpaName := apiObject.Name } : VpaID),
        refreshVpaFields
          { seedVpaFromIndex t (NewVpa { Namespace := apiObject.Namespace, VpaName := apiObject.Name } selector apiObject.CreationTimestamp) with
            PodCount := ((GetMatchingPods t (seedVpaFromIndex t
              (NewVpa { Namespace := apiObject.Namespace, VpaName := apiObject.Name } selector
                apiObject.CreationTimestamp))).length : Int) }
          apiObject) :: t.vpas } := by
  set vid : VpaID := { Namespace := apiObject.Namespace, VpaName := apiObject.Name }
    with hvidDef
  set vpa0 : Vpa := NewVpa vid selector apiObject.CreationTimestamp with hvpa0Def
  set seed : Vpa := seedVpaFromIndex t vpa0 with hseedDef
  set v2 : Vpa := { seed with PodCount := ((GetMatchingPods t seed).length : Int) }
    with hv2Def
  set vfin : Vpa := refreshVpaFields v2 apiObject with hvfinDef
  have hIDe : vfin.ID = vpa0.ID := by
    rw [hvfinDef, refreshVpaFields_ID, hv2Def]
    show seed.ID = vpa0.ID
    rw [hseedDef]
    unfold seedVpaFromIndex
    rw [foldl_useAggregationIfMatching_ID]
  have hsele : vfin.PodSelector = vpa0.PodSelector := by
    rw [hvfinDef, refreshVpaFields_PodSelector, hv2Def]
    show seed.PodSelector = vpa0.PodSelector
    rw [hseedDef]
    unfold seedVpaFromIndex
    rw [foldl_useAggregationIfMatching_PodSelector]
  refine inv_vpas_cons_marked vpa0 vfin vid habs ?_ ?_ ?_ hI
  · -- the new policy carries the requested id
    rw [hIDe, hvpa0Def]
    rfl
  · -- the new policy's pod count comes from the full pod scan
    have hIDs : vfin.ID = seed.ID := by
      rw [hvfinDef, refreshVpaFields_ID, hv2Def]
    have hsels : vfin.PodSelector = seed.PodSelector := by
      rw [hvfinDef, refreshVpaFields_PodSelector, hv2Def]
    rw [show GetMatchingPods t vfin = GetMatchingPods t seed from
      getMatchingPods_congr hIDs hsels]
    rw [hvfinDef, refreshVpaFields_PodCount, hv2Def]
  · -- the new policy links exactly the matching present keys
    intro k
    have hmeq : vpaMatchesAggregation t.labelSetMap vfin k
        = vpaMatchesAggregation t.labelSetMap vpa0 k :=
      vpaMatchesAggregation_congr k (by rw [hIDe]) hsele rfl
    have hh : vfin.hasAggregation k = seed.hasAggregation k := by
      rw [hvfinDef, hasAggregation_refreshVpaFields, hv2Def]
      rfl
    have h0 : vpa0.hasAggregation k = false := by
      rw [hvpa0Def]
      rfl
    rw [hh, hmeq, hseedDef]
    unfold seedVpaFromIndex
    rw [hasAggregation_foldl_useAggregationIfMatching]
    constructor
    · rintro (hfalse | hok)
      · rw [h0] at hfalse
        cases hfalse
      · exact hok
    · intro hok
      exact Or.inr hok

/-- `AddOrUpdateVpa` preserves the mutation invariants. -/
theorem inv_AddOrUpdateVpa {s : ClusterState} (apiObject : VerticalPodAutoscaler)
    (selector : Selector) (hI : Inv s) :
    Inv (AddOrUpdateVpa s apiObject selector).1 := by
  rcases hv : alookup s.vpas ({ Namespace := apiObject.Namespace, VpaName := apiObject.Name } : VpaID) with _ | vpa
  case none =>
    have hr : (AddOrUpdateVpa s apiObject selector).1
        = { s with
            aggregateStateMap := markMatchedUnderVpa s
              (NewVpa { Namespace := apiObject.Namespace, VpaName := apiObject.Name } selector apiObject.CreationTimestamp),
            vpas := (({ Namespace := apiObject.Namespace, VpaName := apiObject.Name } : VpaID),
              refreshVpaFields
                { seedVpaFromIndex s (NewVpa { Namespace := apiObject.Namespace, VpaName := apiObject.Name } selector
                    apiObject.CreationTimestamp) with
                  PodCount := ((GetMatchingPods s (seedVpaFromIndex s
                    (NewVpa { Namespace := apiObject.Namespace, VpaName := apiObject.Name } selector
                      apiObject.CreationTimestamp))).length : Int) }
                apiObject) :: s.vpas } := by
      unfold AddOrUpdateVpa
      dsimp only
      rw [hv]
    rw [hr]
    exact inv_vpaCreate apiObject selector hv hI
  case some =>
    by_cases hsel : vpa.PodSelector = selector
    · have hr : (AddOrUpdateVpa s apiObject selector).1
          = { s with
              vpas := amap s.vpas { Namespace := apiObject.Namespace, VpaName := apiObject.Name }
                (fun v => refreshVpaFields v apiObject) } := by
        unfold AddOrUpdateVpa
        dsimp only
        rw [hv]
        dsimp only
        rw [if_pos hsel]
      rw [hr]
      refine ⟨⟨hI.toCoreInv.podsND,
        (by dsimp only; exact nodupKeys_amap hI.toCoreInv.vpasND),
        hI.toCoreInv.aggND, hI.toCoreInv.podIDF, ?_, hI.toCoreInv.contND,
        hI.toCoreInv.podLsk, hI.toCoreInv.keyLsk, ?_, ?_⟩, ?_, ?_⟩
      · -- vpaIDF
        intro vid v hl
        have hl' : alookup (amap s.vpas { Namespace := apiObject.Namespace, VpaName := apiObject.Name } (fun v => refreshVpaFields v apiObject)) vid
            = some v := hl
        rw [alookup_amap] at hl'
        by_cases hk : ({ Namespace := apiObject.Namespace, VpaName := apiObject.Name } : VpaID) = vid
        · rw [if_pos hk, ← hk, hv] at hl'
          simp only [Option.map_some', Option.some.injEq] at hl'
          subst hl'
          rw [refreshVpaFields_ID, ← hk]
          exact hI.toCoreInv.vpaIDF _ vpa hv
        · rw [if_neg hk] at hl'
          exact hI.toCoreInv.vpaIDF vid v hl'
      · -- linkDom
        intro vid v hl k hagg
        have hl' : alookup (amap s.vpas { Namespace := apiObject.Namespace, VpaName := apiObject.Name } (fun v => refreshVpaFields v apiObject)) vid
            = some v := hl
        rw [alookup_amap] at hl'
        by_cases hk : ({ Namespace := apiObject.Namespace, VpaName := apiObject.Name } : VpaID) = vid
        · rw [if_pos hk, ← hk, hv] at hl'
          simp only [Option.map_some', Option.some.injEq] at hl'
          subst hl'
          rw [hasAggregation_refreshVpaFields] at hagg
          exact hI.toCoreInv.linkDom _ vpa hv k hagg
        · rw [if_neg hk] at hl'
          exact hI.toCoreInv.linkDom vid v hl' k hagg
      · -- link invariant
        intro vid v hl k acs hlk
        have hl' : alookup (amap s.vpas { Namespace := apiObject.Namespace, VpaName := apiObject.Name } (fun v => refreshVpaFields v apiObject)) vid
            = some v := hl
        rw [alookup_amap] at hl'
        by_cases hk : ({ Namespace := apiObject.Namespace, VpaName := apiObject.Name } : VpaID) = vid
        · rw [if_pos hk, ← hk, hv] at hl'
          simp only [Option.map_some', Option.some.injEq] at hl'
          subst hl'
          rw [hasAggregation_refreshVpaFields]
          rw [show vpaMatchesAggregation s.labelSetMap
              (refreshVpaFields vpa apiObject) k
              = vpaMatchesAggregation s.labelSetMap vpa k from
            vpaMatchesAggregation_congr k (by rw [refreshVpaFields_ID])
              (refreshVpaFields_PodSelector vpa apiObject) rfl]
          exact hI.toCoreInv.link _ vpa hv k acs hlk
        · rw [if_neg hk] at hl'
          exact hI.toCoreInv.link vid v hl' k acs hlk
      · -- pod-count invariant
        intro vid v hl
        have hl' : alookup (amap s.vpas { Namespace := apiObject.Namespace, VpaName := apiObject.Name } (fun v => refreshVpaFields v apiObject)) vid
            = some v := hl
        rw [alookup_amap] at hl'
        by_cases hk : ({ Namespace := apiObject.Namespace, VpaName := apiObject.Name } : VpaID) = vid
        · rw [if_pos hk, ← hk, hv] at hl'
          simp only [Option.map_some', Option.some.injEq] at hl'
          subst hl'
          rw [refreshVpaFields_PodCount]
          rw [show GetMatchingPods { s with
              vpas := amap s.vpas { Namespace := apiObject.Namespace, VpaName := apiObject.Name }
                (fun v => refreshVpaFields v apiObject) }
              (refreshVpaFields vpa apiObject)
              = GetMatchingPods s vpa from
            getMatchingPods_congr (refreshVpaFields_ID vpa apiObject)
              (refreshVpaFields_PodSelector vpa apiObject)]
          exact hI.count _ vpa hv
        · rw [if_neg hk] at hl'
          rw [hI.count vid v hl']
          rfl
      · -- reference-target invariant
        exact hI.ref
    · have hd : DeleteVpa s ({ Namespace := apiObject.Namespace, VpaName := apiObject.Name } : VpaID)
          = ({ s with
              aggregateStateMap := vpa.aggregateContainerStates.foldl
                (fun m key => amap m key AggregateContainerState.markNotAutoscaled)
                s.aggregateStateMap,
              vpas := aerase s.vpas { Namespace := apiObject.Namespace, VpaName := apiObject.Name },
              emptyVPAs := fun id => if id = { Namespace := apiObject.Namespace, VpaName := apiObject.Name } then none else s.emptyVPAs id },
            none) := by
        unfold DeleteVpa
        rw [hv]
      have hI1 : Inv ({ s with
          aggregateStateMap := vpa.aggregateContainerStates.foldl
            (fun m key => amap m key AggregateContainerState.markNotAutoscaled)
            s.aggregateStateMap,
          vpas := aerase s.vpas { Namespace := apiObject.Namespace, VpaName := apiObject.Name },
          emptyVPAs := fun id => if id = { Namespace := apiObject.Namespace, VpaName := apiObject.Name } then none else s.emptyVPAs id } :
          ClusterState) := by
        have h1 := inv_DeleteVpa ({ Namespace := apiObject.Namespace, VpaName := apiObject.Name } : VpaID) hI
        rw [hd] at h1
        exact h1
      have habs1 : alookup ({ s with
          aggregateStateMap := vpa.aggregateContainerStates.foldl
            (fun m key => amap m key AggregateContainerState.markNotAutoscaled)
            s.aggregateStateMap,
          vpas := aerase s.vpas { Namespace := apiObject.Namespace, VpaName := apiObject.Name },
          emptyVPAs := fun id => if id = { Namespace := apiObject.Namespace, VpaName := apiObject.Name } then none else s.emptyVPAs id } :
          ClusterState).vpas ({ Namespace := apiObject.Namespace, VpaName := apiObject.Name } : VpaID) = none := by
        dsimp only
        rw [alookup_aerase, if_pos rfl]
      have hr : (AddOrUpdateVpa s apiObject selector).1
          = { ({ s with
              aggregateStateMap := vpa.aggregateContainerStates.foldl
                (fun m key => amap m key AggregateContainerState.markNotAutoscaled)
                s.aggregateStateMap,
              vpas := aerase s.vpas { Namespace := apiObject.Namespace, VpaName := apiObject.Name },
              emptyVPAs := fun id => if id = { Namespace := apiObject.Namespace, VpaName := apiObject.Name } then none else s.emptyVPAs id } :
              ClusterState) with
              aggregateStateMap := markMatchedUnderVpa ({ s with
                aggregateStateMap := vpa.aggregateContainerStates.foldl
                  (fun m key => amap m key AggregateContainerState.markNotAutoscaled)
                  s.aggregateStateMap,
                vpas := aerase s.vpas { Namespace := apiObject.Namespace, VpaName := apiObject.Name },
                emptyVPAs := fun id => if id = { Namespace := apiObject.Namespace, VpaName := apiObject.Name } then none else s.emptyVPAs id } :
                ClusterState)
                (NewVpa { Namespace := apiObject.Namespace, VpaName := apiObject.Name } selector apiObject.CreationTimestamp),
              vpas := (({ Namespace := apiObject.Namespace, VpaName := apiObject.Name } : VpaID),
                refreshVpaFields
                  { seedVpaFromIndex ({ s with
                      aggregateStateMap := vpa.aggregateContainerStates.foldl
                        (fun m key => amap m key
                          AggregateContainerState.markNotAutoscaled)
                        s.aggregateStateMap,
                      vpas := aerase s.vpas { Namespace := apiObject.Namespace, VpaName := apiObject.Name },
                      emptyVPAs := fun id => if id = { Namespace := apiObject.Namespace, VpaName := apiObject.Name } then none
                        else s.emptyVPAs id } : ClusterState)
                      (NewVpa { Namespace := apiObject.Namespace, VpaName := apiObject.Name } selector
                        apiObject.CreationTimestamp) with
                    PodCount := ((GetMatchingPods ({ s with
                      aggregateStateMap := vpa.aggregateContainerStates.foldl
                        (fun m key => amap m key
                          AggregateContainerState.markNotAutoscaled)
                        s.aggregateStateMap,
                      vpas := aerase s.vpas { Namespace := apiObject.Namespace, VpaName := apiObject.Name },
                      emptyVPAs := fun id => if id = { Namespace := apiObject.Namespace, VpaName := apiObject.Name } then none
                        else s.emptyVPAs id } : ClusterState)
                      (seedVpaFromIndex ({ s with
                        aggregateStateMap := vpa.aggregateContainerStates.foldl
                          (fun m key => amap m key
                            AggregateContainerState.markNotAutoscaled)
                          s.aggregateStateMap,
                        vpas := aerase s.vpas { Namespace := apiObject.Namespace, VpaName := apiObject.Name },
                        emptyVPAs := fun id => if id = { Namespace := apiObject.Namespace, VpaName := apiObject.Name } then none
                          else s.emptyVPAs id } : ClusterState)
                        (NewVpa { Namespace := apiObject.Namespace, VpaName := apiObject.Name } selector
                          apiObject.CreationTimestamp))).length : Int) }
                  apiObject) :: ({ s with
                  aggregateStateMap := vpa.aggregateContainerStates.foldl
                    (fun m key => amap m key
                      AggregateContainerState.markNotAutoscaled)
                    s.aggregateStateMap,
                  vpas := aerase s.vpas { Namespace := apiObject.Namespace, VpaName := apiObject.Name },
                  emptyVPAs := fun id => if id = { Namespace := apiObject.Namespace, VpaName := apiObject.Name } then none
                    else s.emptyVPAs id } : ClusterState).vpas } := by
        unfold AddOrUpdateVpa
        dsimp only
        rw [hv]
        dsimp only
        rw [if_neg hsel, hd]
      rw [hr]
      exact inv_vpaCreate apiObject selector habs1 hI1

theorem getMatchingPods_congr2 {s t : ClusterState} {v w : Vpa}
    (hpods : t.pods = s.pods) (hlsm : t.labelSetMap = s.labelSetMap)
    (hID : v.ID = w.ID) (hsel : v.PodSelector = w.PodSelector) :
    GetMatchingPods t v = GetMatchingPods s w := by
  unfold GetMatchingPods
  rw [hpods, hlsm, hID, hsel]

theorem gcDeleteKeys_vpasND (ks : List AggregateStateKey) {s : ClusterState}
    (h : nodupKeys s.vpas) : nodupKeys (gcDeleteKeys ks s).vpas := by
  unfold gcDeleteKeys
  induction ks generalizing s with
  | nil => exact h
  | cons hd tl ih =>
    rw [List.foldl_cons]
    exact ih (nodupKeys_map_value s.vpas (fun k v => v.deleteAggregation hd) h)

theorem gcDeleteKeys_aggND (ks : List AggregateStateKey) {s : ClusterState}
    (h : nodupKeys s.aggregateStateMap) :
    nodupKeys (gcDeleteKeys ks s).aggregateStateMap := by
  unfold gcDeleteKeys
  induction ks generalizing s with
  | nil => exact h
  | cons hd tl ih =>
    rw [List.foldl_cons]
    exact ih (nodupKeys_aerase h)

/-- The deletion loop of a GC sweep preserves the mutation invariants. -/
theorem inv_gcDeleteKeys (ks : List AggregateStateKey) {s : ClusterState}
    (hI : Inv s) : Inv (gcDeleteKeys ks s) := by
  refine ⟨⟨?_, gcDeleteKeys_vpasND ks hI.toCoreInv.vpasND,
    gcDeleteKeys_aggND ks hI.toCoreInv.aggND, ?_, ?_, ?_, ?_, ?_, ?_, ?_⟩, ?_, ?_⟩
  · rw [gcDeleteKeys_pods]
    exact hI.toCoreInv.podsND
  · intro pid p hl
    rw [gcDeleteKeys_pods] at hl
    exact hI.toCoreInv.podIDF pid p hl
  · intro vid v hl
    rw [gcDeleteKeys_vpas] at hl
    rcases hvs : alookup s.vpas vid with _ | w
    · rw [hvs] at hl
      cases hl
    · rw [hvs] at hl
      simp only [Option.map_some', Option.some.injEq] at hl
      subst hl
      rw [foldl_deleteAggregation_ID]
      exact hI.toCoreInv.vpaIDF vid w hvs
  · intro pid p hl
    rw [gcDeleteKeys_pods] at hl
    exact hI.toCoreInv.contND pid p hl
  · intro pid p hl
    rw [gcDeleteKeys_pods] at hl
    rw [gcDeleteKeys_labelSetMap]
    exact hI.toCoreInv.podLsk pid p hl
  · intro k acs hl
    rw [gcDeleteKeys_agg] at hl
    rw [gcDeleteKeys_labelSetMap]
    by_cases hk : k ∈ ks
    · rw [if_pos hk] at hl
      cases hl
    · rw [if_neg hk] at hl
      exact hI.toCoreInv.keyLsk k acs hl
  · intro vid v hl k hagg
    rw [gcDeleteKeys_vpas] at hl
    rcases hvs : alookup s.vpas vid with _ | w
    · rw [hvs] at hl
      cases hl
    · rw [hvs] at hl
      simp only [Option.map_some', Option.some.injEq] at hl
      subst hl
      obtain ⟨hw, hkn⟩ := (hasAggregation_foldl_deleteAggregation ks w k).mp hagg
      rw [gcDeleteKeys_agg, if_neg hkn]
      exact hI.toCoreInv.linkDom vid w hvs k hw
  · intro vid v hl k acs hlk
    rw [gcDeleteKeys_vpas] at hl
    rw [gcDeleteKeys_agg] at hlk
    by_cases hk : k ∈ ks
    · rw [if_pos hk] at hlk
      cases hlk
    rw [if_neg hk] at hlk
    rcases hvs : alookup s.vpas vid with _ | w
    · rw [hvs] at hl
      cases hl
    · rw [hvs] at hl
      simp only [Option.map_some', Option.some.injEq] at hl
      subst hl
      have hmeq : vpaMatchesAggregation (gcDeleteKeys ks s).labelSetMap
          (ks.foldl Vpa.deleteAggregation w) k
          = vpaMatchesAggregation s.labelSetMap w k :=
        vpaMatchesAggregation_congr k (by rw [foldl_deleteAggregation_ID])
          (foldl_deleteAggregation_PodSelector ks w)
          (by rw [gcDeleteKeys_labelSetMap])
      rw [hmeq]
      constructor
      · intro h
        exact (hI.toCoreInv.link vid w hvs k acs hlk).mp
          ((hasAggregation_foldl_deleteAggregation ks w k).mp h).1
      · intro h
        exact (hasAggregation_foldl_deleteAggregation ks w k).mpr
          ⟨(hI.toCoreInv.link vid w hvs k acs hlk).mpr h, hk⟩
  · intro vid v hl
    rw [gcDeleteKeys_vpas] at hl
    rcases hvs : alookup s.vpas vid with _ | w
    · rw [hvs] at hl
      cases hl
    · rw [hvs] at hl
      simp only [Option.map_some', Option.some.injEq] at hl
      subst hl
      rw [show GetMatchingPods (gcDeleteKeys ks s) (ks.foldl Vpa.deleteAggregation w)
          = GetMatchingPods s w from
        getMatchingPods_congr2 (gcDeleteKeys_pods ks s)
          (gcDeleteKeys_labelSetMap ks s) (by rw [foldl_deleteAggregation_ID])
          (foldl_deleteAggregation_PodSelector ks w)]
      rw [foldl_deleteAggregation_PodCount]
      exact hI.count vid w hvs
  · intro pid p hl
    rw [gcDeleteKeys_pods] at hl
    exact hI.ref pid p hl

/-- A GC sweep preserves the mutation invariants. -/
theorem inv_gcSweep {s : ClusterState} (now : Time) (cf : ControllerFetcher)
    (hI : Inv s) : Inv (garbageCollectAggregateCollectionStates s now cf) := by
  unfold garbageCollectAggregateCollectionStates
  exact inv_gcDeleteKeys (gcKeysToDelete s now cf) hI

/-- The rate-limited GC entry point preserves the mutation invariants. -/
theorem inv_RateLimitedGC {s : ClusterState} (now : Time) (cf : ControllerFetcher)
    (hI : Inv s) :
    Inv (RateLimitedGarbageCollectAggregateCollectionStates s now cf) := by
  unfold RateLimitedGarbageCollectAggregateCollectionStates
  by_cases h : now - s.lastAggregateContainerStateGC < s.gcInterval
  · rw [if_pos h]
    exact hI
  · rw [if_neg h]
    exact @inv_of_fields (garbageCollectAggregateCollectionStates s now cf) _
      rfl rfl rfl rfl (inv_gcSweep now cf hI)

theorem recordRecommendation_fields (s : ClusterState) (vpa : Vpa) (now : Time) :
    (RecordRecommendation s vpa now).1.pods = s.pods ∧
    (RecordRecommendation s vpa now).1.vpas = s.vpas ∧
    (RecordRecommendation s vpa now).1.aggregateStateMap = s.aggregateStateMap ∧
    (RecordRecommendation s vpa now).1.labelSetMap = s.labelSetMap := by
  unfold RecordRecommendation
  dsimp only
  split
  · exact ⟨rfl, rfl, rfl, rfl⟩
  · split
    · exact ⟨rfl, rfl, rfl, rfl⟩
    · split
      · exact ⟨rfl, rfl, rfl, rfl⟩
      · exact ⟨rfl, rfl, rfl, rfl⟩

/-- `RecordRecommendation` preserves the mutation invariants. -/
theorem inv_RecordRecommendation {s : ClusterState} (vpa : Vpa) (now : Time)
    (hI : Inv s) : Inv (RecordRecommendation s vpa now).1 := by
  obtain ⟨h1, h2, h3, h4⟩ := recordRecommendation_fields s vpa now
  exact inv_of_fields h1 h2 h3 h4 hI

/-- A fresh cluster state satisfies the mutation invariants. -/
theorem inv_NewClusterState (gcInterval : Duration) :
    Inv (NewClusterState gcInterval) := by
  refine ⟨⟨List.nodup_nil, List.nodup_nil, List.nodup_nil,
    ?_, ?_, ?_, ?_, ?_, ?_, ?_⟩, ?_, ?_⟩ <;> intro a b h <;> cases h

/-- Every single mutation preserves the invariants. -/
theorem inv_applyOp {s : ClusterState} (op : ClusterOp) (hI : Inv s) :
    Inv (applyOp s op) := by
  cases op with
  | addOrUpdatePod now id ls ph => exact inv_AddOrUpdatePod now id ls ph hI
  | deletePod id => exact inv_DeletePod id hI
  | addOrUpdateContainer now cid req => exact inv_AddOrUpdateContainer now cid req hI
  | addSample sample => exact inv_AddSample sample hI
  | recordOOM cid t m => exact inv_RecordOOM cid t m hI
  | addOrUpdateVpa obj sel => exact inv_AddOrUpdateVpa obj sel hI
  | deleteVpa id => exact inv_DeleteVpa id hI
  | gcSweep now cf => exact inv_gcSweep now cf hI
  | rateLimitedGC now cf => exact inv_RateLimitedGC now cf hI
  | recordRecommendation vpa now => exact inv_RecordRecommendation vpa now hI

/-- The invariants hold after any finite mutation sequence from a fresh
cluster state. -/
theorem inv_runOps (gcInterval : Duration) (ops : List ClusterOp) :
    Inv (runOps gcInterval ops) := by
  unfold runOps
  have h : ∀ (l : List ClusterOp) (t : ClusterState), Inv t → Inv (l.foldl applyOp t) := by
    intro l
    induction l with
    | nil =>
      intro t h
      exact h
    | cons hd tl ih =>
      intro t h
      rw [List.foldl_cons]
      exact ih _ (inv_applyOp hd h)
  exact h ops _ (inv_NewClusterState gcInterval)

theorem alookup_foldl_amap_idem_isSome {K V : Type} [DecidableEq K] {f : V → V}
    (hf : ∀ a, f (f a) = f a) (ks : List K) (m : List (K × V)) (k : K) :
    (alookup (ks.foldl (fun m key => amap m key f) m) k).isSome
      = (alookup m k).isSome := by
  rw [alookup_foldl_amap_idem hf]
  by_cases hmem : k ∈ ks
  · rw [if_pos hmem]
    rcases alookup m k with _ | a <;> rfl
  · rw [if_neg hmem]

theorem alookup_markMatchedUnderVpa_isSome (s : ClusterState) (vpa : Vpa)
    (k : AggregateStateKey) :
    (alookup (markMatchedUnderVpa s vpa) k).isSome
      = (alookup s.aggregateStateMap k).isSome := by
  rw [alookup_markMatchedUnderVpa]
  rcases alookup s.aggregateStateMap k with _ | a <;> rfl

theorem refPresent_mono {s t : ClusterState}
    (hpods : ∀ pid pod, alookup t.pods pid = some pod → alookup s.pods pid = some pod)
    (hmono : ∀ k, (alookup s.aggregateStateMap k).isSome = true →
      (alookup t.aggregateStateMap k).isSome = true)
    (hR : RefPresentInvariant s) : RefPresentInvariant t := by
  intro pid pod hp cn c hcc
  exact hmono _ (hR pid pod (hpods pid pod hp) cn c hcc)

theorem refPresent_pods_amap_keyfix {s : ClusterState} {podID : PodID} {pod : PodState}
    (g : PodState → PodState) (hp : alookup s.pods podID = some pod)
    (hID : (g pod).ID = pod.ID) (hlsk : (g pod).labelSetKey = pod.labelSetKey)
    (hkeys : ∀ cn, (alookup (g pod).Containers cn).isSome = true →
      (alookup pod.Containers cn).isSome = true)
    (hR : RefPresentInvariant s) :
    RefPresentInvariant { s with pods := amap s.pods podID g } := by
  intro pid pod2 hp2 cn c hcc
  have hp2' : alookup (amap s.pods podID g) pid = some pod2 := hp2
  rw [alookup_amap] at hp2'
  by_cases hk : podID = pid
  · subst hk
    rw [if_pos rfl, hp] at hp2'
    simp only [Option.map_some', Option.some.injEq] at hp2'
    subst hp2'
    have hs := hkeys cn (by rw [hcc]; rfl)
    rcases ho : alookup pod.Containers cn with _ | c0
    · rw [ho] at hs
      cases hs
    · have h1 := hR podID pod hp cn c0 ho
      show (alookup s.aggregateStateMap (MakeAggregateStateKey (g pod) cn)).isSome = true
      rw [makeKey_congr cn hID hlsk]
      exact h1
  · rw [if_neg hk] at hp2'
    exact hR pid pod2 hp2' cn c hcc

theorem aggregatorAddSampleAt_pods_mono {s : ClusterState} {cid : ContainerID}
    {pod : PodState} (agg : ContainerStateAggregator) (ms : Time)
    (hp : alookup s.pods cid.podID = some pod) :
    (aggregatorAddSampleAt s cid agg ms).pods = s.pods ∧
    (∀ k, (alookup s.aggregateStateMap k).isSome = true →
      (alookup (aggregatorAddSampleAt s cid agg ms).aggregateStateMap k).isSome
        = true) := by
  cases agg with
  | direct key =>
    refine ⟨rfl, ?_⟩
    intro k hk
    show (alookup (amap s.aggregateStateMap key
      (fun a => a.addSampleAt ms)) k).isSome = true
    rw [alookup_amap_isSome]
    exact hk
  | proxy =>
    unfold aggregatorAddSampleAt
    rcases hfc : findOrCreateAggregateContainerState s ms cid with _ | tk
    · exact ⟨rfl, fun k hk => hk⟩
    · rcases tk with ⟨t1, key⟩
      obtain ⟨hkey, hpods, hlsm, hemp, hgc, hgi, hksome, hother, hpres, habs⟩ :=
        findOrCreate_spec hp hfc
      refine ⟨hpods, ?_⟩
      intro k hk
      show (alookup (amap t1.aggregateStateMap key
        (fun a => a.addSampleAt ms)) k).isSome = true
      rw [alookup_amap_isSome]
      by_cases hke : k = key
      · rw [hke]
        exact hksome
      · rw [hother k hke]
        exact hk

theorem refPresent_AddSample {s : ClusterState} (sample : ContainerUsageSampleWithKey)
    (hR : RefPresentInvariant s) : RefPresentInvariant (AddSample s sample).1 := by
  rcases hp : alookup s.pods sample.Container.podID with _ | pod
  · have hr : (AddSample s sample).1 = s := by
      unfold AddSample
      rw [hp]
    rw [hr]
    exact hR
  rcases hcl : alookup pod.Containers sample.Container.containerName with _ | cs
  · have hr : (AddSample s sample).1 = s := by
      unfold AddSample
      rw [hp]
      dsimp only
      rw [hcl]
    rw [hr]
    exact hR
  by_cases hacc : containerAcceptsSample cs
      { MeasureStart := sample.MeasureStart, Usage := sample.Usage,
        Resource := sample.Resource } = true
  · have hr : (AddSample s sample).1
        = { aggregatorAddSampleAt s sample.Container cs.aggregator
              sample.MeasureStart with
            pods := amap (aggregatorAddSampleAt s sample.Container cs.aggregator
                sample.MeasureStart).pods sample.Container.podID
              (fun p => { p with
                Containers := amap p.Containers sample.Container.containerName
                  (fun c => { c with lastSampleStart := some sample.MeasureStart }) }) }
        := by
      unfold AddSample
      rw [hp]
      dsimp only
      rw [hcl]
      dsimp only
      rw [if_pos hacc]
    rw [hr]
    obtain ⟨hpods1, hmono1⟩ :=
      aggregatorAddSampleAt_pods_mono cs.aggregator sample.MeasureStart hp
    have hR1 : RefPresentInvariant (aggregatorAddSampleAt s sample.Container
        cs.aggregator sample.MeasureStart) :=
      refPresent_mono (fun pid p h => by rw [hpods1] at h; exact h) hmono1 hR
    have hp1 : alookup (aggregatorAddSampleAt s sample.Container cs.aggregator
        sample.MeasureStart).pods sample.Container.podID = some pod := by
      rw [hpods1]
      exact hp
    exact refPresent_pods_amap_keyfix
      (fun p => { p with
        Containers := amap p.Containers sample.Container.containerName
          (fun c => { c with lastSampleStart := some sample.MeasureStart }) })
      hp1 rfl rfl
      (fun cn h => by
        dsimp only at h
        rw [alookup_amap_isSome] at h
        exact h)
      hR1
  · have hr : (AddSample s sample).1 = s := by
      unfold AddSample
      rw [hp]
      dsimp only
      rw [hcl]
      dsimp only
      rw [if_neg hacc]
    rw [hr]
    exact hR

theorem refPresent_RecordOOM {s : ClusterState} (cid : ContainerID) (ts : Time)
    (mem : Int) (hR : RefPresentInvariant s) :
    RefPresentInvariant (RecordOOM s cid ts mem).1 := by
  rcases hp : alookup s.pods cid.podID with _ | pod
  · have hr : (RecordOOM s cid ts mem).1 = s := by
      unfold RecordOOM
      rw [hp]
    rw [hr]
    exact hR
  rcases hcl : alookup pod.Containers cid.containerName with _ | cs
  · have hr : (RecordOOM s cid ts mem).1 = s := by
      unfold RecordOOM
      rw [hp]
      dsimp only
      rw [hcl]
    rw [hr]
    exact hR
  by_cases hneg : mem < 0
  · have hr : (RecordOOM s cid ts mem).1 = s := by
      unfold RecordOOM
      rw [hp]
      dsimp only
      rw [hcl]
      dsimp only
      rw [if_pos hneg]
    rw [hr]
    exact hR
  · have hr : (RecordOOM s cid ts mem).1
        = aggregatorAddSampleAt s cid cs.aggregator ts := by
      unfold RecordOOM
      rw [hp]
      dsimp only
      rw [hcl]
      dsimp only
      rw [if_neg hneg]
    rw [hr]
    obtain ⟨hpods1, hmono1⟩ := aggregatorAddSampleAt_pods_mono cs.aggregator ts hp
    exact refPresent_mono (fun pid p h => by rw [hpods1] at h; exact h) hmono1 hR

theorem refPresent_AddOrUpdateContainer {s : ClusterState} (now : Time)
    (cid : ContainerID) (req : Resources) (hR : RefPresentInvariant s) :
    RefPresentInvariant (AddOrUpdateContainer s now cid req).1 := by
  rcases hp : alookup s.pods cid.podID with _ | pod
  · have hr : (AddOrUpdateContainer s now cid req).1 = s := by
      unfold AddOrUpdateContainer
      rw [hp]
    rw [hr]
    exact hR
  rcases hcl : alookup pod.Containers cid.containerName with _ | c0
  · rcases hfc : findOrCreateAggregateContainerState s now cid with _ | tk
    · have hr : (AddOrUpdateContainer s now cid req).1 = s := by
        unfold AddOrUpdateContainer
        rw [hp]
        dsimp only
        rw [hcl]
        dsimp only
        rw [hfc]
      rw [hr]
      exact hR
    rcases tk with ⟨t1, key⟩
    have hr : (AddOrUpdateContainer s now cid req).1
        = { t1 with
            pods := amap t1.pods cid.podID
              (fun p => { p with
                Containers := aset p.Containers cid.containerName
                  (NewContainerState req ContainerStateAggregator.proxy) }) } := by
      unfold AddOrUpdateContainer
      rw [hp]
      dsimp only
      rw [hcl]
      dsimp only
      rw [hfc]
    rw [hr]
    obtain ⟨hkey, hpods, hlsm, hemp, hgc, hgi, hksome, hother, hpres, habs⟩ :=
      findOrCreate_spec hp hfc
    have hmono1 : ∀ k, (alookup s.aggregateStateMap k).isSome = true →
        (alookup t1.aggregateStateMap k).isSome = true := by
      intro k hk
      by_cases hke : k = key
      · rw [hke]
        exact hksome
      · rw [hother k hke]
        exact hk
    have hR1 : RefPresentInvariant t1 :=
      refPresent_mono (fun pid p h => by rw [hpods] at h; exact h) hmono1 hR
    have hp1 : alookup t1.pods cid.podID = some pod := by
      rw [hpods]
      exact hp
    intro pid pod2 hp2 cn c hcc
    have hp2' : alookup (amap t1.pods cid.podID
        (fun p => { p with
          Containers := aset p.Containers cid.containerName
            (NewContainerState req ContainerStateAggregator.proxy) })) pid
        = some pod2 := hp2
    rw [alookup_amap] at hp2'
    by_cases hk : cid.podID = pid
    · subst hk
      rw [if_pos rfl, hp1] at hp2'
      simp only [Option.map_some', Option.some.injEq] at hp2'
      subst hp2'
      have hcc' : alookup (aset pod.Containers cid.containerName
          (NewContainerState req ContainerStateAggregator.proxy)) cn = some c := hcc
      rw [alookup_aset] at hcc'
      show (alookup t1.aggregateStateMap (MakeAggregateStateKey
        ({ pod with
            Containers := aset pod.Containers cid.containerName
              (NewContainerState req ContainerStateAggregator.proxy) } : PodState)
        cn)).isSome = true
      rw [show MakeAggregateStateKey
          ({ pod with
              Containers := aset pod.Containers cid.containerName
                (NewContainerState req ContainerStateAggregator.proxy) } : PodState) cn
          = MakeAggregateStateKey pod cn from makeKey_congr cn rfl rfl]
      by_cases hce : cid.containerName = cn
      · rw [← hce, ← hkey]
        exact hksome
      · rw [if_neg hce] at hcc'
        exact hR1 cid.podID pod hp1 cn c hcc'
    · rw [if_neg hk] at hp2'
      exact hR1 pid pod2 hp2' cn c hcc
  · have hr : (AddOrUpdateContainer s now cid req).1
        = { s with
            pods := amap s.pods cid.podID
              (fun p => { p with
                Containers := amap p.Containers cid.containerName
                  (fun c => { c with Request := req }) }) } := by
      unfold AddOrUpdateContainer
      rw [hp]
      dsimp only
      rw [hcl]
    rw [hr]
    exact refPresent_pods_amap_keyfix
      (fun p => { p with
        Containers := amap p.Containers cid.containerName
          (fun c => { c with Request := req }) })
      hp rfl rfl
      (fun cn h => by
        dsimp only at h
        rw [alookup_amap_isSome] at h
        exact h)
      hR

theorem refPresent_addOrUpdatePodChanged {t : ClusterState} {pod : PodState} (now : Time)
    (podID : PodID) (newLabels : LabelSet) (phase : PodPhase)
    (hC : CoreInv t) (hp : alookup t.pods podID = some pod)
    (hmem : (newLabels : LabelSetKey) ∈ t.labelSetMap)
    (hR : RefPresentInvariant t) :
    RefPresentInvariant (addOrUpdatePodChanged t now podID pod newLabels phase) := by
  obtain ⟨hCr, hlsmr, hempr, hgcTr, hgcIr, hothr, hmonor, hmcr, hvpar,
    pod', hpod', hpID', hplsk', hpPh', hpcont'⟩ :=
    addOrUpdatePodChanged_facts now podID newLabels phase hC hp hmem
  intro pid pod2 hp2 cn c hcc
  by_cases hk : pid = podID
  · subst hk
    rw [hpod'] at hp2
    simp only [Option.some.injEq] at hp2
    subst hp2
    exact (hpcont' cn c hcc).2
  · rw [hothr pid hk] at hp2
    exact hmonor _ (hR pid pod2 hp2 cn c hcc)

theorem refPresent_AddOrUpdatePod {s : ClusterState} (now : Time) (podID : PodID)
    (newLabels : LabelSet) (phase : PodPhase) (hI : Inv s)
    (hR : RefPresentInvariant s) :
    RefPresentInvariant (AddOrUpdatePod s now podID newLabels phase) := by
  rcases hlook : alookup s.pods podID with _ | pod
  · have hr : AddOrUpdatePod s now podID newLabels phase
        = addOrUpdatePodChanged
          { s with
              pods := (podID, newPod podID) :: s.pods,
              labelSetMap := lsmInsert s.labelSetMap newLabels }
          now podID (newPod podID) newLabels phase := by
      unfold AddOrUpdatePod
      rw [hlook]
    rw [hr]
    have hC2 : CoreInv ({ s with
        pods := (podID, newPod podID) :: s.pods,
        labelSetMap := lsmInsert s.labelSetMap newLabels } : ClusterState) :=
      core_lsmInsert newLabels (core_pods_cons_new hlook hI.toCoreInv)
    have hp2 : alookup ({ s with
        pods := (podID, newPod podID) :: s.pods,
        labelSetMap := lsmInsert s.labelSetMap newLabels } : ClusterState).pods podID
        = some (newPod podID) := by
      dsimp only
      rw [alookup_cons, if_pos rfl]
    have hmem2 : (newLabels : LabelSetKey) ∈ ({ s with
        pods := (podID, newPod podID) :: s.pods,
        labelSetMap := lsmInsert s.labelSetMap newLabels } :
        ClusterState).labelSetMap :=
      mem_lsmInsert_self s.labelSetMap newLabels
    have hR2 : RefPresentInvariant ({ s with
        pods := (podID, newPod podID) :: s.pods,
        labelSetMap := lsmInsert s.labelSetMap newLabels } : ClusterState) := by
      intro pid p hp' cn c hcc
      have hp'' : alookup ((podID, newPod podID) :: s.pods) pid = some p := hp'
      rw [alookup_cons] at hp''
      by_cases hk : podID = pid
      · rw [if_pos hk] at hp''
        simp only [Option.some.injEq] at hp''
        subst hp''
        cases hcc
      · rw [if_neg hk] at hp''
        exact hR pid p hp'' cn c hcc
    exact refPresent_addOrUpdatePodChanged now podID newLabels phase hC2 hp2 hmem2 hR2
  · by_cases heq : pod.labelSetKey = newLabels
    · have hr : AddOrUpdatePod s now podID newLabels phase
          = { s with
              pods := setPodPhase s.pods podID phase,
              labelSetMap := lsmInsert s.labelSetMap newLabels } := by
        unfold AddOrUpdatePod
        rw [hlook]
        dsimp only
        rw [if_pos heq]
      rw [hr]
      have hR2 : RefPresentInvariant ({ s with
          labelSetMap := lsmInsert s.labelSetMap newLabels } : ClusterState) := hR
      exact refPresent_pods_amap_keyfix (fun p => { p with Phase := phase }) hlook
        rfl rfl (fun cn h => h) hR2
    · have hr : AddOrUpdatePod s now podID newLabels phase
          = addOrUpdatePodChanged
            (removePodFromItsVpa
              { s with labelSetMap := lsmInsert s.labelSetMap newLabels } pod)
            now podID pod newLabels phase := by
        unfold AddOrUpdatePod
        rw [hlook]
        dsimp only
        rw [if_neg heq]
      rw [hr]
      have hC3 : CoreInv (removePodFromItsVpa
          { s with labelSetMap := lsmInsert s.labelSetMap newLabels } pod) :=
        core_removePodFromItsVpa pod (core_lsmInsert newLabels hI.toCoreInv)
      have hp3 : alookup (removePodFromItsVpa
          { s with labelSetMap := lsmInsert s.labelSetMap newLabels } pod).pods podID
          = some pod := hlook
      have hmem3 : (newLabels : LabelSetKey) ∈ (removePodFromItsVpa
          { s with labelSetMap := lsmInsert s.labelSetMap newLabels }
          pod).labelSetMap :=
        mem_lsmInsert_self s.labelSetMap newLabels
      have hR3 : RefPresentInvariant (removePodFromItsVpa
          { s with labelSetMap := lsmInsert s.labelSetMap newLabels } pod) := hR
      exact refPresent_addOrUpdatePodChanged now podID newLabels phase hC3 hp3 hmem3 hR3

theorem refPresent_DeletePod {s : ClusterState} (podID : PodID)
    (hR : RefPresentInvariant s) : RefPresentInvariant (DeletePod s podID) := by
  rcases hlook : alookup s.pods podID with _ | pod
  · have hr : DeletePod s podID = { s with pods := aerase s.pods podID } := by
      unfold DeletePod
      rw [hlook]
    rw [hr, aerase_of_none hlook]
    exact hR
  · have hr : DeletePod s podID
        = { removePodFromItsVpa s pod with pods := aerase s.pods podID } := by
      unfold DeletePod
      rw [hlook]
      rfl
    rw [hr]
    intro pid p hp2 cn c hcc
    have hp2' : alookup (aerase s.pods podID) pid = some p := hp2
    rw [alookup_aerase] at hp2'
    by_cases hk : podID = pid
    · rw [if_pos hk] at hp2'
      cases hp2'
    · rw [if_neg hk] at hp2'
      exact hR pid p hp2' cn c hcc

theorem deleteVpa_state_facts (s : ClusterState) (vpaID : VpaID) :
    (DeleteVpa s vpaID).1.pods = s.pods ∧
    (∀ k, (alookup (DeleteVpa s vpaID).1.aggregateStateMap k).isSome
      = (alookup s.aggregateStateMap k).isSome) := by
  rcases hv : alookup s.vpas vpaID with _ | vpa
  · constructor
    · unfold DeleteVpa
      rw [hv]
    · intro k
      unfold DeleteVpa
      rw [hv]
  · constructor
    · unfold DeleteVpa
      rw [hv]
    · intro k
      unfold DeleteVpa
      rw [hv]
      dsimp only
      have hidem : ∀ a : AggregateContainerState,
          AggregateContainerState.markNotAutoscaled
              (AggregateContainerState.markNotAutoscaled a)
            = AggregateContainerState.markNotAutoscaled a := fun a => rfl
      exact alookup_foldl_amap_idem_isSome hidem
        vpa.aggregateContainerStates s.aggregateStateMap k

theorem refPresent_DeleteVpa {s : ClusterState} (vpaID : VpaID)
    (hR : RefPresentInvariant s) : RefPresentInvariant (DeleteVpa s vpaID).1 := by
  obtain ⟨h1, h2⟩ := deleteVpa_state_facts s vpaID
  exact refPresent_mono (fun pid p h => by rw [h1] at h; exact h)
    (fun k hk => by rw [h2 k]; exact hk) hR

theorem addOrUpdateVpa_state_facts (s : ClusterState)
    (apiObject : VerticalPodAutoscaler) (selector : Selector) :
    (AddOrUpdateVpa s apiObject selector).1.pods = s.pods ∧
    (∀ k, (alookup (AddOrUpdateVpa s apiObject selector).1.aggregateStateMap k).isSome
      = (alookup s.aggregateStateMap k).isSome) := by
  rcases hv : alookup s.vpas ({ Namespace := apiObject.Namespace, VpaName := apiObject.Name } : VpaID) with _ | vpa
  case none =>
    constructor
    · unfold AddOrUpdateVpa
      dsimp only
      rw [hv]
    · intro k
      unfold AddOrUpdateVpa
      dsimp only
      rw [hv]
      dsimp only
      exact alookup_markMatchedUnderVpa_isSome s _ k
  case some =>
    by_cases hsel : vpa.PodSelector = selector
    · constructor
      · unfold AddOrUpdateVpa
        dsimp only
        rw [hv]
        dsimp only
        rw [if_pos hsel]
      · intro k
        unfold AddOrUpdateVpa
        dsimp only
        rw [hv]
        dsimp only
        rw [if_pos hsel]
    · have hd : DeleteVpa s ({ Namespace := apiObject.Namespace, VpaName := apiObject.Name } : VpaID)
          = ({ s with
              aggregateStateMap := vpa.aggregateContainerStates.foldl
                (fun m key => amap m key AggregateContainerState.markNotAutoscaled)
                s.aggregateStateMap,
              vpas := aerase s.vpas { Namespace := apiObject.Namespace, VpaName := apiObject.Name },
              emptyVPAs := fun id =>
                if id = { Namespace := apiObject.Namespace, VpaName := apiObject.Name } then none
                else s.emptyVPAs id },
            none) := by
        unfold DeleteVpa
        rw [hv]
      constructor
      · unfold AddOrUpdateVpa
        dsimp only
        rw [hv]
        dsimp only
        rw [if_neg hsel, hd]
      · intro k
        unfold AddOrUpdateVpa
        dsimp only
        rw [hv]
        dsimp only
        rw [if_neg hsel, hd]
        dsimp only
        rw [alookup_markMatchedUnderVpa_isSome]
        dsimp only
        have hidem : ∀ a : AggregateContainerState,
            AggregateContainerState.markNotAutoscaled
                (AggregateContainerState.markNotAutoscaled a)
              = AggregateContainerState.markNotAutoscaled a := fun a => rfl
        exact alookup_foldl_amap_idem_isSome hidem
          vpa.aggregateContainerStates s.aggregateStateMap k

theorem refPresent_AddOrUpdateVpa {s : ClusterState}
    (apiObject : VerticalPodAutoscaler) (selector : Selector)
    (hR : RefPresentInvariant s) :
    RefPresentInvariant (AddOrUpdateVpa s apiObject selector).1 := by
  obtain ⟨h1, h2⟩ := addOrUpdateVpa_state_facts s apiObject selector
  exact refPresent_mono (fun pid p h => by rw [h1] at h; exact h)
    (fun k hk => by rw [h2 k]; exact hk) hR

theorem refPresent_RecordRecommendation {s : ClusterState} (vpa : Vpa) (now : Time)
    (hR : RefPresentInvariant s) :
    RefPresentInvariant (RecordRecommendation s vpa now).1 := by
  obtain ⟨h1, h2, h3, h4⟩ := recordRecommendation_fields s vpa now
  exact refPresent_mono (fun pid p h => by rw [h1] at h; exact h)
    (fun k hk => by rw [h3]; exact hk) hR

/-- Every non-GC mutation preserves the entry-existence half of I1. -/
theorem refPresent_applyOp {s : ClusterState} (op : ClusterOp)
    (hgc : op.isGC = false) (hI : Inv s) (hR : RefPresentInvariant s) :
    RefPresentInvariant (applyOp s op) := by
  cases op with
  | addOrUpdatePod now id ls ph => exact refPresent_AddOrUpdatePod now id ls ph hI hR
  | deletePod id => exact refPresent_DeletePod id hR
  | addOrUpdateContainer now cid req => exact refPresent_AddOrUpdateContainer now cid req hR
  | addSample sample => exact refPresent_AddSample sample hR
  | recordOOM cid t m => exact refPresent_RecordOOM cid t m hR
  | addOrUpdateVpa obj sel => exact refPresent_AddOrUpdateVpa obj sel hR
  | deleteVpa id => exact refPresent_DeleteVpa id hR
  | gcSweep now cf => cases hgc
  | rateLimitedGC now cf => cases hgc
  | recordRecommendation vpa now => exact refPresent_RecordRecommendation vpa now hR

/-- The entry-existence half of I1 holds after any GC-free mutation
sequence from a fresh cluster state. -/
theorem refPresent_runOps (gcInterval : Duration) (ops : List ClusterOp)
    (hgc : ops.all (fun op => !op.isGC) = true) :
    RefPresentInvariant (runOps gcInterval ops) := by
  unfold runOps
  have h : ∀ (l : List ClusterOp) (t : ClusterState),
      l.all (fun op => !op.isGC) = true → Inv t → RefPresentInvariant t →
      RefPresentInvariant (l.foldl applyOp t) := by
    intro l
    induction l with
    | nil =>
      intro t _ _ hR
      exact hR
    | cons hd tl ih =>
      intro t hall hI hR
      rw [List.foldl_cons]
      simp only [List.all_cons, Bool.and_eq_true, Bool.not_eq_true'] at hall
      exact ih _ hall.2 (inv_applyOp hd hI) (refPresent_applyOp hd hall.1 hI hR)
  refine h ops _ hgc (inv_NewClusterState gcInterval) ?_
  intro pid p hp
  cases hp

/-- The repoint behaviour of `AddOrUpdatePod` (from the mutation
invariants): the phase is always overwritten, and on a changed (or fresh)
key every container is re-pointed to an existing entry for the new key. -/
theorem addOrUpdatePod_repoint {s : ClusterState} (now : Time) (podID : PodID)
    (newLabels : LabelSet) (phase : PodPhase) (hI : Inv s) :
    AddOrUpdatePodRepointSpec s now podID newLabels phase := by
  unfold AddOrUpdatePodRepointSpec
  rcases hlook : alookup s.pods podID with _ | pod
  · have hr : AddOrUpdatePod s now podID newLabels phase
        = addOrUpdatePodChanged
          { s with
              pods := (podID, newPod podID) :: s.pods,
              labelSetMap := lsmInsert s.labelSetMap newLabels }
          now podID (newPod podID) newLabels phase := by
      unfold AddOrUpdatePod
      rw [hlook]
    rw [hr]
    have hC2 : CoreInv ({ s with
        pods := (podID, newPod podID) :: s.pods,
        labelSetMap := lsmInsert s.labelSetMap newLabels } : ClusterState) :=
      core_lsmInsert newLabels (core_pods_cons_new hlook hI.toCoreInv)
    have hp2 : alookup ({ s with
        pods := (podID, newPod podID) :: s.pods,
        labelSetMap := lsmInsert s.labelSetMap newLabels } : ClusterState).pods podID
        = some (newPod podID) := by
      dsimp only
      rw [alookup_cons, if_pos rfl]
    obtain ⟨hCr, hlsmr, hempr, hgcTr, hgcIr, hothr, hmonor, hmcr, hvpar,
      pod', hpod', hpID', hplsk', hpPh', hpcont'⟩ :=
      addOrUpdatePodChanged_facts now podID newLabels phase hC2 hp2
        (mem_lsmInsert_self s.labelSetMap newLabels)
    refine ⟨pod', hpod', hpPh', fun _ => ⟨hplsk', fun cn c hcc => ?_⟩⟩
    obtain ⟨hagg, hsome⟩ := hpcont' cn c hcc
    refine ⟨?_, hsome⟩
    rw [hagg]
    rfl
  · by_cases heq : pod.labelSetKey = newLabels
    · have hr : AddOrUpdatePod s now podID newLabels phase
          = { s with
              pods := setPodPhase s.pods podID phase,
              labelSetMap := lsmInsert s.labelSetMap newLabels } := by
        unfold AddOrUpdatePod
        rw [hlook]
        dsimp only
        rw [if_pos heq]
      rw [hr]
      refine ⟨{ pod with Phase := phase }, ?_, rfl, fun hne => absurd heq hne⟩
      show alookup (setPodPhase s.pods podID phase) podID
        = some { pod with Phase := phase }
      unfold setPodPhase
      rw [alookup_amap, if_pos rfl, hlook]
      rfl
    · have hr : AddOrUpdatePod s now podID newLabels phase
          = addOrUpdatePodChanged
            (removePodFromItsVpa
              { s with labelSetMap := lsmInsert s.labelSetMap newLabels } pod)
            now podID pod newLabels phase := by
        unfold AddOrUpdatePod
        rw [hlook]
        dsimp only
        rw [if_neg heq]
      rw [hr]
      have hC3 : CoreInv (removePodFromItsVpa
          { s with labelSetMap := lsmInsert s.labelSetMap newLabels } pod) :=
        core_removePodFromItsVpa pod (core_lsmInsert newLabels hI.toCoreInv)
      have hp3 : alookup (removePodFromItsVpa
          { s with labelSetMap := lsmInsert s.labelSetMap newLabels } pod).pods podID
          = some pod := hlook
      obtain ⟨hCr, hlsmr, hempr, hgcTr, hgcIr, hothr, hmonor, hmcr, hvpar,
        pod', hpod', hpID', hplsk', hpPh', hpcont'⟩ :=
        addOrUpdatePodChanged_facts now podID newLabels phase hC3 hp3
          (mem_lsmInsert_self s.labelSetMap newLabels)
      refine ⟨pod', hpod', hpPh', fun _ => ⟨hplsk', fun cn c hcc => ?_⟩⟩
      obtain ⟨hagg, hsome⟩ := hpcont' cn c hcc
      refine ⟨?_, hsome⟩
      rw [hagg]
      rfl

theorem mem_contributive_aux (s : ClusterState) (cf : ControllerFetcher)
    (l : List (PodID × PodState)) (k : AggregateStateKey) :
    (k ∈ l.foldr (fun iv acc =>
      if podIsActive iv.2 || (GetControllerForPodUnderVPA s cf iv.2).isSome then
        (iv.2.Containers.map fun cv => MakeAggregateStateKey iv.2 cv.1) ++ acc
      else acc) []) ↔
    ∃ pid pod, (pid, pod) ∈ l ∧
      (podIsActive pod = true ∨ (GetControllerForPodUnderVPA s cf pod).isSome = true) ∧
      ∃ cn c, (cn, c) ∈ pod.Containers ∧ MakeAggregateStateKey pod cn = k := by
  induction l with
  | nil => simp
  | cons hd tl ih =>
    rw [List.foldr_cons]
    by_cases hc : (podIsActive hd.2 ||
        (GetControllerForPodUnderVPA s cf hd.2).isSome) = true
    · rw [if_pos hc]
      rw [List.mem_append, ih, List.mem_map]
      constructor
      · rintro (⟨cv, hcv, hmk⟩ | ⟨pid, pod, hmem, hcond, rest⟩)
        · refine ⟨hd.1, hd.2, ?_, ?_, cv.1, cv.2, ?_, hmk⟩
          · rw [Prod.mk.eta]
            exact List.mem_cons_self hd tl
          · simpa using hc
          · rw [Prod.mk.eta]
            exact hcv
        · exact ⟨pid, pod, List.mem_cons_of_mem hd hmem, hcond, rest⟩
      · rintro ⟨pid, pod, hmem, hcond, cn, c, hcmem, hmk⟩
        rcases List.mem_cons.mp hmem with hhd | htl
        · left
          have h2 : pod = hd.2 := congrArg Prod.snd hhd
          refine ⟨(cn, c), ?_, ?_⟩
          · rw [← h2]
            exact hcmem
          · show MakeAggregateStateKey hd.2 cn = k
            rw [← h2]
            exact hmk
        · right
          exact ⟨pid, pod, htl, hcond, cn, c, hcmem, hmk⟩
    · rw [if_neg hc]
      rw [ih]
      constructor
      · rintro ⟨pid, pod, hmem, hcond, rest⟩
        exact ⟨pid, pod, List.mem_cons_of_mem hd hmem, hcond, rest⟩
      · rintro ⟨pid, pod, hmem, hcond, rest⟩
        rcases List.mem_cons.mp hmem with hhd | htl
        · exfalso
          have h2 : pod = hd.2 := congrArg Prod.snd hhd
          apply hc
          rw [Bool.or_eq_true]
          rcases hcond with h | h
          · rw [← h2]
            exact Or.inl h
          · rw [← h2]
            exact Or.inr h
        · exact ⟨pid, pod, htl, hcond, rest⟩

/-- The contributive key set collects exactly the keys of the pods that
are active or whose controller still resolves. -/
theorem mem_contributive (s : ClusterState) (cf : ControllerFetcher)
    (k : AggregateStateKey) :
    (k ∈ getContributiveAggregateStateKeys s cf) ↔ ContributiveKeyProp s cf k := by
  unfold getContributiveAggregateStateKeys ContributiveKeyProp
  exact mem_contributive_aux s cf s.pods k

/-- Membership in the set of keys one GC sweep deletes. -/
theorem mem_gcKeysToDelete {s : ClusterState} (now : Time) (cf : ControllerFetcher)
    (hnd : nodupKeys s.aggregateStateMap) (k : AggregateStateKey) :
    (k ∈ gcKeysToDelete s now cf) ↔
      ∃ acs, alookup s.aggregateStateMap k = some acs ∧
        ((¬ ContributiveKeyProp s cf k ∧ acs.isEmpty = true) ∨
          acs.isExpired now = true) := by
  unfold gcKeysToDelete
  dsimp only
  rw [List.mem_filterMap]
  constructor
  · rintro ⟨kv, hkv, hf⟩
    by_cases h1 : (!(decide (kv.1 ∈ getContributiveAggregateStateKeys s cf))
        && kv.2.isEmpty) = true
    · rw [if_pos h1] at hf
      simp only [Option.some.injEq] at hf
      subst hf
      simp only [Bool.and_eq_true, Bool.not_eq_true'] at h1
      refine ⟨kv.2, mem_alookup hnd (by rw [Prod.mk.eta]; exact hkv),
        Or.inl ⟨?_, h1.2⟩⟩
      intro hcontra
      rw [← mem_contributive s cf kv.1] at hcontra
      exact of_decide_eq_false h1.1 hcontra
    · rw [if_neg h1] at hf
      by_cases h2 : kv.2.isExpired now = true
      · rw [if_pos h2] at hf
        simp only [Option.some.injEq] at hf
        subst hf
        exact ⟨kv.2, mem_alookup hnd (by rw [Prod.mk.eta]; exact hkv), Or.inr h2⟩
      · rw [if_neg h2] at hf
        cases hf
  · rintro ⟨acs, hacs, hcond⟩
    refine ⟨(k, acs), alookup_mem hacs, ?_⟩
    rcases hcond with ⟨hnc, hemp⟩ | hexp
    · have hb : (!(decide (k ∈ getContributiveAggregateStateKeys s cf))
          && acs.isEmpty) = true := by
        rw [decide_eq_false (by rw [mem_contributive]; exact hnc), hemp]
        rfl
      rw [if_pos hb]
    · by_cases h1 : (!(decide (k ∈ getContributiveAggregateStateKeys s cf))
          && acs.isEmpty) = true
      · rw [if_pos h1]
      · rw [if_neg h1, if_pos hexp]

/-! ## Claims -/

/-- Claim C1: after every finite mutation sequence from a fresh cluster
state, every registered policy holds a link to an index-present key iff
the key's (namespace, label set) matches the policy's (namespace,
selector) — invariant I2. -/
theorem link_invariant_runOps (gcInterval : Duration) (ops : List ClusterOp) :
    LinkInvariant (runOps gcInterval ops) :=
  (inv_runOps gcInterval ops).link

/-- Claim C2: after every finite mutation sequence from a fresh cluster
state, every registered policy's live pod count equals the number of
registered pods matching its (namespace, selector) — invariant I3. -/
theorem pod_count_invariant_runOps (gcInterval : Duration) (ops : List ClusterOp) :
    PodCountInvariant (runOps gcInterval ops) :=
  (inv_runOps gcInterval ops).count

/-- Claim C3 (counterexample): the entry-existence half of invariant I1
fails after a GC sweep — a registered (succeeded) pod keeps its container
while the sweep deletes the container's index entry. -/
theorem container_ref_counterexample :
    ¬ ∀ (gcInterval : Duration) (ops : List ClusterOp),
      RefPresentInvariant (runOps gcInterval ops) := by
  intro h
  have hp : alookup (runOps 1000 c3ops).pods scenarioPodID
      = some ((alookup (runOps 1000 c3ops).pods scenarioPodID).getD
        (newPod scenarioPodID)) := by decide
  have hc : alookup ((alookup (runOps 1000 c3ops).pods scenarioPodID).getD
        (newPod scenarioPodID)).Containers "c"
      = some ((alookup ((alookup (runOps 1000 c3ops).pods scenarioPodID).getD
        (newPod scenarioPodID)).Containers "c").getD
          (NewContainerState [] ContainerStateAggregator.proxy)) := by decide
  have h1 := h 1000 c3ops scenarioPodID
    ((alookup (runOps 1000 c3ops).pods scenarioPodID).getD (newPod scenarioPodID)) hp
    "c"
    ((alookup ((alookup (runOps 1000 c3ops).pods scenarioPodID).getD
      (newPod scenarioPodID)).Containers "c").getD
        (NewContainerState [] ContainerStateAggregator.proxy)) hc
  have h2 : (alookup (runOps 1000 c3ops).aggregateStateMap
      (MakeAggregateStateKey
        ((alookup (runOps 1000 c3ops).pods scenarioPodID).getD
          (newPod scenarioPodID)) "c")).isSome = false := by decide
  rw [h1] at h2
  cases h2

/-- Claim C3 (amended): the reference-target half of I1 holds after every
mutation sequence; the entry-existence half holds after every GC-free
mutation sequence; and `AddOrUpdatePod` always overwrites the phase and,
on a changed key, re-points every container to an existing entry for the
new key. -/
theorem container_ref_amended (gcInterval : Duration) (ops : List ClusterOp)
    (now : Time) (podID : PodID) (newLabels : LabelSet) (phase : PodPhase) :
    RefTargetInvariant (runOps gcInterval ops) ∧
    (ops.all (fun op => !op.isGC) = true →
      RefPresentInvariant (runOps gcInterval ops)) ∧
    AddOrUpdatePodRepointSpec (runOps gcInterval ops) now podID newLabels phase :=
  ⟨(inv_runOps gcInterval ops).ref,
   fun h => refPresent_runOps gcInterval ops h,
   addOrUpdatePod_repoint now podID newLabels phase (inv_runOps gcInterval ops)⟩

/-- Witness for the amended C3 at a concrete GC-free mutation sequence. -/
theorem container_ref_amended_witness :
    ([ClusterOp.addOrUpdatePod 0 scenarioPodID [("app", "x")]
        PodPhase.running].all (fun op => !op.isGC) = true) ∧
    (RefTargetInvariant (runOps 1000
        [ClusterOp.addOrUpdatePod 0 scenarioPodID [("app", "x")] PodPhase.running]) ∧
      ([ClusterOp.addOrUpdatePod 0 scenarioPodID [("app", "x")]
          PodPhase.running].all (fun op => !op.isGC) = true →
        RefPresentInvariant (runOps 1000
          [ClusterOp.addOrUpdatePod 0 scenarioPodID [("app", "x")]
            PodPhase.running])) ∧
      AddOrUpdatePodRepointSpec (runOps 1000
          [ClusterOp.addOrUpdatePod 0 scenarioPodID [("app", "x")] PodPhase.running])
        0 scenarioPodID [] PodPhase.running) :=
  ⟨by decide,
   container_ref_amended 1000
     [ClusterOp.addOrUpdatePod 0 scenarioPodID [("app", "x")] PodPhase.running]
     0 scenarioPodID [] PodPhase.running⟩

/-- Claim C6: the rate-limited GC entry point is a no-op before the
configured interval has elapsed, performs the sweep and stamps the passed
sweep time otherwise, and a second trigger less than the interval after a
sweep changes nothing. -/
theorem gc_rate_limit_spec (s : ClusterState) (now : Time) (cf : ControllerFetcher) :
    (¬ gcWouldRun s now →
      RateLimitedGarbageCollectAggregateCollectionStates s now cf = s) ∧
    (gcWouldRun s now →
      RateLimitedGarbageCollectAggregateCollectionStates s now cf
        = { garbageCollectAggregateCollectionStates s now cf with
            lastAggregateContainerStateGC := now }) ∧
    (gcWouldRun s now → ∀ now2, now2 - now < s.gcInterval →
      RateLimitedGarbageCollectAggregateCollectionStates
        (RateLimitedGarbageCollectAggregateCollectionStates s now cf) now2 cf
        = RateLimitedGarbageCollectAggregateCollectionStates s now cf) := by
  refine ⟨?_, ?_, ?_⟩
  · intro hn
    unfold RateLimitedGarbageCollectAggregateCollectionStates
    rw [if_pos (lt_of_not_le hn)]
  · intro hr
    unfold RateLimitedGarbageCollectAggregateCollectionStates
    rw [if_neg (not_lt.mpr hr)]
  · intro hr now2 h2
    have he : RateLimitedGarbageCollectAggregateCollectionStates s now cf
        = { garbageCollectAggregateCollectionStates s now cf with
            lastAggregateContainerStateGC := now } := by
      unfold RateLimitedGarbageCollectAggregateCollectionStates
      rw [if_neg (not_lt.mpr hr)]
    rw [he]
    unfold RateLimitedGarbageCollectAggregateCollectionStates
    have hcond : now2 - ({ garbageCollectAggregateCollectionStates s now cf with
        lastAggregateContainerStateGC := now } :
        ClusterState).lastAggregateContainerStateGC
        < ({ garbageCollectAggregateCollectionStates s now cf with
            lastAggregateContainerStateGC := now } : ClusterState).gcInterval := by
      dsimp only
      rw [show (garbageCollectAggregateCollectionStates s now cf).gcInterval
          = s.gcInterval from gcDeleteKeys_gcInterval _ _]
      exact h2
    rw [if_pos hcond]

/-- Witness for C6: a trigger before the interval elapses is a no-op. -/
theorem gc_rate_limit_spec_witness :
    ¬ gcWouldRun (NewClusterState 10) 5 ∧
    RateLimitedGarbageCollectAggregateCollectionStates (NewClusterState 10) 5
      (fun _ => none) = NewClusterState 10 :=
  ⟨by unfold gcWouldRun; decide,
   (gc_rate_limit_spec (NewClusterState 10) 5 (fun _ => none)).1
     (by unfold gcWouldRun; decide)⟩

/-- Claim C7 (counterexample): a call made exactly at the staleness
threshold after the first-missing time succeeds, contradicting the claimed
failure at every elapsed time of at least the threshold. -/
theorem record_recommendation_counterexample :
    ¬ ∀ (s : ClusterState) (vpa : Vpa) (now t0 : Time),
      vpaHasRecommendation vpa = false → s.emptyVPAs vpa.ID = some t0 →
      t0 + RecommendationMissingMaxDuration ≤ now →
      (RecordRecommendation s vpa now).2
        = some (ClusterError.staleRecommendation vpa.ID) := by
  intro h
  have h1 := h c7state c7vpa RecommendationMissingMaxDuration 0 (by rfl)
    (by rw [show c7state.emptyVPAs c7vpa.ID
        = (if c7vpa.ID = c7vpa.ID then some 0 else none) from rfl, if_pos rfl])
    (by decide)
  have h2 : (RecordRecommendation c7state c7vpa RecommendationMissingMaxDuration).2
      = none := by rfl
  rw [h2] at h1
  cases h1

/-- Claim C7 (amended): a non-empty recommendation clears tracking and
succeeds; first observed emptiness starts tracking and succeeds; tracked
emptiness succeeds unchanged while the elapsed time is at most the
threshold, and fails (re-arming the timestamp) only strictly beyond it. -/
theorem record_recommendation_spec (s : ClusterState) (vpa : Vpa) (now : Time) :
    RecordRecommendationSpec s vpa now := by
  unfold RecordRecommendationSpec
  refine ⟨?_, ?_, ?_⟩
  · intro hrec
    have hrec' : (match vpa.Recommendation with
        | some r => decide (0 < r.ContainerRecommendations.length)
        | none => false) = true := hrec
    have hr : RecordRecommendation s vpa now
        = ({ s with emptyVPAs := fun id => if id = vpa.ID then none
              else s.emptyVPAs id }, none) := by
      unfold RecordRecommendation
      dsimp only
      rw [if_pos hrec']
    rw [hr]
    refine ⟨rfl, ?_⟩
    dsimp only
    rw [if_pos rfl]
  · intro hrec hnone
    have hrec' : (match vpa.Recommendation with
        | some r => decide (0 < r.ContainerRecommendations.length)
        | none => false) = false := hrec
    have hr : RecordRecommendation s vpa now
        = ({ s with emptyVPAs := fun id => if id = vpa.ID then some now
              else s.emptyVPAs id }, none) := by
      unfold RecordRecommendation
      dsimp only
      rw [if_neg (by rw [hrec']; exact Bool.false_ne_true)]
      rw [hnone]
    rw [hr]
    refine ⟨rfl, ?_⟩
    dsimp only
    rw [if_pos rfl]
  · intro t0 hrec htrack
    have hrec' : (match vpa.Recommendation with
        | some r => decide (0 < r.ContainerRecommendations.length)
        | none => false) = false := hrec
    constructor
    · intro hle
      unfold RecordRecommendation
      dsimp only
      rw [if_neg (by rw [hrec']; exact Bool.false_ne_true)]
      rw [htrack]
      dsimp only
      rw [if_neg (not_lt.mpr hle)]
    · intro hlt
      have hr : RecordRecommendation s vpa now
          = ({ s with emptyVPAs := fun id => if id = vpa.ID then some now
                else s.emptyVPAs id },
             some (ClusterError.staleRecommendation vpa.ID)) := by
        unfold RecordRecommendation
        dsimp only
        rw [if_neg (by rw [hrec']; exact Bool.false_ne_true)]
        rw [htrack]
        dsimp only
        rw [if_pos hlt]
      rw [hr]
      refine ⟨rfl, ?_⟩
      dsimp only
      rw [if_pos rfl]

/-- Claim C4: one GC sweep deletes an index entry iff (its key is not
contributive and it is empty) or it is expired as of the sweep time, and
every deleted key is removed from every policy's link set in the same
sweep. -/
theorem gc_sweep_spec (s : ClusterState) (now : Time) (cf : ControllerFetcher)
    (hnd : nodupKeys s.aggregateStateMap) : GCSweepSpec s now cf := by
  unfold GCSweepSpec garbageCollectAggregateCollectionStates
  intro key acs hacs
  constructor
  · rw [gcDeleteKeys_agg]
    constructor
    · intro hdel
      by_cases hmem : key ∈ gcKeysToDelete s now cf
      · obtain ⟨acs', hacs', hcond⟩ := (mem_gcKeysToDelete now cf hnd key).mp hmem
        rw [hacs] at hacs'
        simp only [Option.some.injEq] at hacs'
        subst hacs'
        exact hcond
      · rw [if_neg hmem, hacs] at hdel
        cases hdel
    · intro hcond
      rw [if_pos ((mem_gcKeysToDelete now cf hnd key).mpr ⟨acs, hacs, hcond⟩)]
  · intro hdel vid vpa hvl
    rw [gcDeleteKeys_vpas] at hvl
    rw [gcDeleteKeys_agg] at hdel
    by_cases hmem : key ∈ gcKeysToDelete s now cf
    · rcases hvs : alookup s.vpas vid with _ | w
      · rw [hvs] at hvl
        cases hvl
      · rw [hvs] at hvl
        simp only [Option.map_some', Option.some.injEq] at hvl
        subst hvl
        cases hb : ((gcKeysToDelete s now cf).foldl
            Vpa.deleteAggregation w).hasAggregation key
        · rfl
        · exact absurd hmem
            ((hasAggregation_foldl_deleteAggregation _ w key).mp hb).2
    · rw [if_neg hmem, hacs] at hdel
      cases hdel

/-- Witness for C4 at a concrete one-entry index. -/
theorem gc_sweep_spec_witness :
    nodupKeys ({ NewClusterState 7 with
      aggregateStateMap := [({ Namespace := "ns", ContainerName := "c", labelSetKey := [] }, NewAggregateContainerState 0)] } :
      ClusterState).aggregateStateMap ∧
    GCSweepSpec { NewClusterState 7 with
      aggregateStateMap := [({ Namespace := "ns", ContainerName := "c", labelSetKey := [] }, NewAggregateContainerState 0)] } 0 (fun _ => none) :=
  ⟨by decide,
   gc_sweep_spec { NewClusterState 7 with
      aggregateStateMap := [({ Namespace := "ns", ContainerName := "c", labelSetKey := [] }, NewAggregateContainerState 0)] } 0 (fun _ => none)
     (by decide)⟩

/-- Claim C5 (counterexample): an aggregation backed by an active pod is
still deleted when it is expired by age, contradicting the claimed
unconditional GC safety for actively backed keys. -/
theorem gc_safety_counterexample :
    ¬ ∀ (s : ClusterState) (now : Time) (cf : ControllerFetcher)
      (key : AggregateStateKey) (acs : AggregateContainerState),
      alookup s.aggregateStateMap key = some acs →
      ActiveBackedKey s key →
      (alookup (garbageCollectAggregateCollectionStates s now cf).aggregateStateMap
        key).isSome = true := by
  intro h
  have hp : alookup (runOps 1000 c5ops).pods scenarioPodID
      = some ((alookup (runOps 1000 c5ops).pods scenarioPodID).getD
        (newPod scenarioPodID)) := by decide
  have hacs : alookup (runOps 1000 c5ops).aggregateStateMap
      (MakeAggregateStateKey
        ((alookup (runOps 1000 c5ops).pods scenarioPodID).getD
          (newPod scenarioPodID)) "c")
      = some ((alookup (runOps 1000 c5ops).aggregateStateMap
        (MakeAggregateStateKey
          ((alookup (runOps 1000 c5ops).pods scenarioPodID).getD
            (newPod scenarioPodID)) "c")).getD (NewAggregateContainerState 0)) := by
    decide
  have hab : ActiveBackedKey (runOps 1000 c5ops)
      (MakeAggregateStateKey
        ((alookup (runOps 1000 c5ops).pods scenarioPodID).getD
          (newPod scenarioPodID)) "c") := by
    refine ⟨scenarioPodID,
      (alookup (runOps 1000 c5ops).pods scenarioPodID).getD (newPod scenarioPodID),
      alookup_mem hp, by decide, "c",
      (alookup ((alookup (runOps 1000 c5ops).pods scenarioPodID).getD
        (newPod scenarioPodID)).Containers "c").getD
          (NewContainerState [] ContainerStateAggregator.proxy), ?_, rfl⟩
    exact alookup_mem (by decide)
  have h1 := h (runOps 1000 c5ops) (AggregateContainerStateLifespan + 2)
    (fun _ => none)
    (MakeAggregateStateKey
      ((alookup (runOps 1000 c5ops).pods scenarioPodID).getD
        (newPod scenarioPodID)) "c")
    ((alookup (runOps 1000 c5ops).aggregateStateMap
      (MakeAggregateStateKey
        ((alookup (runOps 1000 c5ops).pods scenarioPodID).getD
          (newPod scenarioPodID)) "c")).getD (NewAggregateContainerState 0))
    hacs hab
  have h2 : (alookup (garbageCollectAggregateCollectionStates (runOps 1000 c5ops)
      (AggregateContainerStateLifespan + 2) (fun _ => none)).aggregateStateMap
      (MakeAggregateStateKey
        ((alookup (runOps 1000 c5ops).pods scenarioPodID).getD
          (newPod scenarioPodID)) "c")).isSome = false := by decide
  rw [h1] at h2
  cases h2

/-- Claim C5 (amended): an actively backed aggregation that is not expired
as of the sweep time survives the sweep unchanged, and an empty
aggregation with no contributive pod for its key is deleted by the sweep. -/
theorem gc_safety_spec (s : ClusterState) (now : Time) (cf : ControllerFetcher)
    (hnd : nodupKeys s.aggregateStateMap) : GCSafetySpec s now cf := by
  unfold GCSafetySpec garbageCollectAggregateCollectionStates
  constructor
  · intro key acs hacs hactive hnexp
    rw [gcDeleteKeys_agg]
    have hmem : key ∉ gcKeysToDelete s now cf := by
      intro hmem
      obtain ⟨acs', hacs', hcond⟩ := (mem_gcKeysToDelete now cf hnd key).mp hmem
      rw [hacs] at hacs'
      simp only [Option.some.injEq] at hacs'
      subst hacs'
      rcases hcond with ⟨hnc, _⟩ | hexp
      · apply hnc
        obtain ⟨pid, pod, hmem', hact, cn, c, hc, hk⟩ := hactive
        exact ⟨pid, pod, hmem', Or.inl hact, cn, c, hc, hk⟩
      · rw [hnexp] at hexp
        cases hexp
    rw [if_neg hmem]
    exact hacs
  · intro key acs hacs hemp hnc
    rw [gcDeleteKeys_agg]
    rw [if_pos ((mem_gcKeysToDelete now cf hnd key).mpr
      ⟨acs, hacs, Or.inl ⟨hnc, hemp⟩⟩)]

/-- Witness for the amended C5 at a concrete one-entry index. -/
theorem gc_safety_spec_witness :
    nodupKeys ({ NewClusterState 7 with
      aggregateStateMap := [({ Namespace := "ns", ContainerName := "d", labelSetKey := [] }, NewAggregateContainerState 0)] } :
      ClusterState).aggregateStateMap ∧
    GCSafetySpec { NewClusterState 7 with
      aggregateStateMap := [({ Namespace := "ns", ContainerName := "d", labelSetKey := [] }, NewAggregateContainerState 0)] } 0 (fun _ => none) :=
  ⟨by decide,
   gc_safety_spec { NewClusterState 7 with
      aggregateStateMap := [({ Namespace := "ns", ContainerName := "d", labelSetKey := [] }, NewAggregateContainerState 0)] } 0 (fun _ => none)
     (by decide)⟩

/-- Claim C8: `AddSample` fails with a key error iff the pod or container
is unregistered and with a sample-discarded error iff the accumulator
rejects the sample, succeeding otherwise; `RecordOOM` fails with a key
error iff the pod or container is unregistered; every error leaves the
state unchanged. -/
theorem sample_error_spec (s : ClusterState) (sample : ContainerUsageSampleWithKey)
    (cid : ContainerID) (ts : Time) (mem : Int) :
    AddSampleErrorSpec s sample ∧ RecordOOMErrorSpec s cid ts mem := by
  constructor
  · unfold AddSampleErrorSpec
    rcases hp : alookup s.pods sample.Container.podID with _ | pod
    · have hr : AddSample s sample
          = (s, some (ClusterError.keyError (KeyErrorKey.pod sample.Container.podID)))
          := by
        unfold AddSample
        rw [hp]
      rw [hr]
      refine ⟨⟨fun _ => Or.inl rfl,
        fun _ => ⟨KeyErrorKey.pod sample.Container.podID, rfl⟩⟩, ?_, ?_, fun _ => rfl⟩
      · constructor
        · intro hcontra
          simp only [Option.some.injEq] at hcontra
          cases hcontra
        · rintro ⟨pod, c, hpod, _, _⟩
          cases hpod
      · intro pod c hpod _ _
        cases hpod
    · rcases hcl : alookup pod.Containers sample.Container.containerName with _ | cs
      · have hr : AddSample s sample
            = (s, some (ClusterError.keyError (KeyErrorKey.container sample.Container)))
            := by
          unfold AddSample
          rw [hp]
          dsimp only
          rw [hcl]
        rw [hr]
        refine ⟨⟨fun _ => Or.inr ⟨pod, rfl, hcl⟩,
          fun _ => ⟨KeyErrorKey.container sample.Container, rfl⟩⟩, ?_, ?_, fun _ => rfl⟩
        · constructor
          · intro hcontra
            simp only [Option.some.injEq] at hcontra
            cases hcontra
          · rintro ⟨pod2, c, hpod2, hc2, _⟩
            simp only [Option.some.injEq] at hpod2
            subst hpod2
            rw [hcl] at hc2
            cases hc2
        · intro pod2 c hpod2 hc2 _
          simp only [Option.some.injEq] at hpod2
          subst hpod2
          rw [hcl] at hc2
          cases hc2
      · by_cases hacc : containerAcceptsSample cs
            { MeasureStart := sample.MeasureStart, Usage := sample.Usage,
              Resource := sample.Resource } = true
        · have hr : (AddSample s sample).2 = none := by
            unfold AddSample
            rw [hp]
            dsimp only
            rw [hcl]
            dsimp only
            rw [if_pos hacc]
          refine ⟨?_, ?_, fun _ _ _ _ _ => hr, ?_⟩
          · constructor
            · rintro ⟨k, hk⟩
              rw [hr] at hk
              cases hk
            · rintro (h | ⟨pod2, hpod2, hc2⟩)
              · cases h
              · simp only [Option.some.injEq] at hpod2
                subst hpod2
                rw [hcl] at hc2
                cases hc2
          · constructor
            · intro hk
              rw [hr] at hk
              cases hk
            · rintro ⟨pod2, c2, hpod2, hc2, hrej⟩
              simp only [Option.some.injEq] at hpod2
              subst hpod2
              rw [hcl] at hc2
              simp only [Option.some.injEq] at hc2
              subst hc2
              rw [hacc] at hrej
              cases hrej
          · intro hks
            rw [hr] at hks
            cases hks
        · have hr : AddSample s sample = (s, some ClusterError.sampleDiscarded) := by
            unfold AddSample
            rw [hp]
            dsimp only
            rw [hcl]
            dsimp only
            rw [if_neg hacc]
          rw [hr]
          have hfalse : containerAcceptsSample cs
              { MeasureStart := sample.MeasureStart, Usage := sample.Usage,
                Resource := sample.Resource } = false := by
            cases hb : containerAcceptsSample cs
              { MeasureStart := sample.MeasureStart, Usage := sample.Usage,
                Resource := sample.Resource }
            · rfl
            · exact absurd hb hacc
          refine ⟨?_, ⟨fun _ => ⟨pod, cs, rfl, hcl, hfalse⟩, fun _ => rfl⟩, ?_,
            fun _ => rfl⟩
          · constructor
            · rintro ⟨k, hk⟩
              simp only [Option.some.injEq] at hk
              cases hk
            · rintro (h | ⟨pod2, hpod2, hc2⟩)
              · cases h
              · simp only [Option.some.injEq] at hpod2
                subst hpod2
                rw [hcl] at hc2
                cases hc2
          · intro pod2 c2 hpod2 hc2 hok
            simp only [Option.some.injEq] at hpod2
            subst hpod2
            rw [hcl] at hc2
            simp only [Option.some.injEq] at hc2
            subst hc2
            exact absurd hok hacc
  · unfold RecordOOMErrorSpec
    rcases hp : alookup s.pods cid.podID with _ | pod
    · have hr : RecordOOM s cid ts mem
          = (s, some (ClusterError.keyError (KeyErrorKey.pod cid.podID))) := by
        unfold RecordOOM
        rw [hp]
      rw [hr]
      exact ⟨⟨fun _ => Or.inl rfl, fun _ => ⟨KeyErrorKey.pod cid.podID, rfl⟩⟩,
        fun _ => rfl⟩
    · rcases hcl : alookup pod.Containers cid.containerName with _ | cs
      · have hr : RecordOOM s cid ts mem
            = (s, some (ClusterError.keyError
                (KeyErrorKey.containerName cid.containerName))) := by
          unfold RecordOOM
          rw [hp]
          dsimp only
          rw [hcl]
        rw [hr]
        exact ⟨⟨fun _ => Or.inr ⟨pod, rfl, hcl⟩,
          fun _ => ⟨KeyErrorKey.containerName cid.containerName, rfl⟩⟩, fun _ => rfl⟩
      · by_cases hneg : mem < 0
        · have hr : RecordOOM s cid ts mem = (s, some ClusterError.oomError) := by
            unfold RecordOOM
            rw [hp]
            dsimp only
            rw [hcl]
            dsimp only
            rw [if_pos hneg]
          rw [hr]
          refine ⟨?_, fun _ => rfl⟩
          constructor
          · rintro ⟨k, hk⟩
            simp only [Option.some.injEq] at hk
            cases hk
          · rintro (h | ⟨pod2, hpod2, hc2⟩)
            · cases h
            · simp only [Option.some.injEq] at hpod2
              subst hpod2
              rw [hcl] at hc2
              cases hc2
        · have hr : RecordOOM s cid ts mem
              = (aggregatorAddSampleAt s cid cs.aggregator ts, none) := by
            unfold RecordOOM
            rw [hp]
            dsimp only
            rw [hcl]
            dsimp only
            rw [if_neg hneg]
          rw [hr]
          refine ⟨?_, ?_⟩
          · constructor
            · rintro ⟨k, hk⟩
              cases hk
            · rintro (h | ⟨pod2, hpod2, hc2⟩)
              · cases h
              · simp only [Option.some.injEq] at hpod2
                subst hpod2
                rw [hcl] at hc2
                cases hc2
          · intro hks
            cases hks

/-- Claim C10: `DeleteVpa` fails with a key error iff the policy is
absent (leaving the state unchanged); otherwise it succeeds, marks every
linked aggregation not-autoscaled, removes the policy from the registry
and clears its staleness tracking entry. -/
theorem delete_vpa_spec (s : ClusterState) (vpaID : VpaID) : DeleteVpaSpec s vpaID := by
  unfold DeleteVpaSpec
  rcases hv : alookup s.vpas vpaID with _ | vpa
  · have hr : DeleteVpa s vpaID
        = (s, some (ClusterError.keyError (KeyErrorKey.vpa vpaID))) := by
      unfold DeleteVpa
      rw [hv]
    rw [hr]
    refine ⟨⟨fun _ => rfl, fun _ => rfl⟩, fun _ => rfl, ?_⟩
    intro vpa hvl
    cases hvl
  · have hr : DeleteVpa s vpaID
        = ({ s with
            aggregateStateMap := vpa.aggregateContainerStates.foldl
              (fun m key => amap m key AggregateContainerState.markNotAutoscaled)
              s.aggregateStateMap,
            vpas := aerase s.vpas vpaID,
            emptyVPAs := fun id => if id = vpaID then none else s.emptyVPAs id },
          none) := by
      unfold DeleteVpa
      rw [hv]
    rw [hr]
    refine ⟨⟨?_, ?_⟩, ?_, ?_⟩
    · intro hcontra
      cases hcontra
    · intro hcontra
      cases hcontra
    · intro hcontra
      cases hcontra
    · intro vpa2 hvl
      simp only [Option.some.injEq] at hvl
      subst hvl
      refine ⟨rfl, ?_, ?_, ?_⟩
      · dsimp only
        rw [alookup_aerase, if_pos rfl]
      · dsimp only
        rw [if_pos rfl]
      · intro key hagg
        dsimp only
        have hidem : ∀ a : AggregateContainerState,
            AggregateContainerState.markNotAutoscaled
                (AggregateContainerState.markNotAutoscaled a)
              = AggregateContainerState.markNotAutoscaled a := fun a => rfl
        rw [alookup_foldl_amap_idem hidem]
        rw [if_pos (of_decide_eq_true hagg)]

/-- The identifying and seeding profile of the policy object installed by
the creation path of `AddOrUpdateVpa`. -/
theorem createdVpa_profile (t : ClusterState) (apiObject : VerticalPodAutoscaler)
    (selector : Selector) :
    (createdVpa t apiObject selector).PodSelector = selector ∧
    (createdVpa t apiObject selector).PodCount
      = ((GetMatchingPods t (createdVpa t apiObject selector)).length : Int) ∧
    (∀ k, (createdVpa t apiObject selector).hasAggregation k = true ↔
      (k ∈ t.aggregateStateMap.map Prod.fst ∧
        vpaMatchesAggregation t.labelSetMap (createdVpa t apiObject selector) k
          = true)) := by
  unfold createdVpa
  set vid : VpaID := { Namespace := apiObject.Namespace, VpaName := apiObject.Name }
    with hvidDef
  set vpa0 : Vpa := NewVpa vid selector apiObject.CreationTimestamp with hvpa0Def
  set seed : Vpa := seedVpaFromIndex t vpa0 with hseedDef
  set v2 : Vpa := { seed with PodCount := ((GetMatchingPods t seed).length : Int) }
    with hv2Def
  set vfin : Vpa := refreshVpaFields v2 apiObject with hvfinDef
  have hIDe : vfin.ID = vpa0.ID := by
    rw [hvfinDef, refreshVpaFields_ID, hv2Def]
    show seed.ID = vpa0.ID
    rw [hseedDef]
    unfold seedVpaFromIndex
    rw [foldl_useAggregationIfMatching_ID]
  have hsele : vfin.PodSelector = vpa0.PodSelector := by
    rw [hvfinDef, refreshVpaFields_PodSelector, hv2Def]
    show seed.PodSelector = vpa0.PodSelector
    rw [hseedDef]
    unfold seedVpaFromIndex
    rw [foldl_useAggregationIfMatching_PodSelector]
  refine ⟨?_, ?_, ?_⟩
  · rw [hsele, hvpa0Def]
    rfl
  · have hIDs : vfin.ID = seed.ID := by
      rw [hvfinDef, refreshVpaFields_ID, hv2Def]
    have hsels : vfin.PodSelector = seed.PodSelector := by
      rw [hvfinDef, refreshVpaFields_PodSelector, hv2Def]
    rw [show GetMatchingPods t vfin = GetMatchingPods t seed from
      getMatchingPods_congr hIDs hsels]
    rw [hvfinDef, refreshVpaFields_PodCount, hv2Def]
  · intro k
    have hmeq : vpaMatchesAggregation t.labelSetMap vfin k
        = vpaMatchesAggregation t.labelSetMap vpa0 k :=
      vpaMatchesAggregation_congr k (by rw [hIDe]) hsele rfl
    have hh : vfin.hasAggregation k = seed.hasAggregation k := by
      rw [hvfinDef, hasAggregation_refreshVpaFields, hv2Def]
      rfl
    have h0 : vpa0.hasAggregation k = false := by
      rw [hvpa0Def]
      rfl
    rw [hh, hmeq, hseedDef]
    unfold seedVpaFromIndex
    rw [hasAggregation_foldl_useAggregationIfMatching]
    constructor
    · rintro (hfalse | hok)
      · rw [h0] at hfalse
        cases hfalse
      · exact hok
    · intro hok
      exact Or.inr hok

/-- Claim C9: `AddOrUpdateVpa` never errors; a policy whose selector
changed is deleted and recreated; every newly created or recreated policy
is seeded from a full index scan and counted from a full pod scan; and
the API-object-derived fields are always refreshed. -/
theorem add_or_update_vpa_spec (s : ClusterState)
    (apiObject : VerticalPodAutoscaler) (selector : Selector) :
    AddOrUpdateVpaSpec s apiObject selector := by
  unfold AddOrUpdateVpaSpec
  rcases hv : alookup s.vpas ({ Namespace := apiObject.Namespace, VpaName := apiObject.Name } : VpaID) with _ | vpa
  case none =>
    have hA : (AddOrUpdateVpa s apiObject selector).2 = none := by
      unfold AddOrUpdateVpa
      dsimp only
      rw [hv]
    have h1 : alookup (AddOrUpdateVpa s apiObject selector).1.vpas
        { Namespace := apiObject.Namespace, VpaName := apiObject.Name }
        = some (createdVpa s apiObject selector) := by
      unfold AddOrUpdateVpa
      dsimp only
      rw [hv]
      dsimp only
      rw [alookup_cons, if_pos rfl]
      rfl
    obtain ⟨hcSel, hcCnt, hcLink⟩ := createdVpa_profile s apiObject selector
    refine ⟨hA, createdVpa s apiObject selector, h1,
      ⟨rfl, rfl, rfl, rfl, rfl, rfl, rfl⟩, ?_, ?_⟩
    · intro _
      refine ⟨hcSel, ?_, ?_, ?_⟩
      · intro key acs hacs
        constructor
        · intro h
          exact ((hcLink key).mp h).2
        · intro hm
          exact (hcLink key).mpr ⟨alookup_isSome.mp (by rw [hacs]; rfl), hm⟩
      · intro key h
        exact alookup_isSome.mpr ((hcLink key).mp h).1
      · exact hcCnt
    · intro old hold
      cases hold
  case some =>
    by_cases hsel : vpa.PodSelector = selector
    · have hA : (AddOrUpdateVpa s apiObject selector).2 = none := by
        unfold AddOrUpdateVpa
        dsimp only
        rw [hv]
        dsimp only
        rw [if_pos hsel]
      have h1 : alookup (AddOrUpdateVpa s apiObject selector).1.vpas
          { Namespace := apiObject.Namespace, VpaName := apiObject.Name }
          = some (refreshVpaFields vpa apiObject) := by
        unfold AddOrUpdateVpa
        dsimp only
        rw [hv]
        dsimp only
        rw [if_pos hsel]
        dsimp only
        rw [alookup_amap, if_pos rfl, hv]
        rfl
      refine ⟨hA, refreshVpaFields vpa apiObject, h1,
        ⟨rfl, rfl, rfl, rfl, rfl, rfl, rfl⟩, ?_, ?_⟩
      · intro hcontra
        cases hcontra
      · intro old hold
        simp only [Option.some.injEq] at hold
        subst hold
        refine ⟨fun _ => ⟨rfl, rfl, rfl⟩, fun hne => absurd hsel hne⟩
    · have hidem : ∀ a : AggregateContainerState,
          AggregateContainerState.markNotAutoscaled
              (AggregateContainerState.markNotAutoscaled a)
            = AggregateContainerState.markNotAutoscaled a := fun a => rfl
      set S1 : ClusterState := { s with
        aggregateStateMap := vpa.aggregateContainerStates.foldl
          (fun m key => amap m key AggregateContainerState.markNotAutoscaled)
          s.aggregateStateMap,
        vpas := aerase s.vpas { Namespace := apiObject.Namespace, VpaName := apiObject.Name },
        emptyVPAs := fun id =>
          if id = { Namespace := apiObject.Namespace, VpaName := apiObject.Name }
          then none else s.emptyVPAs id } with hS1
      have hd : DeleteVpa s ({ Namespace := apiObject.Namespace, VpaName := apiObject.Name } : VpaID)
          = (S1, none) := by
        rw [hS1]
        unfold DeleteVpa
        rw [hv]
      have hA : (AddOrUpdateVpa s apiObject selector).2 = none := by
        unfold AddOrUpdateVpa
        dsimp only
        rw [hv]
        dsimp only
        rw [if_neg hsel, hd]
      have h1 : alookup (AddOrUpdateVpa s apiObject selector).1.vpas
          { Namespace := apiObject.Namespace, VpaName := apiObject.Name }
          = some (createdVpa S1 apiObject selector) := by
        unfold AddOrUpdateVpa
        dsimp only
        rw [hv]
        dsimp only
        rw [if_neg hsel, hd]
        dsimp only
        rw [alookup_cons, if_pos rfl]
        rfl
      obtain ⟨hcSel, hcCnt, hcLink⟩ := createdVpa_profile S1 apiObject selector
      have hbr : ∀ k, (k ∈ S1.aggregateStateMap.map Prod.fst)
          ↔ (alookup s.aggregateStateMap k).isSome = true := by
        intro k
        rw [← alookup_isSome]
        show (alookup (vpa.aggregateContainerStates.foldl
            (fun m key => amap m key AggregateContainerState.markNotAutoscaled)
            s.aggregateStateMap) k).isSome = true
          ↔ (alookup s.aggregateStateMap k).isSome = true
        rw [alookup_foldl_amap_idem_isSome hidem]
      refine ⟨hA, createdVpa S1 apiObject selector, h1,
        ⟨rfl, rfl, rfl, rfl, rfl, rfl, rfl⟩, ?_, ?_⟩
      · intro hcontra
        cases hcontra
      · intro old hold
        simp only [Option.some.injEq] at hold
        subst hold
        refine ⟨fun heq => absurd heq hsel, fun _ => ⟨hcSel, ?_, ?_, ?_⟩⟩
        · intro key acs hacs
          constructor
          · intro h
            exact ((hcLink key).mp h).2
          · intro hm
            exact (hcLink key).mpr ⟨(hbr key).mpr (by rw [hacs]; rfl), hm⟩
        · intro key h
          exact (hbr key).mp ((hcLink key).mp h).1
        · rw [hcCnt]
          rw [show GetMatchingPods S1 (createdVpa S1 apiObject selector)
              = GetMatchingPods s (createdVpa S1 apiObject selector) from
            getMatchingPods_congr2 rfl rfl rfl rfl]

end VpaModel
